import Mathlib

/-! # OpenXR Canonical Pose Tool: pose sampling, canonicalisation, symmetry and output

A shallow embedding of the pose pipeline of the tool
(`src/xr/xrp.h`, `src/xr/xrp.cpp`, `src/util/util_file.cpp`,
`src/items/inputs/action_pose.cpp`, `src/items/inputs/inputs.cpp`) and of
the driver around it (`src/main.cpp`, `XrpRunFrameLoop` of `src/xr/xrp.cpp`).

The C++ type `float` is embedded bit for bit as IEEE-754 binary32 (`F32`):
negation, `fabs` and the comparisons are exact, addition and subtraction
round to nearest, ties to even, and the fixed-point output of a value is the
decimal expansion of its exact value rounded to the precision. The OpenXR
runtime, the XML configuration, the reference files, `std::regex_match` and
the file system are inputs of the embedding.
-/

set_option maxRecDepth 100000

namespace CPT

/-! ## binary32 arithmetic -/

def bitLenAux : Nat → Nat → Nat
  | 0, _ => 0
  | f + 1, n => if n = 0 then 0 else bitLenAux f (n / 2) + 1

/-- Number of binary digits of `n` (0 for 0). -/
def bitLen (n : Nat) : Nat := bitLenAux n n

/-- An IEEE-754 binary32 value (the C++ type `float`), by its three bit fields:
sign bit, 8-bit biased exponent, 23-bit fraction. Every inhabitant is a bit
pattern a `float` can hold, NaN payloads and both zeros included. -/
structure F32 where
  sign : Bool
  exp : Fin 256
  man : Fin 8388608
  deriving DecidableEq, Repr

namespace F32

def isNaN (a : F32) : Bool := a.exp.val == 255 && a.man.val != 0

def isInf (a : F32) : Bool := a.exp.val == 255 && a.man.val == 0

/-- Neither NaN nor an infinity. -/
def isFinite (a : F32) : Bool := decide (a.exp.val < 255)

/-- Magnitude in units of 2^-149. An infinity lands on 2^277, above every
finite magnitude, so that the order of magnitudes is the order of values. -/
def mag (a : F32) : Nat :=
  if a.exp.val = 0 then a.man.val else (8388608 + a.man.val) * 2 ^ (a.exp.val - 1)

/-- Signed value in units of 2^-149 (both zeros are 0). -/
def toInt (a : F32) : Int := if a.sign then - (a.mag : Int) else (a.mag : Int)

/-- Unary minus of C++: flips the sign bit, of NaN too. -/
def neg (a : F32) : F32 := { a with sign := !a.sign }

/-- The `fabs` of C++: clears the sign bit. -/
def fabs (a : F32) : F32 := { a with sign := false }

/-- The C++ comparison `a < b`: false when either side is NaN. -/
def lt (a b : F32) : Bool := !a.isNaN && !b.isNaN && decide (a.toInt < b.toInt)

/-- The C++ comparison `a >= b`: false when either side is NaN. -/
def ge (a b : F32) : Bool := !a.isNaN && !b.isNaN && decide (b.toInt ≤ a.toInt)

def zero (s : Bool) : F32 := ⟨s, 0, 0⟩

def inf (s : Bool) : F32 := ⟨s, 255, 0⟩

/-- The NaN an invalid operation produces (its sign and payload are never
inspected by the program). -/
def qnan : F32 := ⟨false, 255, 4194304⟩

/-- The value with the given sign bit, exponent field and fraction field (each
field taken modulo its width). -/
def ofFields (s : Bool) (e m : Nat) : F32 :=
  ⟨s, ⟨e % 256, Nat.mod_lt _ (by decide)⟩, ⟨m % 8388608, Nat.mod_lt _ (by decide)⟩⟩

/-- Round a non-zero magnitude (units of 2^-149) to the nearest binary32 value,
ties to even, overflowing to infinity: below 2^23 the magnitude is a subnormal
and exact; otherwise its 24 leading bits `q` are kept and rounded by the
remainder `r`. -/
def ofMag (s : Bool) (n : Nat) : F32 :=
  if n < 8388608 then ofFields s 0 n
  else
    let sh := bitLen n - 24
    let q := n / 2 ^ sh
    let r := n % 2 ^ sh
    let up : Bool := decide (2 ^ sh < 2 * r) || (decide (2 ^ sh = 2 * r) && decide (q % 2 = 1))
    let q1 := if up then q + 1 else q
    let e := if q1 = 16777216 then sh + 2 else sh + 1
    let m := if q1 = 16777216 then 0 else q1 - 8388608
    if e < 255 then ofFields s e m else inf s

/-- The C++ `a + b` on `float`. -/
def add (a b : F32) : F32 :=
  if a.isNaN || b.isNaN then qnan
  else if a.isInf then (if b.isInf && (a.sign != b.sign) then qnan else a)
  else if b.isInf then b
  else
    let d : Int := a.toInt + b.toInt
    if d = 0 then zero (a.sign && b.sign)
    else ofMag (decide (d < 0)) d.natAbs

/-- The C++ `a - b` on `float`. -/
def sub (a b : F32) : F32 := add a (neg b)

/-- The literal `0.01f` (bit pattern 0x3C23D70A). -/
def c0_01 : F32 := ⟨false, 120, 2348810⟩

/-- The literal `0.02f` (bit pattern 0x3CA3D70A). -/
def c0_02 : F32 := ⟨false, 121, 2348810⟩

/-- The literal `1.0f`. -/
def one : F32 := ⟨false, 127, 0⟩

/-- The literal `0.99f` (bit pattern 0x3F7D70A4). -/
def c0_99 : F32 := ⟨false, 126, 8220836⟩

end F32

/-! ## `xr/xrp.h`: geometry helpers -/

structure XrQuaternionf where
  x : F32
  y : F32
  z : F32
  w : F32
  deriving DecidableEq, Repr

structure XrVector3f where
  x : F32
  y : F32
  z : F32
  deriving DecidableEq, Repr

structure XrPosef where
  orientation : XrQuaternionf
  position : XrVector3f
  deriving DecidableEq, Repr

/-- The function `XrpCompareFloat(x, y, tolerance)`: `fabs(x - y) < tolerance`. -/
def XrpCompareFloat (x y : F32) (tolerance : F32 := F32.c0_01) : Bool :=
  if F32.lt (F32.fabs (F32.sub x y)) tolerance then true else false

/-- The function `StandardizeXrQuaternion(q)`, returning the updated `q`. -/
def StandardizeXrQuaternion (q : XrQuaternionf) : XrQuaternionf :=
  if F32.ge q.w (F32.zero false) then q
  else { w := F32.neg q.w, x := F32.neg q.x, y := F32.neg q.y, z := F32.neg q.z }

/-- The operator `operator==(XrQuaternionf, XrQuaternionf)`. -/
def XrQuaternionf.eqTol (q1 q2 : XrQuaternionf) : Bool :=
  XrpCompareFloat q1.w q2.w && XrpCompareFloat q1.x q2.x && XrpCompareFloat q1.y q2.y
    && XrpCompareFloat q1.z q2.z

/-- The operator `operator==(XrVector3f, XrVector3f)`. -/
def XrVector3f.eqTol (vec1 vec2 : XrVector3f) : Bool :=
  XrpCompareFloat vec1.x vec2.x && XrpCompareFloat vec1.y vec2.y && XrpCompareFloat vec1.z vec2.z

/-- The component-wise negation (-w,-x,-y,-z), which denotes the same rotation. -/
def XrQuaternionf.negated (q : XrQuaternionf) : XrQuaternionf :=
  { w := F32.neg q.w, x := F32.neg q.x, y := F32.neg q.y, z := F32.neg q.z }

/-- All four components are finite (neither NaN nor infinite). -/
def XrQuaternionf.isFinite (q : XrQuaternionf) : Bool :=
  q.w.isFinite && q.x.isFinite && q.y.isFinite && q.z.isFinite

/-! ## `std::string` and `std::map` -/

/-- Lexicographic order on character sequences. -/
def ltChars : List Char → List Char → Bool
  | _, [] => false
  | [], _ :: _ => true
  | a :: as, b :: bs => decide (a.toNat < b.toNat) || (decide (a.toNat = b.toNat) && ltChars as bs)

/-- The `operator<` of `std::string`, the key order of `std::map<std::string, T>`:
lexicographic by unsigned bytes, which on UTF-8 text is lexicographic by code
point. -/
def strLt (a b : String) : Bool := ltChars a.toList b.toList

/-- A `std::map<std::string, T>` as the list of its entries in key order. -/
abbrev StdMap (T : Type) := List (String × T)

namespace StdMap

/-- The `find` of `std::map` (`none` for `end()`). -/
def find {T : Type} (m : StdMap T) (k : String) : Option T :=
  match m with
  | [] => none
  | (k1, v) :: rest => if k1 = k then some v else find rest k

def contains {T : Type} (m : StdMap T) (k : String) : Bool := (find m k).isSome

/-- The assignment `m[k] = v` for a key the map may or may not hold: the entry is replaced in
place or inserted at its position in key order. -/
def assign {T : Type} (m : StdMap T) (k : String) (v : T) : StdMap T :=
  match m with
  | [] => [(k, v)]
  | (k1, v1) :: rest =>
    if k1 = k then (k, v) :: rest
    else if strLt k k1 then (k, v) :: (k1, v1) :: rest
    else (k1, v1) :: assign rest k v

/-- The `operator[]` of `std::map` read as an rvalue: the map afterwards (a
value-initialised entry is inserted when the key is absent) and the value. -/
def subscript {T : Type} (m : StdMap T) (k : String) (dflt : T) : StdMap T × T :=
  match find m k with
  | some v => (m, v)
  | none => (assign m k dflt, dflt)

/-- The entry an iterator standing on key `k` moves to with `++`: the first
entry in key order whose key is greater than `k`. -/
def next {T : Type} (m : StdMap T) (k : String) : Option (String × T) :=
  List.find? (fun e => strLt k e.1) m

end StdMap

/-- The `find` of `std::string`: position of the first occurrence of `pat` at or
after position `pos`, `none` for `npos`. -/
def findSubstr (pat : List Char) : List Char → Nat → Option Nat
  | [], pos => if pat = [] then some pos else none
  | c :: cs, pos => if pat.isPrefixOf (c :: cs) then some pos else findSubstr pat cs (pos + 1)

/-- The `erase(pos, len)` of `std::string`; `none` when it throws
`std::out_of_range` (`pos > size()`, as for `npos`). -/
def eraseSubstr (s : List Char) (pos : Option Nat) (len : Nat) : Option (List Char) :=
  match pos with
  | none => none
  | some p => if p > s.length then none else some (s.take p ++ s.drop (p + len))

/-- The function `StripIllegalFilenameCharacters` (`util/util_file.cpp`):
`std::regex_replace` with the pattern `<|>|:|"|\/|\\|\||\?|\*`, which matches
exactly one of nine single characters, for a replacement that holds no `$` (the
program passes `_`). -/
def StripIllegalFilenameCharacters (str replace_with : String) : String :=
  String.join (str.toList.map fun c =>
    if c = '<' ∨ c = '>' ∨ c = ':' ∨ c = '"' ∨ c = '/' ∨ c = '\\' ∨ c = '|' ∨ c = '?' ∨ c = '*'
    then replace_with else String.singleton c)

/-! ## Fixed-point output of a `float` -/

/-- The character of a decimal digit. -/
def digitChar (d : Nat) : Char := Char.ofNat (48 + d % 10)

/-- The decimal digits of `n`, most significant first, in front of `acc`. -/
def decimalAux : Nat → Nat → List Char → List Char
  | 0, _, acc => acc
  | fuel + 1, n, acc =>
    if n < 10 then digitChar n :: acc
    else decimalAux fuel (n / 10) (digitChar n :: acc)

/-- The decimal digits of `n`, most significant first (`0` for 0). -/
def decimal (n : Nat) : List Char := decimalAux (n + 1) n []

/-- The last `p` decimal digits of `f`, zero-padded, most significant first. -/
def fracDigits : Nat → Nat → List Char
  | 0, _ => []
  | p + 1, f => fracDigits p (f / 10) ++ [digitChar f]

/-- The quotient `a / b` rounded to the nearest integer, ties to even. -/
def roundHalfEven (a b : Nat) : Nat :=
  let q := a / b
  let r := a % b
  if b < 2 * r ∨ (b = 2 * r ∧ q % 2 = 1) then q + 1 else q

/-- What `stream << std::fixed << std::setprecision(precision) << value` writes
for a `float` (the conversion `%.*f` of the value widened to `double`): the
exact value rounded to `precision` decimals, ties to even; six decimals for a
negative precision; no decimal point for precision 0; `inf` and `nan` for the
non-finite values. -/
def fixedFormat (value : F32) (precision : Int) : String :=
  let sign : List Char := if value.sign then ['-'] else []
  if value.isNaN then String.mk (sign ++ ['n', 'a', 'n'])
  else if value.isInf then String.mk (sign ++ ['i', 'n', 'f'])
  else
    let prec : Nat := if precision < 0 then 6 else precision.toNat
    let n := roundHalfEven (value.mag * 10 ^ prec) (2 ^ 149)
    String.mk (sign ++ decimal (n / 10 ^ prec)
      ++ (if prec = 0 then [] else '.' :: fracDigits prec (n % 10 ^ prec)))

/-! ## The OpenXR runtime and the files, as the program sees them -/

/-- The type `XrResult`: 0 is `XR_SUCCESS`, positive values are qualified successes,
negative values are errors. -/
abbrev XrResult := Int

def XR_SUCCESS : XrResult := 0

def XR_ERROR_PATH_UNSUPPORTED : XrResult := -22

/-- The macro `XR_UNQUALIFIED_SUCCESS(result)` of `openxr.h`: `result == 0`. -/
def XR_UNQUALIFIED_SUCCESS (result : XrResult) : Bool := result == 0

abbrev XrPath := Nat

abbrev XrAction := Nat

abbrev XrSpace := Nat

abbrev XrActionSet := Nat

abbrev XrTime := Int

/-- The constants `XR_NULL_HANDLE` and `XR_NULL_PATH`. -/
def XR_NULL_HANDLE : Nat := 0

def XR_SPACE_LOCATION_ORIENTATION_VALID_BIT : Nat := 1

def XR_SPACE_LOCATION_POSITION_VALID_BIT : Nat := 2

/-- The constant `XR_MAX_ACTION_NAME_SIZE`. -/
def XR_MAX_ACTION_NAME_SIZE : Nat := 64

structure XrSpaceLocation where
  locationFlags : Nat
  pose : XrPosef
  deriving DecidableEq, Repr

structure XrActionSuggestedBinding where
  action : XrAction
  binding : XrPath
  deriving DecidableEq, Repr

/-- The answers of the OpenXR runtime to the calls the tool makes, each as a
function of the call's arguments: the result code and the value written to
the out-parameter. Action state changes only in `xrSyncActions`, which the
tool calls once a tick, and every location is asked at the one predicted
display time of the tick. -/
structure XrRuntime where
  xrStringToPath : String → XrResult × XrPath
  xrPathToString : XrPath → XrResult × String
  xrCreateActionSet : XrResult × XrActionSet
  xrCreateAction : XrActionSet → String → List XrPath → XrResult × XrAction
  xrCreateActionSpace : XrAction → XrPath → XrResult × XrSpace
  xrSuggestInteractionProfileBindings : XrPath → List XrActionSuggestedBinding → XrResult
  xrAttachSessionActionSets : XrActionSet → XrResult
  xrSyncActions : XrActionSet → XrResult
  xrGetActionStatePose : XrAction → XrPath → XrResult × Bool
  xrLocateSpace : XrSpace → XrSpace → XrTime → XrResult × XrSpaceLocation
  xrGetCurrentInteractionProfile : XrPath → XrResult × XrPath

/-- The fields of `XrpContext` the program reads: `session`,
`instance_properties.runtimeName`, `reference_space` and
`current_frame_state.predictedDisplayTime`. -/
structure XrpContext where
  session : Nat
  runtimeName : String
  reference_space : XrSpace
  predictedDisplayTime : XrTime

/-- A `pose` element of a reference document, as `GetOutput` reads it: the
three attributes the XPath query tests (`none` when absent) and the values
`as_float` reads from the `X`, `Y`, `Z` (and `W`) children. -/
structure ReferencePoseNode where
  name : Option String
  base : Option String
  binding_path : Option String
  position : XrVector3f
  orientation : XrQuaternionf
  deriving DecidableEq, Repr

/-- A `//runtime/canonical_items/inputs/input` element of `cpt_config.xml`. -/
structure ReferenceInputNode where
  interaction_profile : String
  text : String

/-- What `select_node` yields: an exception, the empty node, or a node. -/
inductive XPathResult where
  | threw
  | empty
  | node (n : ReferencePoseNode)
  deriving DecidableEq, Repr

/-- Everything outside the program that one run depends on. -/
structure Env where
  rt : XrRuntime
  /-- The indeterminate value of an uninitialised `bool`. -/
  indeterminate : Bool
  /-- The `input` elements of the configuration file, in document order. -/
  reference_inputs : List ReferenceInputNode
  /-- `load_file`: the `/inputs/pose` elements of the file, none when it cannot be loaded. -/
  load_file : String → List ReferencePoseNode
  /-- `select_node` on a query built from strings that contain a single quote. -/
  select_node_quoted : List ReferencePoseNode → String → String → String → XPathResult

/-- What a call does: it returns `ok`, leaving the object or out-parameter it
works on as `out`, or it ends abnormally (a null pointer is dereferenced, an
array is overrun, an exception leaves the function). -/
inductive Outcome (α : Type) where
  | ret (ok : Bool) (out : α)
  | abnormal
  deriving DecidableEq, Repr

/-- The function `XrpStringToXrPath`: `XRP_CHECK_OR_RETURN` returns `false`, that is path 0,
when `xrStringToPath` fails. -/
def XrpStringToXrPath (rt : XrRuntime) (path : String) : XrPath :=
  if XR_UNQUALIFIED_SUCCESS (rt.xrStringToPath path).1 then (rt.xrStringToPath path).2 else 0

/-- The function `XrpXrPathToString`: `none` when it returns `false`. -/
def XrpXrPathToString (rt : XrRuntime) (path : XrPath) : Option String :=
  if (rt.xrPathToString path).1 ≠ XR_SUCCESS then none else some (rt.xrPathToString path).2

/-- The function `XrpGetInteractionProfileForUserPath`: `none` when it returns `false`. -/
def XrpGetInteractionProfileForUserPath (rt : XrRuntime) (user_path : String) : Option String :=
  let subaction_path := XrpStringToXrPath rt user_path
  if XR_UNQUALIFIED_SUCCESS (rt.xrGetCurrentInteractionProfile subaction_path).1 then
    XrpXrPathToString rt (rt.xrGetCurrentInteractionProfile subaction_path).2
  else none

/-- The function `XrpRoundFloatToString`. -/
def XrpRoundFloatToString (value : F32) (precision : Int) : String :=
  fixedFormat value precision

/-! ## `items/inputs/action_pose.{h,cpp}`: one pose action -/

structure PoseActionInfo where
  name : String
  reference : Bool
  subaction_paths : List String
  suggested_binding : String
  base : String
  deriving DecidableEq, Repr

structure PoseInfo where
  action_name : String
  binding_path : String
  interaction_profile : String
  base : String
  pose : XrPosef
  deriving DecidableEq, Repr

structure PoseOutputInfo where
  check_symmetrical : Bool
  is_orientation_symmetrical : Bool
  is_position_symmetrical : Bool
  pose_infos : List PoseInfo
  deriving DecidableEq, Repr

/-- The class `PoseInput`. A `std::shared_ptr<PoseInput>` is embedded as the key
under which the set's map `poses_` holds the object pointed to (`none` for a
null pointer): every `PoseInput` lives in exactly one entry of that map, and no
entry is replaced once the objects are initialised. -/
structure PoseInput where
  action_info_ : PoseActionInfo
  base_pose_ : Option String
  pose_action_ : XrAction
  action_spaces_ : StdMap XrSpace
  deriving DecidableEq, Repr

/-- The constructor `PoseInput(action_info)`. -/
def PoseInput.new (action_info : PoseActionInfo) : PoseInput :=
  { action_info_ := action_info, base_pose_ := none, pose_action_ := XR_NULL_HANDLE,
    action_spaces_ := [] }

/-- The second loop of `PoseInput::Init`: one action space per subaction path. -/
def PoseInput.InitSpaces (rt : XrRuntime) (self : PoseInput) : List String → Outcome PoseInput
  | [] => .ret true self
  | subaction :: rest =>
    let created := rt.xrCreateActionSpace self.pose_action_ (XrpStringToXrPath rt subaction)
    let slot := (StdMap.subscript self.action_spaces_ subaction XR_NULL_HANDLE).1
    if XR_UNQUALIFIED_SUCCESS created.1 then
      PoseInput.InitSpaces rt { self with action_spaces_ := StdMap.assign slot subaction created.2 } rest
    else .ret false { self with action_spaces_ := slot }

/-- The method `PoseInput::Init`. The two `name.copy` calls write `name.size()` bytes into
`actionName`, an array of `XR_MAX_ACTION_NAME_SIZE` bytes. -/
def PoseInput.Init (rt : XrRuntime) (action_set : XrActionSet) (self : PoseInput)
    (base_pose : Option String) : Outcome PoseInput :=
  let self1 := { self with base_pose_ := base_pose }
  let subaction_paths := self1.action_info_.subaction_paths.map (XrpStringToXrPath rt)
  if self1.action_info_.name.utf8ByteSize > XR_MAX_ACTION_NAME_SIZE then .abnormal
  else
    let created := rt.xrCreateAction action_set self1.action_info_.name subaction_paths
    if XR_UNQUALIFIED_SUCCESS created.1 then
      PoseInput.InitSpaces rt { self1 with pose_action_ := created.2 }
        self1.action_info_.subaction_paths
    else .ret false self1

/-- The method `PoseInput::GetActionSpace`: `action_spaces_[subaction_path]`, the null
handle for a subaction path the action has no space for. -/
def PoseInput.GetActionSpace (self : PoseInput) (subaction_path : String) : XrSpace :=
  (StdMap.subscript self.action_spaces_ subaction_path XR_NULL_HANDLE).2

def PoseInput.GetActionInfo (self : PoseInput) : PoseActionInfo := self.action_info_

/-- The method `PoseInput::GetSuggestedBinding` (it always returns `true`): the bindings
appended to `out_suggested_bindings`. -/
def PoseInput.GetSuggestedBinding (rt : XrRuntime) (self : PoseInput) :
    List XrActionSuggestedBinding :=
  self.action_info_.subaction_paths.map fun subaction_path =>
    { action := self.pose_action_,
      binding := XrpStringToXrPath rt (subaction_path ++ self.action_info_.suggested_binding) }

/-- The loop of `PoseInput::GetPoseInfo` over the subaction paths, `base` being
the object `base_pose_` points to; `none` when the function returns `false`. -/
def PoseInput.GetPoseInfoLoop (rt : XrRuntime) (context : XrpContext) (self : PoseInput)
    (base : Option PoseInput) : List String → List PoseInfo → Option (List PoseInfo)
  | [], pose_infos => some pose_infos
  | subaction :: rest, pose_infos =>
    let pose_state := rt.xrGetActionStatePose self.pose_action_ (XrpStringToXrPath rt subaction)
    if !XR_UNQUALIFIED_SUCCESS pose_state.1 then none
    else if !pose_state.2 then none
    else
      let pose_base_space : XrSpace :=
        match base with
        | some b => b.GetActionSpace subaction
        | none => context.reference_space
      let located := rt.xrLocateSpace (self.GetActionSpace subaction) pose_base_space
        context.predictedDisplayTime
      if !XR_UNQUALIFIED_SUCCESS located.1 then none
      else
        match XrpGetInteractionProfileForUserPath rt subaction with
        | none => none
        | some interaction_profile =>
          let action_pose : XrPosef :=
            { located.2.pose with orientation := StandardizeXrQuaternion located.2.pose.orientation }
          if located.2.locationFlags &&&
              (XR_SPACE_LOCATION_ORIENTATION_VALID_BIT ||| XR_SPACE_LOCATION_POSITION_VALID_BIT) = 0
          then none
          else
            let info : PoseInfo :=
              { action_name := self.action_info_.name,
                binding_path := subaction ++ self.action_info_.suggested_binding,
                interaction_profile := interaction_profile,
                base := match base with
                  | some b => subaction ++ b.GetActionInfo.suggested_binding
                  | none => "",
                pose := action_pose }
            PoseInput.GetPoseInfoLoop rt context self base rest (pose_infos ++ [info])

/-- The orientation test of `GetPoseInfo` on the first and second sample. -/
def orientationSymmetrical (q1 q2 : XrQuaternionf) : Bool :=
  XrpCompareFloat q1.w q2.w && XrpCompareFloat q1.x q2.x && XrpCompareFloat (F32.neg q1.y) q2.y
    && XrpCompareFloat (F32.neg q1.z) q2.z

/-- The position test of `GetPoseInfo` on the first and second sample. -/
def positionSymmetrical (vec1 vec2 : XrVector3f) : Bool :=
  XrpCompareFloat vec1.x (F32.neg vec2.x) && XrpCompareFloat vec1.y vec2.y
    && XrpCompareFloat vec1.z vec2.z

/-- The part of `PoseInput::GetPoseInfo` after the loop: the symmetry flags. -/
def PoseInput.classify (pose_infos : List PoseInfo) : PoseOutputInfo :=
  match pose_infos with
  | [p0, p1] =>
    { check_symmetrical := true,
      is_orientation_symmetrical :=
        if orientationSymmetrical p0.pose.orientation p1.pose.orientation then true else false,
      is_position_symmetrical :=
        if positionSymmetrical p0.pose.position p1.pose.position then true else false,
      pose_infos := pose_infos }
  | _ =>
    { check_symmetrical := false, is_orientation_symmetrical := false,
      is_position_symmetrical := false, pose_infos := pose_infos }

/-- The method `PoseInput::GetPoseInfo`, on the object `self` of the map `poses`, with
`out_pose_output_info` as the out-parameter holds it at the call. -/
def PoseInput.GetPoseInfo (rt : XrRuntime) (context : XrpContext)
    (poses : StdMap (Option PoseInput)) (self : PoseInput)
    (out_pose_output_info : PoseOutputInfo) : Outcome PoseOutputInfo :=
  if self.action_info_.reference then .ret true out_pose_output_info
  else
    match self.base_pose_ with
    | none =>
      match PoseInput.GetPoseInfoLoop rt context self none self.action_info_.subaction_paths [] with
      | none => .ret false out_pose_output_info
      | some pose_infos => .ret true (PoseInput.classify pose_infos)
    | some key =>
      match StdMap.find poses key with
      | some (some b) =>
        match PoseInput.GetPoseInfoLoop rt context self (some b)
            self.action_info_.subaction_paths [] with
        | none => .ret false out_pose_output_info
        | some pose_infos => .ret true (PoseInput.classify pose_infos)
      | _ => .abnormal

/-! ## `items/inputs/inputs.{h,cpp}`: the set of pose actions -/

/-- An `action` element of the configuration, as `Init` reads it: the values
of its attributes (the empty string for an absent attribute, `as_bool` of
`reference`) and the texts of its `subaction_path` children. -/
structure ActionNode where
  type : String
  name : String
  suggested_binding : String
  base : String
  reference : Bool
  subaction_paths : List String
  deriving DecidableEq, Repr

/-- The `inputs` element of the configuration: its `actions/action` elements
and the texts of its `interaction_profiles/interaction_profile` elements, in
document order. -/
structure InputsConfig where
  actions : List ActionNode
  interaction_profiles : List String
  deriving DecidableEq, Repr

/-- The class `InputItemSet`. -/
structure InputItemSet where
  config_ : InputsConfig
  poses_ : StdMap (Option PoseInput)
  action_set_ : XrActionSet
  deriving DecidableEq, Repr

/-- The constructor `InputItemSet(inputs_config)`. -/
def InputItemSet.new (inputs_config : InputsConfig) : InputItemSet :=
  { config_ := inputs_config, poses_ := [], action_set_ := 0 }

/-- The first loop of `InputItemSet::Init`: the configured actions become
entries of `poses_`. -/
def InputItemSet.InitParse : List ActionNode → StdMap (Option PoseInput) → StdMap (Option PoseInput)
  | [], poses => poses
  | action_node :: rest, poses =>
    if action_node.type = "pose" then
      if action_node.name = "" ∨ action_node.suggested_binding = "" then
        InputItemSet.InitParse rest poses
      else
        let pose_info : PoseActionInfo :=
          { name := action_node.name, reference := action_node.reference,
            subaction_paths := action_node.subaction_paths,
            suggested_binding := action_node.suggested_binding, base := action_node.base }
        InputItemSet.InitParse rest
          (StdMap.assign poses action_node.name (some (PoseInput.new pose_info)))
    else InputItemSet.InitParse rest poses

/-- The second loop of `InputItemSet::Init`, `for (const auto &pose : poses_)`,
from the entry `it` the iterator stands on (`none` for `end()`). The body
evaluates `poses_[base]`, which inserts a null entry for a name the map does
not hold, while the iteration is under way; `++it` then moves on in the map as
it is after the body. The first argument bounds the number of iterations
(`none` when it is used up). -/
def InputItemSet.InitPoses (rt : XrRuntime) (action_set : XrActionSet) :
    Nat → StdMap (Option PoseInput) → Option (String × Option PoseInput) →
    List XrActionSuggestedBinding →
    Option (Outcome (StdMap (Option PoseInput) × List XrActionSuggestedBinding))
  | 0, _, _, _ => none
  | _ + 1, poses, none, suggested_bindings => some (.ret true (poses, suggested_bindings))
  | _ + 1, _, some (_, none), _ => some .abnormal
  | fuel + 1, poses, some (key, some pose), suggested_bindings =>
    let looked := StdMap.subscript poses pose.GetActionInfo.base none
    let base_pose : Option String :=
      match looked.2 with
      | some _ => some pose.GetActionInfo.base
      | none => none
    match PoseInput.Init rt action_set pose base_pose with
    | .abnormal => some .abnormal
    | .ret false pose1 => some (.ret false (StdMap.assign looked.1 key (some pose1), suggested_bindings))
    | .ret true pose1 =>
      let poses1 := StdMap.assign looked.1 key (some pose1)
      InputItemSet.InitPoses rt action_set fuel poses1 (StdMap.next poses1 key)
        (suggested_bindings ++ pose1.GetSuggestedBinding rt)

/-- The third loop of `InputItemSet::Init`: the bindings are suggested for every
configured interaction profile; `false` when the function returns `false`. -/
def InputItemSet.InitSuggest (rt : XrRuntime) (suggested_bindings : List XrActionSuggestedBinding) :
    List String → Bool
  | [] => true
  | interaction_profile_string :: rest =>
    let result := rt.xrSuggestInteractionProfileBindings
      (XrpStringToXrPath rt interaction_profile_string) suggested_bindings
    if result = XR_ERROR_PATH_UNSUPPORTED then InputItemSet.InitSuggest rt suggested_bindings rest
    else if XR_UNQUALIFIED_SUCCESS result then InputItemSet.InitSuggest rt suggested_bindings rest
    else false

/-- The method `InputItemSet::Init`. The loop over `poses_` ends within `size() + 2` rounds
(`InitPoses_isSome`), so the result is never `none`. -/
def InputItemSet.Init (rt : XrRuntime) (self : InputItemSet) : Option (Outcome InputItemSet) :=
  let created := rt.xrCreateActionSet
  if XR_UNQUALIFIED_SUCCESS created.1 then
    let poses := InputItemSet.InitParse self.config_.actions self.poses_
    match InputItemSet.InitPoses rt created.2 (poses.length + 2) poses poses.head? [] with
    | none => none
    | some .abnormal => some .abnormal
    | some (.ret false (poses1, _)) =>
      some (.ret false { self with action_set_ := created.2, poses_ := poses1 })
    | some (.ret true (poses1, suggested_bindings)) =>
      let self1 := { self with action_set_ := created.2, poses_ := poses1 }
      if InputItemSet.InitSuggest rt suggested_bindings self.config_.interaction_profiles then
        if XR_UNQUALIFIED_SUCCESS (rt.xrAttachSessionActionSets created.2) then
          some (.ret true self1)
        else some (.ret false self1)
      else some (.ret false self1)
  else some (.ret false self)

/-! ### The output documents -/

structure XmlAttribute where
  name : String
  value : String
  deriving DecidableEq, Repr

/-- An element that holds character data only, as `MakeNode` appends it. -/
structure XmlValueNode where
  name : String
  value : String
  deriving DecidableEq, Repr

/-- An element with attributes and value children: `position`, `orientation`. -/
structure XmlComponentNode where
  name : String
  attributes : List XmlAttribute
  children : List XmlValueNode
  deriving DecidableEq, Repr

/-- An element with attributes and component children: `pose`. -/
structure XmlPoseNode where
  name : String
  attributes : List XmlAttribute
  children : List XmlComponentNode
  deriving DecidableEq, Repr

/-- A top-level element of an output document: `inputs`. -/
structure XmlInputsNode where
  name : String
  attributes : List XmlAttribute
  children : List XmlPoseNode
  deriving DecidableEq, Repr

/-- A `pugi::xml_document` built by `GetOutput`: its top-level elements. -/
abbrev XmlDocument := List XmlInputsNode

/-- The value `append_attribute(..) = b` writes for a `bool`. -/
def boolAttributeValue (b : Bool) : String := if b then "true" else "false"

/-- The value of the first attribute called `name`, if there is one. -/
def attributeValue (attributes : List XmlAttribute) (name : String) : Option String :=
  (attributes.find? fun a => a.name = name).map fun a => a.value

structure ItemFile where
  document : XmlDocument
  name : String
  deriving DecidableEq, Repr

structure ItemSetOutput where
  output_files : List ItemFile
  deriving DecidableEq, Repr

/-- The function `MakeNode(node, node_name, node_value)`: the child appended to `node`. -/
def MakeNode (node_name node_value : String) : XmlValueNode :=
  { name := node_name, value := node_value }

/-- The function `LoadReferenceXMLDocument`: its return value and `out_document`. -/
def LoadReferenceXMLDocument (env : Env) (interaction_profile : String) :
    Bool × List ReferencePoseNode :=
  match env.reference_inputs.find? fun n => n.interaction_profile = interaction_profile with
  | some n => (true, env.load_file n.text)
  | none => (false, [])

def hasSingleQuote (s : String) : Bool := s.toList.contains (Char.ofNat 39)

/-- The `select_node` call of `GetOutput`: the first `pose` element of the
reference document whose `name`, `base` and `binding_path` attributes equal
the three strings. A string holding a single quote ends the XPath literal it
is pasted into; what the query then yields is left to `select_node_quoted`. -/
def selectReferencePose (env : Env) (reference_doc : List ReferencePoseNode)
    (action_name base binding_path : String) : XPathResult :=
  if hasSingleQuote action_name || hasSingleQuote base || hasSingleQuote binding_path then
    env.select_node_quoted reference_doc action_name base binding_path
  else
    match reference_doc.find? fun n =>
        n.name = some action_name ∧ n.base = some base ∧ n.binding_path = some binding_path with
    | some n => .node n
    | none => .empty

/-- The `position` element `GetOutput` writes for one sample; `reference` is the
reference node found, if any. -/
def positionNode (pose_output_info : PoseOutputInfo) (pose_info : PoseInfo)
    (reference : Option ReferencePoseNode) : XmlComponentNode :=
  { name := "position",
    attributes :=
      [{ name := "unit", value := "meters" }]
      ++ (if pose_output_info.check_symmetrical then
            [{ name := "symmetrical",
               value := boolAttributeValue pose_output_info.is_position_symmetrical }]
          else [])
      ++ (match reference with
          | some r =>
            [{ name := "matches_canonical",
               value := boolAttributeValue (XrVector3f.eqTol r.position pose_info.pose.position) }]
          | none => []),
    children :=
      [MakeNode "X" (XrpRoundFloatToString pose_info.pose.position.x 3),
       MakeNode "Y" (XrpRoundFloatToString pose_info.pose.position.y 3),
       MakeNode "Z" (XrpRoundFloatToString pose_info.pose.position.z 3)] }

/-- The `orientation` element `GetOutput` writes for one sample. -/
def orientationNode (pose_output_info : PoseOutputInfo) (pose_info : PoseInfo)
    (reference : Option ReferencePoseNode) : XmlComponentNode :=
  { name := "orientation",
    attributes :=
      (if pose_output_info.check_symmetrical then
            [{ name := "symmetrical",
               value := boolAttributeValue pose_output_info.is_orientation_symmetrical }]
          else [])
      ++ (match reference with
          | some r =>
            [{ name := "matches_canonical",
               value := boolAttributeValue
                 (XrQuaternionf.eqTol r.orientation pose_info.pose.orientation) }]
          | none => []),
    children :=
      [MakeNode "W" (XrpRoundFloatToString pose_info.pose.orientation.w 2),
       MakeNode "X" (XrpRoundFloatToString pose_info.pose.orientation.x 2),
       MakeNode "Y" (XrpRoundFloatToString pose_info.pose.orientation.y 2),
       MakeNode "Z" (XrpRoundFloatToString pose_info.pose.orientation.z 2)] }

/-- The `pose` element `GetOutput` writes for one sample. -/
def poseNode (pose_output_info : PoseOutputInfo) (pose_info : PoseInfo)
    (reference : Option ReferencePoseNode) : XmlPoseNode :=
  { name := "pose",
    attributes :=
      [{ name := "name", value := pose_info.action_name },
       { name := "base", value := pose_info.base },
       { name := "binding_path", value := pose_info.binding_path }],
    children :=
      [positionNode pose_output_info pose_info reference,
       orientationNode pose_output_info pose_info reference] }

/-- The call `document.child("inputs").append_child(..)`: the node is appended to the
first top-level element called `inputs`. -/
def appendToInputs (document : XmlDocument) (pose_node : XmlPoseNode) : XmlDocument :=
  match document with
  | [] => []
  | n :: rest =>
    if n.name = "inputs" then { n with children := n.children ++ [pose_node] } :: rest
    else n :: appendToInputs rest pose_node

/-- The file name of a profile: `/interaction_profiles/` is erased at its first
occurrence and the illegal characters are replaced; `none` when `erase` throws
because the profile string does not contain `/interaction_profiles/`. -/
def interactionProfileSafe (interaction_profile : String) : Option String :=
  let interaction_profile_unwanted := "/interaction_profiles/"
  match eraseSubstr interaction_profile.toList
      (findSubstr interaction_profile_unwanted.toList interaction_profile.toList 0)
      interaction_profile_unwanted.length with
  | none => none
  | some erased => some (StripIllegalFilenameCharacters (String.mk erased) "_")

/-- The body of the inner loop of `GetOutput` for one sample, on the map
`interaction_profile_files`; `none` when an exception leaves it. -/
def InputItemSet.GetOutputPose (env : Env) (pose_output_info : PoseOutputInfo)
    (interaction_profile_files : StdMap ItemFile) (pose_info : PoseInfo) :
    Option (StdMap ItemFile) :=
  let opened : Option (StdMap ItemFile) :=
    if StdMap.contains interaction_profile_files pose_info.interaction_profile then
      some interaction_profile_files
    else
      match interactionProfileSafe pose_info.interaction_profile with
      | none => none
      | some safe_name =>
        some (StdMap.assign interaction_profile_files pose_info.interaction_profile
          { name := safe_name,
            document :=
              [{ name := "inputs",
                 attributes :=
                   [{ name := "interaction_profile", value := pose_info.interaction_profile }],
                 children := [] }] })
  match opened with
  | none => none
  | some files =>
    let reference_doc := (LoadReferenceXMLDocument env pose_info.interaction_profile).2
    match selectReferencePose env reference_doc pose_info.action_name pose_info.base
        pose_info.binding_path with
    | .threw => none
    | found =>
      let reference : Option ReferencePoseNode :=
        match found with
        | .node n => some n
        | _ => none
      match StdMap.find files pose_info.interaction_profile with
      | none => some files
      | some file =>
        some (StdMap.assign files pose_info.interaction_profile
          { file with
            document :=
              appendToInputs file.document (poseNode pose_output_info pose_info reference) })

/-- The inner loop of `GetOutput` over the samples of one action. -/
def InputItemSet.GetOutputPoses (env : Env) (pose_output_info : PoseOutputInfo) :
    List PoseInfo → StdMap ItemFile → Option (StdMap ItemFile)
  | [], files => some files
  | pose_info :: rest, files =>
    match InputItemSet.GetOutputPose env pose_output_info files pose_info with
    | none => none
    | some files1 => InputItemSet.GetOutputPoses env pose_output_info rest files1

/-- The local `PoseOutputInfo pose_output_info;` of `GetOutput` before the call
of `GetPoseInfo`: an empty vector and three indeterminate flags. -/
def PoseOutputInfo.uninitialized (env : Env) : PoseOutputInfo :=
  { check_symmetrical := env.indeterminate, is_orientation_symmetrical := env.indeterminate,
    is_position_symmetrical := env.indeterminate, pose_infos := [] }

/-- The outer loop of `GetOutput` over the entries of `poses_` still to visit. -/
def InputItemSet.GetOutputLoop (env : Env) (context : XrpContext)
    (poses : StdMap (Option PoseInput)) :
    List (String × Option PoseInput) → StdMap ItemFile → Outcome (StdMap ItemFile)
  | [], files => .ret true files
  | (key, pose) :: rest, files =>
    if key = "" then InputItemSet.GetOutputLoop env context poses rest files
    else
      match pose with
      | none => .abnormal
      | some p =>
        match PoseInput.GetPoseInfo env.rt context poses p (PoseOutputInfo.uninitialized env) with
        | .abnormal => .abnormal
        | .ret false _ => .ret false files
        | .ret true info =>
          match InputItemSet.GetOutputPoses env info info.pose_infos files with
          | none => .abnormal
          | some files1 => InputItemSet.GetOutputLoop env context poses rest files1

/-- The method `InputItemSet::GetOutput`, with `out_itemset` as the caller passes it. -/
def InputItemSet.GetOutput (env : Env) (context : XrpContext) (self : InputItemSet)
    (out_itemset : ItemSetOutput) : Outcome ItemSetOutput :=
  if XR_UNQUALIFIED_SUCCESS (env.rt.xrSyncActions self.action_set_) then
    match InputItemSet.GetOutputLoop env context self.poses_ self.poses_ [] with
    | .abnormal => .abnormal
    | .ret false _ => .ret false out_itemset
    | .ret true interaction_profile_files =>
      .ret true
        { output_files := out_itemset.output_files ++ interaction_profile_files.map fun e => e.2 }
  else .ret false out_itemset

/-! ## Properties of a pose map used in the statements -/

/-- The entries are in strictly increasing key order. -/
def StdMap.Sorted {T : Type} (m : StdMap T) : Prop :=
  m.Pairwise fun a b => strLt a.1 b.1 = true

/-- The map holds a (non-null) pose action under the name `b`. -/
def resolves (m : StdMap (Option PoseInput)) (b : String) : Bool :=
  match StdMap.find m b with
  | some (some _) => true
  | _ => false

/-- The base pointer of `p` is the action the map holds under the base name of
`p`, and null when the map holds no action under that name; the map has an
entry under that name (a null one if it holds no action there). -/
def BaseOk (m : StdMap (Option PoseInput)) (p : PoseInput) : Prop :=
  (p.base_pose_ = if resolves m p.action_info_.base then some p.action_info_.base else none) ∧
    (StdMap.find m p.action_info_.base).isSome = true

/-- Every action is held under its own, non-empty name. -/
def Named (m : StdMap (Option PoseInput)) : Prop :=
  ∀ k p, (k, some p) ∈ m → p.action_info_.name = k ∧ k ≠ ""

/-- The descriptor `InitParse` builds from an accepted `action` element. -/
def ActionNode.descriptor (action_node : ActionNode) : PoseActionInfo :=
  { name := action_node.name, reference := action_node.reference,
    subaction_paths := action_node.subaction_paths,
    suggested_binding := action_node.suggested_binding, base := action_node.base }

/-- The `action` element is of type `pose` and has a name and a suggested binding. -/
def ActionNode.accepted (action_node : ActionNode) : Prop :=
  action_node.type = "pose" ∧ action_node.name ≠ "" ∧ action_node.suggested_binding ≠ ""

/-- Where the iterator of the loop over `poses_` stands: every action before it
has its base pointer set. -/
def ItInv (m : StdMap (Option PoseInput)) : Option (String × Option PoseInput) → Prop
  | none => ∀ k p, (k, some p) ∈ m → BaseOk m p
  | some (key, v) =>
    (key, v) ∈ m ∧ ∀ k p, (k, some p) ∈ m → strLt k key = true → BaseOk m p

/-- An upper bound on the rounds the loop over `poses_` still makes from the
entry `it`: one for `it` and one for every action behind it (a null entry ends
the loop at once). -/
def roundsLeft (m : StdMap (Option PoseInput)) : Option (String × Option PoseInput) → Nat
  | some (key, some _) => 1 + m.countP fun e => strLt key e.1 && e.2.isSome
  | _ => 0

/-- The pose `GetPoseInfo` stores for one subaction path: the action's space of
that path located relative to the base action's space of the same path, or
relative to the context's reference space when there is no base, with the
orientation canonicalised. -/
def PoseInput.locatedPose (rt : XrRuntime) (context : XrpContext) (self : PoseInput)
    (base : Option PoseInput) (subaction : String) : XrPosef :=
  let pose_base_space : XrSpace :=
    match base with
    | some b => b.GetActionSpace subaction
    | none => context.reference_space
  let located := rt.xrLocateSpace (self.GetActionSpace subaction) pose_base_space
    context.predictedDisplayTime
  { located.2.pose with orientation := StandardizeXrQuaternion located.2.pose.orientation }

/-- The `pose` element `e` was written by `GetOutput` for a sample of an action
of the map: `GetPoseInfo` returned `true` on that action with the results
`info`, and `e` is the element built for one of the samples of `info`. -/
def Produced (env : Env) (context : XrpContext) (poses : StdMap (Option PoseInput))
    (e : XmlPoseNode) : Prop :=
  ∃ key p info pose_info reference,
    (key, some p) ∈ poses ∧ key ≠ "" ∧
    PoseInput.GetPoseInfo env.rt context poses p (PoseOutputInfo.uninitialized env)
      = .ret true info ∧
    pose_info ∈ info.pose_infos ∧ e = poseNode info pose_info reference

/-- Every `pose` element of every document of the map satisfies `P`. -/
def FilesInv (P : XmlPoseNode → Prop) (files : StdMap ItemFile) : Prop :=
  ∀ k file, (k, file) ∈ files → ∀ n ∈ file.document, ∀ e ∈ n.children, P e

/-! ## Example data -/

/-- A quaternion whose `w` is a NaN: (w, x, y, z) = (NaN, 1, 0, 0). -/
def qNaN : XrQuaternionf :=
  { w := F32.qnan, x := F32.one, y := F32.zero false, z := F32.zero false }

/-- The quaternion (w, x, y, z) = (-1, 0.01, 0, -0). -/
def qNegW : XrQuaternionf :=
  { w := F32.neg F32.one, x := F32.c0_01, y := F32.zero false, z := F32.zero true }

/-- The half-turn about the x axis, (w, x, y, z) = (0, 1, 0, 0). -/
def qHalfTurn : XrQuaternionf :=
  { w := F32.zero false, x := F32.one, y := F32.zero false, z := F32.zero false }

/-- The component-wise mirror image (w, x, -y, -z) the symmetry test looks for. -/
def XrQuaternionf.mirrored (q : XrQuaternionf) : XrQuaternionf :=
  { w := q.w, x := q.x, y := F32.neg q.y, z := F32.neg q.z }

/-- The literal `0.1f` (bit pattern 0x3DCCCCCD). -/
def F32.c0_1 : F32 := ⟨false, 123, 5033165⟩

/-- The literal `0.2f` (bit pattern 0x3E4CCCCD). -/
def F32.c0_2 : F32 := ⟨false, 124, 5033165⟩

/-- The literal `0.3f` (bit pattern 0x3E99999A). -/
def F32.c0_3 : F32 := ⟨false, 125, 1677722⟩

/-- The identity orientation (w, x, y, z) = (1, 0, 0, 0). -/
def qIdentity : XrQuaternionf :=
  { w := F32.one, x := F32.zero false, y := F32.zero false, z := F32.zero false }

/-- The orientation (w, x, y, z) = (+inf, 0, 0, 0). -/
def qInfW : XrQuaternionf :=
  { w := F32.inf false, x := F32.zero false, y := F32.zero false, z := F32.zero false }

/-- A runtime in which every call succeeds and reports the action active:
`/user/hand/left` is path 1 and `/user/hand/right` path 2, the action called
`name` gets the handle `name.length`, its space for path `p` the handle
`10 * action + p`; a space of path 1 is located at `left`, any other at `right`,
with the location flags `flags`; the interaction profile is that of the Index
controller. -/
def exRuntime (left right : XrPosef) (flags : Nat) : XrRuntime where
  xrStringToPath s :=
    (XR_SUCCESS, if s = "/user/hand/left" then 1 else if s = "/user/hand/right" then 2 else 3)
  xrPathToString _ := (XR_SUCCESS, "/interaction_profiles/valve/index_controller")
  xrCreateActionSet := (XR_SUCCESS, 1)
  xrCreateAction _ name _ := (XR_SUCCESS, name.length)
  xrCreateActionSpace action path := (XR_SUCCESS, 10 * action + path)
  xrSuggestInteractionProfileBindings _ _ := XR_SUCCESS
  xrAttachSessionActionSets _ := XR_SUCCESS
  xrSyncActions _ := XR_SUCCESS
  xrGetActionStatePose _ _ := (XR_SUCCESS, true)
  xrLocateSpace space _ _ :=
    (XR_SUCCESS, { locationFlags := flags, pose := if space % 10 = 1 then left else right })
  xrGetCurrentInteractionProfile _ := (XR_SUCCESS, 4)

def exContext : XrpContext :=
  { session := 1, runtimeName := "SteamVR/OpenXR", reference_space := 5,
    predictedDisplayTime := 0 }

/-- The descriptor of the end-to-end scenario: `grip` on both hands, no base. -/
def exGripInfo : PoseActionInfo :=
  { name := "grip", reference := false,
    subaction_paths := ["/user/hand/left", "/user/hand/right"],
    suggested_binding := "/input/grip/pose", base := "" }

/-- The action `grip` as `Init` leaves it under `exRuntime`. -/
def exGrip : PoseInput :=
  { action_info_ := exGripInfo, base_pose_ := none, pose_action_ := 4,
    action_spaces_ := [("/user/hand/left", 41), ("/user/hand/right", 42)] }

/-- An out-parameter as the caller of `GetPoseInfo` may hold it. -/
def exOut : PoseOutputInfo :=
  { check_symmetrical := true, is_orientation_symmetrical := true,
    is_position_symmetrical := true, pose_infos := [] }

def exZeroPosition : XrVector3f :=
  { x := F32.zero false, y := F32.zero false, z := F32.zero false }

/-- The left-hand pose of the end-to-end scenario: identity orientation at
(0.1, 0.2, 0.3). -/
def exLeftPose : XrPosef :=
  { orientation := qIdentity, position := { x := F32.c0_1, y := F32.c0_2, z := F32.c0_3 } }

/-- The right-hand pose of the end-to-end scenario: identity orientation at
(-0.1, 0.2, 0.3). -/
def exRightPose : XrPosef :=
  { orientation := qIdentity,
    position := { x := F32.neg F32.c0_1, y := F32.c0_2, z := F32.c0_3 } }

/-- The sample `GetPoseInfo` builds for `grip` on the hand `subaction`. -/
def exSample (subaction : String) (pose : XrPosef) : PoseInfo :=
  { action_name := "grip", binding_path := subaction ++ "/input/grip/pose",
    interaction_profile := "/interaction_profiles/valve/index_controller", base := "",
    pose := pose }

/-- The result of a call that returned `true`. -/
def Outcome.value? {α : Type} : Outcome α → Option α
  | .ret true out => some out
  | _ => none

/-- An orientation with four non-zero components, (w, x, y, z) = (1, 0.1, 0.2, 0.3). -/
def qTilted : XrQuaternionf :=
  { w := F32.one, x := F32.c0_1, y := F32.c0_2, z := F32.c0_3 }

/-- A component of an orientation sample. -/
inductive Component where
  | w
  | x
  | y
  | z
  deriving DecidableEq, Repr

/-- The value `v + 0.02f`, or `v - 0.02f` when `subtract` is set. -/
def perturbValue (v : F32) (subtract : Bool) : F32 :=
  if subtract then F32.sub v F32.c0_02 else F32.add v F32.c0_02

/-- The sample with `0.02f` added to (or subtracted from) one component. -/
def XrQuaternionf.perturb (q : XrQuaternionf) (c : Component) (subtract : Bool) :
    XrQuaternionf :=
  match c with
  | .w => { q with w := perturbValue q.w subtract }
  | .x => { q with x := perturbValue q.x subtract }
  | .y => { q with y := perturbValue q.y subtract }
  | .z => { q with z := perturbValue q.z subtract }

/-- A finite value of magnitude at most 1. -/
def F32.inUnitRange (a : F32) : Bool := a.isFinite && decide (a.mag ≤ F32.one.mag)

/-- Every component is finite and of magnitude at most 1, as in a unit quaternion. -/
def XrQuaternionf.inUnitRange (q : XrQuaternionf) : Bool :=
  q.w.inUnitRange && q.x.inUnitRange && q.y.inUnitRange && q.z.inUnitRange

/-- The tolerance `0.01f - 2^-22` (bit pattern 0x3C23D60A): `0.01f` lowered by a
bound on the rounding error of a sum of two values of magnitude at most 1. -/
def F32.c0_01_tight : F32 := ⟨false, 120, 2348554⟩

/-- The orientation test of `GetPoseInfo` with the tolerance made explicit. -/
def orientationSymmetricalWithin (tolerance : F32) (q1 q2 : XrQuaternionf) : Bool :=
  XrpCompareFloat q1.w q2.w tolerance && XrpCompareFloat q1.x q2.x tolerance
    && XrpCompareFloat (F32.neg q1.y) q2.y tolerance
    && XrpCompareFloat (F32.neg q1.z) q2.z tolerance

/-- A tolerance of the binade of `0.01f`: positive, with magnitude `m * 2^119`. -/
def F32.IsTolerance (tol : F32) (m : Nat) : Prop :=
  tol.isNaN = false ∧ tol.toInt = ((m * 2 ^ 119 : Nat) : Int) ∧ 8388608 ≤ m ∧ m < 16777216

/-- The orientation (w, x, y, z) = (0.99, 0, 0, 0). -/
def qW099 : XrQuaternionf :=
  { w := F32.c0_99, x := F32.zero false, y := F32.zero false, z := F32.zero false }

/-- A configuration whose only action, `grip`, names the base `aim`, which is
not configured. -/
def exUnresolvedConfig : InputsConfig :=
  { actions :=
      [{ type := "pose", name := "grip", suggested_binding := "/input/grip/pose", base := "aim",
         reference := false, subaction_paths := ["/user/hand/left", "/user/hand/right"] }],
    interaction_profiles := ["/interaction_profiles/valve/index_controller"] }

/-- The action `grip` as `Init` leaves it for `exUnresolvedConfig`: its base
name is `aim`, its base pointer is null. -/
def exGripUnresolved : PoseInput :=
  { action_info_ :=
      { name := "grip", reference := false,
        subaction_paths := ["/user/hand/left", "/user/hand/right"],
        suggested_binding := "/input/grip/pose", base := "aim" },
    base_pose_ := none, pose_action_ := 4,
    action_spaces_ := [("/user/hand/left", 41), ("/user/hand/right", 42)] }

/-- The set `Init` leaves for `exUnresolvedConfig`: a null entry under `aim`, and
`grip` with a null base pointer. -/
def exUnresolvedSet : InputItemSet :=
  { config_ := exUnresolvedConfig,
    poses_ := [("aim", none), ("grip", some exGripUnresolved)],
    action_set_ := 1 }

/-- A configuration in which `grip` names the base `aim`, a reference action
that is configured after it. -/
def exBaseConfig : InputsConfig :=
  { actions :=
      [{ type := "pose", name := "grip", suggested_binding := "/input/grip/pose", base := "aim",
         reference := false, subaction_paths := ["/user/hand/left", "/user/hand/right"] },
       { type := "pose", name := "aim", suggested_binding := "/input/aim/pose", base := "",
         reference := true, subaction_paths := ["/user/hand/left", "/user/hand/right"] }],
    interaction_profiles := ["/interaction_profiles/valve/index_controller"] }

/-- The action `aim` as `Init` leaves it for `exBaseConfig`. -/
def exAim : PoseInput :=
  { action_info_ :=
      { name := "aim", reference := true,
        subaction_paths := ["/user/hand/left", "/user/hand/right"],
        suggested_binding := "/input/aim/pose", base := "" },
    base_pose_ := none, pose_action_ := 3,
    action_spaces_ := [("/user/hand/left", 31), ("/user/hand/right", 32)] }

/-- The action `grip` as `Init` leaves it for `exBaseConfig`: its base is `aim`. -/
def exGripOnAim : PoseInput :=
  { action_info_ :=
      { name := "grip", reference := false,
        subaction_paths := ["/user/hand/left", "/user/hand/right"],
        suggested_binding := "/input/grip/pose", base := "aim" },
    base_pose_ := some "aim", pose_action_ := 4,
    action_spaces_ := [("/user/hand/left", 41), ("/user/hand/right", 42)] }

/-- The set `Init` leaves for `exBaseConfig`. -/
def exBaseSet : InputItemSet :=
  { config_ := exBaseConfig,
    poses_ := [("", none), ("aim", some exAim), ("grip", some exGripOnAim)],
    action_set_ := 1 }

/-- An environment around `exRuntime` without reference documents. -/
def exEnv (left right : XrPosef) (flags : Nat) : Env where
  rt := exRuntime left right flags
  indeterminate := true
  reference_inputs := []
  load_file _ := []
  select_node_quoted _ _ _ _ := .empty

/-- The set `Init` leaves for the end-to-end scenario: `grip` alone, no base. -/
def exGripSet : InputItemSet :=
  { config_ :=
      { actions :=
          [{ type := "pose", name := "grip", suggested_binding := "/input/grip/pose", base := "",
             reference := false, subaction_paths := ["/user/hand/left", "/user/hand/right"] }],
        interaction_profiles := ["/interaction_profiles/valve/index_controller"] },
    poses_ := [("", none), ("grip", some exGrip)],
    action_set_ := 1 }

/-- The results of `GetPoseInfo` in the end-to-end scenario. -/
def exGripInfoOut : PoseOutputInfo :=
  PoseInput.classify
    [exSample "/user/hand/left" exLeftPose, exSample "/user/hand/right" exRightPose]

/-- The output of `GetOutput` in the end-to-end scenario: one document, for the
profile of the Index controller, with one `pose` element per hand. -/
def exGripOutput : ItemSetOutput :=
  { output_files :=
      [{ name := "valve_index_controller",
         document :=
           [{ name := "inputs",
              attributes :=
                [{ name := "interaction_profile",
                   value := "/interaction_profiles/valve/index_controller" }],
              children :=
                [poseNode exGripInfoOut
                   (exSample "/user/hand/left" exLeftPose) none,
                 poseNode exGripInfoOut
                   (exSample "/user/hand/right" exRightPose) none] }] }] }

/-- A configuration whose only action, `grip`, names itself as its base. -/
def exSelfConfig : InputsConfig :=
  { actions :=
      [{ type := "pose", name := "grip", suggested_binding := "/input/grip/pose", base := "grip",
         reference := false, subaction_paths := ["/user/hand/left", "/user/hand/right"] }],
    interaction_profiles := ["/interaction_profiles/valve/index_controller"] }

/-- The action `grip` as `Init` leaves it for `exSelfConfig`: its base pointer
points to `grip` itself. -/
def exGripSelf : PoseInput :=
  { action_info_ :=
      { name := "grip", reference := false,
        subaction_paths := ["/user/hand/left", "/user/hand/right"],
        suggested_binding := "/input/grip/pose", base := "grip" },
    base_pose_ := some "grip", pose_action_ := 4,
    action_spaces_ := [("/user/hand/left", 41), ("/user/hand/right", 42)] }

/-- The set `Init` leaves for `exSelfConfig`. -/
def exSelfSet : InputItemSet :=
  { config_ := exSelfConfig, poses_ := [("grip", some exGripSelf)], action_set_ := 1 }

/-- The object the base pointer of `self` points to, in the map `poses` that
holds the actions: `some none` for a null pointer, `none` when the map holds
no action under the key. -/
def PoseInput.basePointee (poses : StdMap (Option PoseInput)) (self : PoseInput) :
    Option (Option PoseInput) :=
  match self.base_pose_ with
  | none => some none
  | some key =>
    match StdMap.find poses key with
    | some (some b) => some (some b)
    | _ => none

/-- The space `GetPoseInfo` locates against: the base action's space of the
subaction path, or the context's reference space when the base pointer is
null. -/
def PoseInput.baseSpace (context : XrpContext) (base : Option PoseInput) (subaction : String) :
    XrSpace :=
  match base with
  | some b => b.GetActionSpace subaction
  | none => context.reference_space

/-- The conditions on one subaction path: the action-state query succeeds and
reports the action active, the space is located, the interaction profile is
resolved, and at least one of the orientation-valid and position-valid flags
of the location is set. -/
def PoseInput.sampleOk (rt : XrRuntime) (context : XrpContext) (self : PoseInput)
    (base : Option PoseInput) (subaction : String) : Bool :=
  let pose_state := rt.xrGetActionStatePose self.pose_action_ (XrpStringToXrPath rt subaction)
  let located := rt.xrLocateSpace (self.GetActionSpace subaction)
    (PoseInput.baseSpace context base subaction) context.predictedDisplayTime
  XR_UNQUALIFIED_SUCCESS pose_state.1 && pose_state.2 && XR_UNQUALIFIED_SUCCESS located.1
    && (XrpGetInteractionProfileForUserPath rt subaction).isSome
    && (decide (located.2.locationFlags &&& XR_SPACE_LOCATION_ORIENTATION_VALID_BIT ≠ 0)
      || decide (located.2.locationFlags &&& XR_SPACE_LOCATION_POSITION_VALID_BIT ≠ 0))

/-- The `base` field `GetPoseInfo` gives a sample: the subaction path followed
by the suggested binding of the action the base pointer points to, or the
empty string when the base pointer is null. -/
def PoseInput.baseField (base : Option PoseInput) (subaction : String) : String :=
  match base with
  | some b => subaction ++ b.GetActionInfo.suggested_binding
  | none => ""

/-- A configuration with a descriptor without a name and a descriptor without a
suggested binding in front of the descriptor of `grip`. -/
def exSkippedConfig : InputsConfig :=
  { actions :=
      [{ type := "pose", name := "", suggested_binding := "/input/aim/pose", base := "",
         reference := false, subaction_paths := ["/user/hand/left"] },
       { type := "pose", name := "palm", suggested_binding := "", base := "",
         reference := false, subaction_paths := ["/user/hand/left"] },
       { type := "pose", name := "grip", suggested_binding := "/input/grip/pose", base := "",
         reference := false, subaction_paths := ["/user/hand/left", "/user/hand/right"] }],
    interaction_profiles := ["/interaction_profiles/valve/index_controller"] }

instance ActionNode.decidableAccepted (action_node : ActionNode) :
    Decidable action_node.accepted :=
  inferInstanceAs (Decidable (_ ∧ _ ∧ _))

/-- One of the nine characters `< > : " / \ | ? *` the pattern of
`StripIllegalFilenameCharacters` matches. -/
def isIllegalFilenameCharacter (c : Char) : Bool :=
  decide (c = '<' ∨ c = '>' ∨ c = ':' ∨ c = '"' ∨ c = '/' ∨ c = '\\' ∨ c = '|' ∨ c = '?'
    ∨ c = '*')

/-! ### Reading a fixed-point decimal -/

def isDecimalDigit (c : Char) : Bool := decide (48 ≤ c.toNat ∧ c.toNat ≤ 57)

/-- The number a sequence of decimal digits denotes. -/
def digitsValue (l : List Char) : Nat := l.foldl (fun a c => 10 * a + (c.toNat - 48)) 0

/-- Reading an unsigned fixed-point decimal: one or more digits, and either
nothing more or a decimal point followed by one or more digits. The result is
the number `n` all the digits denote together and the number `k` of digits
after the decimal point; the string denotes `n / 10 ^ k`. -/
def parseUnsigned (body : List Char) : Option (Nat × Nat) :=
  let ip := body.takeWhile fun c => c != '.'
  let rest := body.dropWhile fun c => c != '.'
  if ip.isEmpty || !ip.all isDecimalDigit then none
  else
    match rest with
    | [] => some (digitsValue ip, 0)
    | _ :: fp =>
      if fp.isEmpty || !fp.all isDecimalDigit then none
      else some (digitsValue (ip ++ fp), fp.length)

/-- Reading a fixed-point decimal with an optional minus sign: whether there is
a minus sign, and the result of `parseUnsigned`. -/
def parseFixed (s : List Char) : Option (Bool × Nat × Nat) :=
  if s.head? = some '-' then (parseUnsigned s.tail).map fun r => (true, r.1, r.2)
  else (parseUnsigned s).map fun r => (false, r.1, r.2)

/-- The literal `0.009f` (bit pattern 0x3C1374BC). -/
def F32.c0_009 : F32 := ⟨false, 120, 1275068⟩

/-! ### The documents of an output pass, as the samples determine them -/

/-- The reference node `GetOutput` finds for a sample, if any: what
`select_node` yields on the reference document of the sample's interaction
profile for the sample's name, base and binding path. -/
def referenceFor (env : Env) (pose_info : PoseInfo) : Option ReferencePoseNode :=
  match selectReferencePose env (LoadReferenceXMLDocument env pose_info.interaction_profile).2
      pose_info.action_name pose_info.base pose_info.binding_path with
  | .node n => some n
  | _ => none

/-- The samples `GetOutput` takes from one entry of `poses_`, each with the
results of the `GetPoseInfo` call it comes from: none for the entry with the
empty key, the samples of the call when it returns `true`. -/
def InputItemSet.samplesOf (env : Env) (context : XrpContext)
    (poses : StdMap (Option PoseInput)) (entry : String × Option PoseInput) :
    List (PoseOutputInfo × PoseInfo) :=
  if entry.1 = "" then []
  else
    match entry.2 with
    | none => []
    | some p =>
      match PoseInput.GetPoseInfo env.rt context poses p (PoseOutputInfo.uninitialized env) with
      | .ret true info => info.pose_infos.map fun pose_info => (info, pose_info)
      | _ => []

/-- The sampled poses of an output pass over `entries`, in the order of the pass. -/
def InputItemSet.sampledPoses (env : Env) (context : XrpContext)
    (poses : StdMap (Option PoseInput)) (entries : List (String × Option PoseInput)) :
    List (PoseOutputInfo × PoseInfo) :=
  entries.flatMap (InputItemSet.samplesOf env context poses)

/-- The document of an interaction profile: one `inputs` element that carries
the profile string and holds one `pose` element for each sampled pose of that
profile, in the order of the samples. -/
def profileDocument (env : Env) (interaction_profile : String)
    (samples : List (PoseOutputInfo × PoseInfo)) : XmlDocument :=
  [{ name := "inputs",
     attributes := [{ name := "interaction_profile", value := interaction_profile }],
     children :=
       (samples.filter fun s => s.2.interaction_profile = interaction_profile).map fun s =>
         poseNode s.1 s.2 (referenceFor env s.2) }]

/-- The map `interaction_profile_files` holds, for the samples taken so far,
one file per interaction profile among them, with the document of that
profile and the file name made from the profile string. -/
def FilesSpec (env : Env) (samples : List (PoseOutputInfo × PoseInfo))
    (files : StdMap ItemFile) : Prop :=
  StdMap.Sorted files ∧
  (∀ k, StdMap.find files k =
    if k ∈ samples.map (fun s => s.2.interaction_profile) then
      (interactionProfileSafe k).map fun name =>
        { document := profileDocument env k samples, name := name }
    else none) ∧
  ∀ s ∈ samples, (interactionProfileSafe s.2.interaction_profile).isSome = true

/-- The action `aim` on both hands, without a base and not a reference action,
as `Init` leaves it under `exRuntime`. -/
def exAimPlain : PoseInput :=
  { action_info_ :=
      { name := "aim", reference := false,
        subaction_paths := ["/user/hand/left", "/user/hand/right"],
        suggested_binding := "/input/aim/pose", base := "" },
    base_pose_ := none, pose_action_ := 3,
    action_spaces_ := [("/user/hand/left", 31), ("/user/hand/right", 32)] }

/-- A set with the two actions `aim` and `grip`, neither with a base. -/
def exTwoSet : InputItemSet :=
  { config_ :=
      { actions :=
          [{ type := "pose", name := "aim", suggested_binding := "/input/aim/pose", base := "",
             reference := false, subaction_paths := ["/user/hand/left", "/user/hand/right"] },
           { type := "pose", name := "grip", suggested_binding := "/input/grip/pose", base := "",
             reference := false, subaction_paths := ["/user/hand/left", "/user/hand/right"] }],
        interaction_profiles := ["/interaction_profiles/valve/index_controller"] },
    poses_ := [("", none), ("aim", some exAimPlain), ("grip", some exGrip)],
    action_set_ := 1 }

/-- The environment `exEnv` with a runtime that reports the action with the
handle 4, which is `grip`, as not active. -/
def exEnvGripInactive : Env :=
  { exEnv exLeftPose exRightPose 3 with
    rt :=
      { exRuntime exLeftPose exRightPose 3 with
        xrGetActionStatePose := fun action _ => (XR_SUCCESS, decide (action ≠ 4)) } }

/-- An `ItemSetOutput` that already holds a file. -/
def exEarlierOutput : ItemSetOutput :=
  { output_files := [{ document := [], name := "earlier" }] }

/-- The reference entry for `grip` on the left hand of the Index controller: the
left pose of the end-to-end scenario. -/
def exReferenceLeft : ReferencePoseNode :=
  { name := some "grip", base := some "",
    binding_path := some "/user/hand/left/input/grip/pose",
    position := exLeftPose.position, orientation := qIdentity }

/-- The reference entry for `grip` on the right hand of the Index controller,
with the position of the left hand, which is not where the right hand is. -/
def exReferenceRight : ReferencePoseNode :=
  { name := some "grip", base := some "",
    binding_path := some "/user/hand/right/input/grip/pose",
    position := exLeftPose.position, orientation := qIdentity }

def exReferencePoses : List ReferencePoseNode := [exReferenceLeft, exReferenceRight]

/-- The environment `exEnv` with a reference document for the Index controller. -/
def exReferenceEnv : Env :=
  { exEnv exLeftPose exRightPose 3 with
    reference_inputs :=
      [{ interaction_profile := "/interaction_profiles/valve/index_controller",
         text := "index_controller.xml" }],
    load_file := fun file => if file = "index_controller.xml" then exReferencePoses else [] }

/-- The sample `GetPoseInfo` builds for `aim` on the hand `subaction`. -/
def exAimSample (subaction : String) (pose : XrPosef) : PoseInfo :=
  { action_name := "aim", binding_path := subaction ++ "/input/aim/pose",
    interaction_profile := "/interaction_profiles/valve/index_controller", base := "",
    pose := pose }

/-- The map `interaction_profile_files` of a pass over `exTwoSet` after `aim` has
been sampled: one file, for the Index controller, with the two samples of `aim`. -/
def exAimFiles : StdMap ItemFile :=
  [("/interaction_profiles/valve/index_controller",
    { name := "valve_index_controller",
      document :=
        [{ name := "inputs",
           attributes :=
             [{ name := "interaction_profile",
                value := "/interaction_profiles/valve/index_controller" }],
           children :=
             [poseNode
                (PoseInput.classify
                  [exAimSample "/user/hand/left" exLeftPose,
                   exAimSample "/user/hand/right" exRightPose])
                (exAimSample "/user/hand/left" exLeftPose) none,
              poseNode
                (PoseInput.classify
                  [exAimSample "/user/hand/left" exLeftPose,
                   exAimSample "/user/hand/right" exRightPose])
                (exAimSample "/user/hand/right" exRightPose) none] }] })]

/-- The output of `GetOutput` in the end-to-end scenario with the reference
document of `exReferenceEnv`. -/
def exReferenceOutput : ItemSetOutput :=
  { output_files :=
      [{ name := "valve_index_controller",
         document :=
           [{ name := "inputs",
              attributes :=
                [{ name := "interaction_profile",
                   value := "/interaction_profiles/valve/index_controller" }],
              children :=
                [poseNode exGripInfoOut (exSample "/user/hand/left" exLeftPose)
                   (some exReferenceLeft),
                 poseNode exGripInfoOut (exSample "/user/hand/right" exRightPose)
                   (some exReferenceRight)] }] }] }

/-- A position 0.009 off the origin on every axis. -/
def exNearPosition : XrVector3f := { x := F32.c0_009, y := F32.c0_009, z := F32.c0_009 }

/-- The value 2^-40 (bit pattern 0x2B800000). -/
def F32.c2_pow_neg40 : F32 := ⟨false, 87, 0⟩

/-- The literal `0.006f` (bit pattern 0x3BC49BA6). -/
def F32.c0_006 : F32 := ⟨false, 119, 4496294⟩

/-- The literal `0.012f` (bit pattern 0x3C449BA6). -/
def F32.c0_012 : F32 := ⟨false, 120, 4496294⟩

/-- The position with the given x component and y = z = 0. -/
def exPositionX (x : F32) : XrVector3f := { x := x, y := F32.zero false, z := F32.zero false }

/-- The orientation with the given x component, w = 1 and y = z = 0. -/
def exOrientationX (x : F32) : XrQuaternionf :=
  { w := F32.one, x := x, y := F32.zero false, z := F32.zero false }

/-- All three components are finite (neither NaN nor infinite). -/
def XrVector3f.isFinite (v : XrVector3f) : Bool := v.x.isFinite && v.y.isFinite && v.z.isFinite

/-! ## `main.cpp`: saving the documents and requesting the exit -/

/-- A `runtime` element of the configuration file, as `SaveItemSetXML` reads
it: the values of its `matches` and `name` attributes (the empty string for an
absent attribute). -/
structure RuntimeNode where
  matches_ : String
  name : String
  deriving DecidableEq, Repr

/-- A call of `save_file`: the file name, the document and what the call returned. -/
structure SavedFile where
  file_name : String
  document : XmlDocument
  saved : Bool
  deriving DecidableEq, Repr

/-- What `main.cpp` depends on outside the pose pipeline. -/
structure Host where
  /-- The elements `//runtime` of the configuration file, in document order
  (none when the file cannot be loaded). -/
  runtime_nodes : List RuntimeNode
  /-- The call `std::regex_match(text, std::regex(pattern))` as a function of
  `text` and `pattern`: `none` when an exception leaves it, as for a pattern
  that is not a regular expression. -/
  regex_match : String → String → Option Bool
  /-- The result of `AndroidGetDataPath()` where `XR_USE_PLATFORM_ANDROID` is
  defined, `none` elsewhere. -/
  android_data_path : Option String
  /-- What `save_file` returns for a file name and a document, after the
  calls already made. -/
  save_file : List SavedFile → String → XmlDocument → Bool
  xrRequestExitSession : XrResult

/-- The first loop of `SaveItemSetXML` over the `runtime` elements still to
visit: the value of `runtime_name` after it, `none` when an exception leaves
the function. -/
def SaveItemSetXML.runtimeName (host : Host) (context : XrpContext) :
    List RuntimeNode → Option String
  | [] => some context.runtimeName
  | runtime_node :: rest =>
    if runtime_node.matches_ = "" ∨ runtime_node.name = "" then
      SaveItemSetXML.runtimeName host context rest
    else
      match host.regex_match context.runtimeName runtime_node.matches_ with
      | none => none
      | some true => some runtime_node.name
      | some false => SaveItemSetXML.runtimeName host context rest

/-- The second loop of `SaveItemSetXML` over the output files still to save:
the calls of `save_file` made so far, before and after. -/
def SaveItemSetXML.saveFiles (host : Host) (base_file_name : String) :
    List ItemFile → List SavedFile → List SavedFile
  | [], saved => saved
  | item_file :: rest, saved =>
    let file_name := base_file_name ++ "-" ++ item_file.name ++ ".xml"
    SaveItemSetXML.saveFiles host base_file_name rest
      (saved ++ [{ file_name := file_name, document := item_file.document,
                   saved := host.save_file saved file_name item_file.document }])

/-- The value of `base_path` in `SaveItemSetXML`. -/
def SaveItemSetXML.basePath (host : Host) : String :=
  match host.android_data_path with
  | some data_path => data_path ++ "/"
  | none => ""

/-- The function `SaveItemSetXML`: the calls of `save_file` after it, `none`
when an exception leaves it. -/
def SaveItemSetXML (host : Host) (context : XrpContext) (item_set_output : ItemSetOutput)
    (saved : List SavedFile) : Option (List SavedFile) :=
  match SaveItemSetXML.runtimeName host context host.runtime_nodes with
  | none => none
  | some runtime_name =>
    let base_file_name := SaveItemSetXML.basePath host ++ "cpt_" ++ runtime_name
    some (SaveItemSetXML.saveFiles host base_file_name item_set_output.output_files saved)

/-- The name the specification gives the runtime in a file name: the `name` of
the first `runtime` element whose `matches` and `name` are both non-empty and
whose pattern matches the live runtime name, the live runtime name when there
is none. -/
def configuredRuntimeName (host : Host) (context : XrpContext) : String :=
  ((host.runtime_nodes.find? fun runtime_node =>
      decide (runtime_node.matches_ ≠ "" ∧ runtime_node.name ≠ "" ∧
        host.regex_match context.runtimeName runtime_node.matches_ = some true)).map
    fun runtime_node => runtime_node.name).getD context.runtimeName

/-- What `MakeFile` changes: the variable `exit_requested` of `xrp.cpp`, the
number of calls of `xrRequestExitSession` and the calls of `save_file`. -/
structure MainState where
  exit_requested : Bool
  exit_requests : Nat
  saved : List SavedFile
  deriving DecidableEq, Repr

/-- The function `XrpRequestExitSession`: its return value and the state after it. -/
def XrpRequestExitSession (host : Host) (st : MainState) : Bool × MainState :=
  (XR_UNQUALIFIED_SUCCESS host.xrRequestExitSession,
    { st with exit_requested := true, exit_requests := st.exit_requests + 1 })

/-- The loop of `MakeFile` over the item sets still to visit: `none` when an
exception leaves the function, otherwise whether the loop ran to its end
(`false` when it left through `return`) and the state after it. -/
def MakeFileLoop (env : Env) (host : Host) (context : XrpContext) :
    List InputItemSet → MainState → Option (Bool × MainState)
  | [], st => some (true, st)
  | item_set :: rest, st =>
    match InputItemSet.GetOutput env context item_set { output_files := [] } with
    | .abnormal => none
    | .ret false _ => some (false, st)
    | .ret true item_set_output =>
      match SaveItemSetXML host context item_set_output st.saved with
      | none => none
      | some saved => MakeFileLoop env host context rest { st with saved := saved }

/-- The function `MakeFile`: the state after it, `none` when an exception leaves it. -/
def MakeFile (env : Env) (host : Host) (context : XrpContext) (item_sets : List InputItemSet)
    (st : MainState) : Option MainState :=
  match MakeFileLoop env host context item_sets st with
  | none => none
  | some (false, st1) => some st1
  | some (true, st1) => some (XrpRequestExitSession host st1).2

/-- A host whose configuration names SteamVR, with a pattern language reduced
to what the examples need: `SteamVR.*` and literal patterns; `(` is not a
regular expression. -/
def exHost : Host where
  runtime_nodes :=
    [{ matches_ := "", name := "unnamed" }, { matches_ := "Oculus", name := "oculus" },
     { matches_ := "SteamVR.*", name := "steamvr" }, { matches_ := ".*", name := "other" }]
  regex_match text pattern :=
    if pattern = "(" then none
    else if pattern = ".*" then some true
    else if pattern = "SteamVR.*" then some ("SteamVR".data.isPrefixOf text.data)
    else some (decide (text = pattern))
  android_data_path := none
  save_file saved _ _ := decide (saved.length ≠ 0)
  xrRequestExitSession := XR_SUCCESS

def exMainState : MainState := { exit_requested := false, exit_requests := 0, saved := [] }

def exTwoFiles : ItemSetOutput :=
  { output_files :=
      [{ document := [], name := "valve_index_controller" },
       { document := [], name := "oculus_touch_controller" }] }

def exAimSet : InputItemSet :=
  { config_ :=
      { actions :=
          [{ type := "pose", name := "aim", suggested_binding := "/input/aim/pose", base := "",
             reference := false, subaction_paths := ["/user/hand/left", "/user/hand/right"] }],
        interaction_profiles := ["/interaction_profiles/valve/index_controller"] },
    poses_ := [("", none), ("aim", some exAimPlain)],
    action_set_ := 1 }

/-! ## `xr/xrp.cpp` and `main.cpp`: the frame loop and its callback -/

inductive XrSessionState where
  | XR_SESSION_STATE_UNKNOWN
  | XR_SESSION_STATE_IDLE
  | XR_SESSION_STATE_READY
  | XR_SESSION_STATE_SYNCHRONIZED
  | XR_SESSION_STATE_VISIBLE
  | XR_SESSION_STATE_FOCUSED
  | XR_SESSION_STATE_STOPPING
  | XR_SESSION_STATE_LOSS_PENDING
  | XR_SESSION_STATE_EXITING
  deriving DecidableEq, Repr

inductive XrpEvent where
  | XRP_EVENT_SESSION_READY
  | XRP_EVENT_SESSION_FOCUSED
  | XRP_EVENT_DO_FRAME
  deriving DecidableEq, Repr

structure XrpEventData where
  session_state : XrSessionState
  deriving DecidableEq, Repr

/-- An event as `xrPollEvent` writes it to `runtime_event`, by its `type`; the
state-changed event carries the new state. -/
inductive XrEventDataBuffer where
  | XR_TYPE_EVENT_DATA_INSTANCE_LOSS_PENDING
  | XR_TYPE_EVENT_DATA_SESSION_STATE_CHANGED (state : XrSessionState)
  | other
  deriving DecidableEq, Repr

/-- The answers of the runtime to the calls of `XrpRunFrameLoop`, by the round
of the main loop in which they are made, counted from 0. -/
structure XrFrameRuntime where
  /-- The events `xrPollEvent` hands out with `XR_SUCCESS` in a round, before
  it answers anything else. -/
  xrPollEvent : Nat → List XrEventDataBuffer
  xrBeginSession : XrResult
  xrDestroySession : XrResult
  /-- The result of `xrWaitFrame` and the `predictedDisplayTime` it writes. -/
  xrWaitFrame : Nat → XrResult × XrTime
  xrBeginFrame : Nat → XrResult
  xrEndFrame : Nat → XrResult
  /-- What the callback sees of the runtime and the files in a round. -/
  env : Nat → Env
  /-- The indeterminate value of the uninitialised `current_session_state`. -/
  indeterminate_state : XrSessionState

/-- What the callback of `main` captures and changes: the enabled item sets
and the state `MakeFile` works on. -/
structure App where
  enabled_item_sets : List InputItemSet
  state : MainState
  deriving DecidableEq, Repr

/-- The loop of the callback on `XRP_EVENT_SESSION_READY` over the item sets
still to initialise: `none` when a call of `Init` ends abnormally, otherwise
whether the loop ran to its end (`false` when it left through `return false`)
and the item sets after it. -/
def InitItemSets (rt : XrRuntime) : List InputItemSet → Option (Bool × List InputItemSet)
  | [] => some (true, [])
  | item_set :: rest =>
    match InputItemSet.Init rt item_set with
    | none => none
    | some .abnormal => none
    | some (.ret false item_set1) => some (false, item_set1 :: rest)
    | some (.ret true item_set1) =>
      match InitItemSets rt rest with
      | none => none
      | some (ok, rest1) => some (ok, item_set1 :: rest1)

/-- The callback `main` passes to `XrpRunFrameLoop`: what it returns and what
it leaves, `none` when it ends abnormally. -/
def eventCallback (env : Env) (host : Host) (context : XrpContext) (event : XrpEvent)
    (event_data : XrpEventData) (app : App) : Option (Bool × App) :=
  match event with
  | .XRP_EVENT_SESSION_READY =>
    match InitItemSets env.rt app.enabled_item_sets with
    | none => none
    | some (false, item_sets) => some (false, { app with enabled_item_sets := item_sets })
    | some (true, item_sets) => some (true, { app with enabled_item_sets := item_sets })
  | .XRP_EVENT_DO_FRAME =>
    if event_data.session_state ≠ .XR_SESSION_STATE_FOCUSED then some (true, app)
    else
      match MakeFile env host context app.enabled_item_sets app.state with
      | none => none
      | some st => some (true, { app with state := st })
  | .XRP_EVENT_SESSION_FOCUSED => some (true, app)

/-- A call of `event_callback` as the statements see it: the event, the
session state passed with it and the value the callback returned. -/
structure Delivered where
  event : XrpEvent
  session_state : XrSessionState
  returned : Bool
  deriving DecidableEq, Repr

/-- The locals of `XrpRunFrameLoop`, the context it writes the frame state
to, what the callback works on, and the record of the calls of
`event_callback` made so far. -/
structure FrameLoop where
  context : XrpContext
  should_exit : Bool
  session_running : Bool
  run_framecycle : Bool
  current_session_state : XrSessionState
  app : App
  delivered : List Delivered

/-- How a piece of the body of `XrpRunFrameLoop` ends: control goes on, the
function returns `result`, or an exception leaves it. -/
inductive LoopStep where
  | running (s : FrameLoop)
  | returned (result : Bool) (s : FrameLoop)
  | abnormal

/-- The statement `event_callback(event, {.session_state = current_session_state});`:
the value the callback returns is not used. -/
def XrpRunFrameLoop.callback (frt : XrFrameRuntime) (host : Host) (round : Nat)
    (event : XrpEvent) (s : FrameLoop) : LoopStep :=
  match eventCallback (frt.env round) host s.context event
      { session_state := s.current_session_state } s.app with
  | none => .abnormal
  | some (returned, app) =>
    .running { s with
      app := app
      delivered := s.delivered ++
        [{ event := event, session_state := s.current_session_state, returned := returned }] }

/-- The body of the loop `while (result == XR_SUCCESS)` for one event. The
call of `XrpEndSession` on `XR_SESSION_STATE_STOPPING` changes nothing the
loop reads, and its result is not used. -/
def XrpRunFrameLoop.handleEvent (frt : XrFrameRuntime) (host : Host) (round : Nat)
    (s : FrameLoop) : XrEventDataBuffer → LoopStep
  | .XR_TYPE_EVENT_DATA_INSTANCE_LOSS_PENDING => .running { s with should_exit := true }
  | .XR_TYPE_EVENT_DATA_SESSION_STATE_CHANGED state =>
    let s1 := { s with current_session_state := state }
    match state with
    | .XR_SESSION_STATE_IDLE => .running { s1 with run_framecycle := false }
    | .XR_SESSION_STATE_UNKNOWN => .running { s1 with run_framecycle := false }
    | .XR_SESSION_STATE_READY =>
      if s1.session_running then .running s1
      else if XR_UNQUALIFIED_SUCCESS frt.xrBeginSession then
        XrpRunFrameLoop.callback frt host round .XRP_EVENT_SESSION_READY
          { s1 with session_running := true, run_framecycle := true }
      else .returned false s1
    | .XR_SESSION_STATE_FOCUSED =>
      XrpRunFrameLoop.callback frt host round .XRP_EVENT_SESSION_FOCUSED s1
    | .XR_SESSION_STATE_STOPPING => .running { s1 with run_framecycle := false }
    | .XR_SESSION_STATE_LOSS_PENDING =>
      if XR_UNQUALIFIED_SUCCESS frt.xrDestroySession then
        .running { s1 with should_exit := true, run_framecycle := false }
      else .returned false s1
    | .XR_SESSION_STATE_EXITING =>
      if XR_UNQUALIFIED_SUCCESS frt.xrDestroySession then
        .running { s1 with should_exit := true, run_framecycle := false }
      else .returned false s1
    | _ => .running s1
  | .other => .running s

/-- The loop `while (result == XR_SUCCESS)` over the events of a round. -/
def XrpRunFrameLoop.pollEvents (frt : XrFrameRuntime) (host : Host) (round : Nat) :
    List XrEventDataBuffer → FrameLoop → LoopStep
  | [], s => .running s
  | runtime_event :: rest, s =>
    match XrpRunFrameLoop.handleEvent frt host round s runtime_event with
    | .running s1 => XrpRunFrameLoop.pollEvents frt host round rest s1
    | r => r

/-- One round of the main loop of `XrpRunFrameLoop`. -/
def XrpRunFrameLoop.round (frt : XrFrameRuntime) (host : Host) (round : Nat) (s : FrameLoop) :
    LoopStep :=
  match XrpRunFrameLoop.pollEvents frt host round (frt.xrPollEvent round) s with
  | .running s1 =>
    if !s1.run_framecycle || s1.app.state.exit_requested then .running s1
    else if XR_UNQUALIFIED_SUCCESS (frt.xrWaitFrame round).1 then
      let s2 := { s1 with
        context := { s1.context with predictedDisplayTime := (frt.xrWaitFrame round).2 } }
      if XR_UNQUALIFIED_SUCCESS (frt.xrBeginFrame round) then
        match XrpRunFrameLoop.callback frt host round .XRP_EVENT_DO_FRAME s2 with
        | .running s3 =>
          if XR_UNQUALIFIED_SUCCESS (frt.xrEndFrame round) then .running s3
          else .returned false s3
        | r => r
      else .returned false s2
    else .returned false s1
  | r => r

/-- The main loop `while (!should_exit)` from round `round` on. The first
argument bounds the number of rounds (`none` when it is used up). -/
def XrpRunFrameLoop.rounds (frt : XrFrameRuntime) (host : Host) :
    Nat → Nat → FrameLoop → Option LoopStep
  | 0, _, _ => none
  | fuel + 1, round, s =>
    if s.should_exit then some (.returned true s)
    else
      match XrpRunFrameLoop.round frt host round s with
      | .running s1 => XrpRunFrameLoop.rounds frt host fuel (round + 1) s1
      | r => some r

/-- The function `XrpRunFrameLoop` with the callback of `main`, for at most
`fuel` rounds of the main loop (`none` when they do not end it). -/
def XrpRunFrameLoop (frt : XrFrameRuntime) (host : Host) (fuel : Nat) (context : XrpContext)
    (app : App) : Option LoopStep :=
  let s : FrameLoop :=
    { context := context, should_exit := false, session_running := false,
      run_framecycle := false, current_session_state := frt.indeterminate_state,
      app := app, delivered := [] }
  if context.session = XR_NULL_HANDLE then some (.returned false s)
  else XrpRunFrameLoop.rounds frt host fuel 0 s

/-- What a run of `XrpRunFrameLoop` shows: the value returned, the calls of
the callback, the item sets and the state of `main` at the end. -/
def LoopStep.summary : LoopStep → Option (Bool × List Delivered × List InputItemSet × MainState)
  | .returned result s => some (result, s.delivered, s.app.enabled_item_sets, s.app.state)
  | _ => none

def XR_ERROR_RUNTIME_FAILURE : XrResult := -2

def XR_ERROR_HANDLE_INVALID : XrResult := -12

/-- A runtime that cannot create an action set, and refuses the handle of an
action set it did not create. -/
def exBrokenEnv : Env :=
  { exEnv exLeftPose exRightPose 3 with
    rt :=
      { exRuntime exLeftPose exRightPose 3 with
        xrCreateActionSet := (XR_ERROR_RUNTIME_FAILURE, XR_NULL_HANDLE)
        xrSyncActions := fun _ => XR_ERROR_HANDLE_INVALID } }

/-- A session that becomes ready in round 0, focused in round 1, is stopped in
round 3 and exits in round 4. -/
def exFrameRuntime : XrFrameRuntime where
  xrPollEvent round :=
    if round = 0 then
      [.XR_TYPE_EVENT_DATA_SESSION_STATE_CHANGED .XR_SESSION_STATE_IDLE,
       .XR_TYPE_EVENT_DATA_SESSION_STATE_CHANGED .XR_SESSION_STATE_READY]
    else if round = 1 then
      [.XR_TYPE_EVENT_DATA_SESSION_STATE_CHANGED .XR_SESSION_STATE_SYNCHRONIZED,
       .XR_TYPE_EVENT_DATA_SESSION_STATE_CHANGED .XR_SESSION_STATE_VISIBLE,
       .XR_TYPE_EVENT_DATA_SESSION_STATE_CHANGED .XR_SESSION_STATE_FOCUSED]
    else if round = 3 then
      [.XR_TYPE_EVENT_DATA_SESSION_STATE_CHANGED .XR_SESSION_STATE_STOPPING]
    else if round = 4 then
      [.XR_TYPE_EVENT_DATA_SESSION_STATE_CHANGED .XR_SESSION_STATE_IDLE,
       .XR_TYPE_EVENT_DATA_SESSION_STATE_CHANGED .XR_SESSION_STATE_EXITING]
    else []
  xrBeginSession := XR_SUCCESS
  xrDestroySession := XR_SUCCESS
  xrWaitFrame round := (XR_SUCCESS, round)
  xrBeginFrame _ := XR_SUCCESS
  xrEndFrame _ := XR_SUCCESS
  env _ := exBrokenEnv
  indeterminate_state := .XR_SESSION_STATE_UNKNOWN

/-- The one item set of the tool, as `main` constructs it from the example
configuration. -/
def exApp : App :=
  { enabled_item_sets := [InputItemSet.new exGripSet.config_], state := exMainState }

/-- Whether a piece of a run ended abnormally. -/
def LoopStep.isAbnormal : LoopStep → Bool
  | .abnormal => true
  | _ => false

/-- A configuration in which `aim` names the base `grip`, which is not
configured and comes after `aim` in the order of the map. -/
def exLateBaseConfig : InputsConfig :=
  { actions :=
      [{ type := "pose", name := "aim", suggested_binding := "/input/aim/pose", base := "grip",
         reference := false, subaction_paths := ["/user/hand/left", "/user/hand/right"] }],
    interaction_profiles := ["/interaction_profiles/valve/index_controller"] }

/-- The session of `exFrameRuntime` on a runtime whose calls all succeed. -/
def exGoodFrameRuntime : XrFrameRuntime :=
  { exFrameRuntime with env := fun _ => exEnv exLeftPose exRightPose 3 }

/-! ## Theorems -/

namespace F32

theorem isNaN_neg (a : F32) : (neg a).isNaN = a.isNaN := rfl

theorem isFinite_neg (a : F32) : (neg a).isFinite = a.isFinite := rfl

theorem mag_neg (a : F32) : (neg a).mag = a.mag := rfl

theorem neg_neg (a : F32) : neg (neg a) = a := by
  cases a; simp [neg]

theorem toInt_neg (a : F32) : (neg a).toInt = - a.toInt := by
  cases a with
  | mk s e m => cases s <;> simp [neg, toInt, mag]

theorem toInt_zero (s : Bool) : (zero s).toInt = 0 := by
  cases s <;> simp [zero, toInt, mag]

theorem isNaN_zero (s : Bool) : (zero s).isNaN = false := by
  simp [zero, isNaN]

theorem ge_zero_iff (a : F32) :
    ge a (zero false) = true ↔ a.isNaN = false ∧ 0 ≤ a.toInt := by
  simp [ge, toInt_zero, isNaN_zero]

theorem lt_zero_iff (a : F32) :
    lt a (zero false) = true ↔ a.isNaN = false ∧ a.toInt < 0 := by
  simp [lt, toInt_zero, isNaN_zero]

theorem isNaN_of_isFinite {a : F32} (h : a.isFinite = true) : a.isNaN = false := by
  simp only [isFinite, decide_eq_true_eq] at h
  simp only [isNaN, Bool.and_eq_false_imp, beq_iff_eq]
  omega

theorem isInf_of_isFinite {a : F32} (h : a.isFinite = true) : a.isInf = false := by
  simp only [isFinite, decide_eq_true_eq] at h
  simp only [isInf, Bool.and_eq_false_imp, beq_iff_eq]
  omega

/-- A finite value minus itself is +0. -/
theorem sub_self {a : F32} (h : a.isFinite = true) : sub a a = zero false := by
  have h1 := isNaN_of_isFinite h
  have h2 := isInf_of_isFinite h
  simp [sub, add, isNaN_neg, h1, h2, toInt_neg, show (neg a).isInf = false from h2]
  cases a with
  | mk s e m => cases s <;> simp [neg]

end F32

theorem bitLenAux_spec : ∀ (f n : Nat), 0 < n → n ≤ f →
    ∃ b, bitLenAux f n = b + 1 ∧ 2 ^ b ≤ n ∧ n < 2 ^ (b + 1) := by
  intro f
  induction f with
  | zero => intro n h0 h1; omega
  | succ f ih =>
    intro n h0 h1
    have hn : n ≠ 0 := by omega
    by_cases h2 : n / 2 = 0
    · refine ⟨0, ?_, ?_, ?_⟩
      · simp only [bitLenAux, hn, if_false, h2]
        cases f <;> simp [bitLenAux]
      · simpa using h0
      · have : n < 2 := by omega
        simpa using this
    · obtain ⟨b, hb, hlo, hhi⟩ := ih (n / 2) (by omega) (by omega)
      refine ⟨b + 1, ?_, ?_, ?_⟩
      · simp only [bitLenAux, hn, if_false, hb]
      · rw [Nat.pow_succ]; omega
      · rw [Nat.pow_succ]; omega

theorem bitLen_spec (n : Nat) (h : 0 < n) :
    ∃ b, bitLen n = b + 1 ∧ 2 ^ b ≤ n ∧ n < 2 ^ (b + 1) :=
  bitLenAux_spec n n h (Nat.le_refl n)

namespace F32

theorem mag_ofFields (s : Bool) (e m : Nat) (he : e < 256) (hm : m < 8388608) :
    (ofFields s e m).mag = if e = 0 then m else (8388608 + m) * 2 ^ (e - 1) := by
  simp [ofFields, mag, Nat.mod_eq_of_lt he, Nat.mod_eq_of_lt hm]

theorem isFinite_ofFields (s : Bool) (e m : Nat) (he : e < 255) :
    (ofFields s e m).isFinite = true := by
  simp [ofFields, isFinite, Nat.mod_eq_of_lt (show e < 256 by omega), he]

/-- Rounding a magnitude of at least 2^23 (and below 2^200): the result is a
finite value of the requested sign that lies in the same rounding interval. -/
theorem ofMag_spec (s : Bool) (n : Nat) (h1 : 8388608 ≤ n) (h2 : n < 2 ^ 200) :
    ∃ sh, 8388608 * 2 ^ sh ≤ n ∧ n < 16777216 * 2 ^ sh ∧
      (ofMag s n).isFinite = true ∧ (ofMag s n).sign = s ∧
      (n / 2 ^ sh) * 2 ^ sh ≤ (ofMag s n).mag ∧
      (ofMag s n).mag ≤ (n / 2 ^ sh) * 2 ^ sh + 2 ^ sh := by
  obtain ⟨b, hb, hlo, hhi⟩ := bitLen_spec n (by omega)
  have hb23 : 23 ≤ b := by
    by_contra hc
    have : 2 ^ (b + 1) ≤ 2 ^ 23 := Nat.pow_le_pow_right (by decide) (by omega)
    have h23 : (2:Nat) ^ 23 = 8388608 := by norm_num
    omega
  have hb200 : b < 200 := by
    by_contra hc
    have : 2 ^ 200 ≤ 2 ^ b := Nat.pow_le_pow_right (by decide) (by omega)
    omega
  obtain ⟨sh, rfl⟩ : ∃ sh, b = 23 + sh := ⟨b - 23, by omega⟩
  have hP : 0 < 2 ^ sh := Nat.pow_pos (by decide)
  have e1 : 2 ^ (23 + sh) = 8388608 * 2 ^ sh := by rw [Nat.pow_add]
  have e2 : 2 ^ (23 + sh + 1) = 16777216 * 2 ^ sh := by
    rw [show 23 + sh + 1 = 24 + sh by omega, Nat.pow_add]
  rw [e1] at hlo
  rw [e2] at hhi
  have hq1 : 8388608 ≤ n / 2 ^ sh := (Nat.le_div_iff_mul_le hP).2 hlo
  have hq2 : n / 2 ^ sh < 16777216 := (Nat.div_lt_iff_lt_mul hP).2 hhi
  refine ⟨sh, hlo, hhi, ?_⟩
  have hsh : bitLen n - 24 = sh := by omega
  unfold ofMag
  rw [if_neg (by omega)]
  simp only [hsh]
  generalize (decide (2 ^ sh < 2 * (n % 2 ^ sh)) ||
      (decide (2 ^ sh = 2 * (n % 2 ^ sh)) && decide (n / 2 ^ sh % 2 = 1))) = up
  generalize n / 2 ^ sh = q at *
  cases up
  · simp only [Bool.false_eq_true, if_false]
    have hne : q ≠ 16777216 := by omega
    simp only [hne, if_false]
    rw [if_pos (by omega)]
    have hm : (ofFields s (sh + 1) (q - 8388608)).mag = q * 2 ^ sh := by
      rw [mag_ofFields _ _ _ (by omega) (by omega), if_neg (by omega), Nat.add_sub_cancel,
        show 8388608 + (q - 8388608) = q by omega]
    refine ⟨isFinite_ofFields _ _ _ (by omega), rfl, ?_, ?_⟩
    · rw [hm]
    · rw [hm]; omega
  · simp only [if_true]
    by_cases hc : q + 1 = 16777216
    · simp only [hc, if_true]
      rw [if_pos (by omega)]
      have hm : (ofFields s (sh + 2) 0).mag = q * 2 ^ sh + 2 ^ sh := by
        rw [mag_ofFields _ _ _ (by omega) (by omega), if_neg (by omega),
          show sh + 2 - 1 = sh + 1 by omega, Nat.pow_succ,
          show q = 16777215 by omega]
        omega
      refine ⟨isFinite_ofFields _ _ _ (by omega), rfl, ?_, ?_⟩
      · rw [hm]; omega
      · rw [hm]
    · simp only [hc, if_false]
      rw [if_pos (by omega)]
      have hm : (ofFields s (sh + 1) (q + 1 - 8388608)).mag = q * 2 ^ sh + 2 ^ sh := by
        rw [mag_ofFields _ _ _ (by omega) (by omega), if_neg (by omega), Nat.add_sub_cancel,
          show 8388608 + (q + 1 - 8388608) = q + 1 by omega, Nat.add_mul, Nat.one_mul]
      refine ⟨isFinite_ofFields _ _ _ (by omega), rfl, ?_, ?_⟩
      · rw [hm]; omega
      · rw [hm]

end F32

namespace F32

theorem ofMag_small (s : Bool) (n : Nat) (h : n < 8388608) :
    (ofMag s n).isFinite = true ∧ (ofMag s n).sign = s ∧ (ofMag s n).mag = n := by
  unfold ofMag
  rw [if_pos h]
  exact ⟨isFinite_ofFields _ _ _ (by omega), rfl, by rw [mag_ofFields _ _ _ (by omega) h]; simp⟩

/-- Rounding a magnitude below 2^150 (values below 2) moves it by less than 2^127
units (2^-22). -/
theorem ofMag_near (s : Bool) (n : Nat) (h : n < 2 ^ 150) :
    (ofMag s n).isFinite = true ∧ (ofMag s n).sign = s ∧
      (ofMag s n).mag ≤ n + 2 ^ 127 ∧ n ≤ (ofMag s n).mag + 2 ^ 127 := by
  by_cases h1 : n < 8388608
  · obtain ⟨hf, hs, hm⟩ := ofMag_small s n h1
    exact ⟨hf, hs, by omega, by omega⟩
  · obtain ⟨sh, hlo, _, hf, hs, hm1, hm2⟩ :=
      ofMag_spec s n (by omega) (lt_trans h (by norm_num))
    have hP : 0 < 2 ^ sh := Nat.pow_pos (by decide)
    have hd1 : n / 2 ^ sh * 2 ^ sh ≤ n := Nat.div_mul_le_self n (2 ^ sh)
    have hd2 : n < n / 2 ^ sh * 2 ^ sh + 2 ^ sh := Nat.lt_div_mul_add hP
    have h150 : (2:Nat) ^ 150 = 8388608 * 2 ^ 127 := by norm_num
    generalize 2 ^ sh = P at *
    generalize n / P * P = lo at *
    refine ⟨hf, hs, ?_, ?_⟩ <;> omega

theorem toInt_eq (a : F32) : a.toInt = if a.sign then - (a.mag : Int) else (a.mag : Int) := rfl

theorem natAbs_toInt (a : F32) : a.toInt.natAbs = a.mag := by
  unfold toInt; split <;> simp

theorem add_of_isFinite {a b : F32} (ha : a.isFinite = true) (hb : b.isFinite = true) :
    add a b = if a.toInt + b.toInt = 0 then zero (a.sign && b.sign)
      else ofMag (decide (a.toInt + b.toInt < 0)) (a.toInt + b.toInt).natAbs := by
  simp [add, isNaN_of_isFinite ha, isNaN_of_isFinite hb, isInf_of_isFinite ha,
    isInf_of_isFinite hb]

/-- The sum of two finite values of magnitude below 2^149 + 2^148 is finite and
within 2^127 units (2^-22) of the exact sum. -/
theorem add_near {a b : F32} (ha : a.isFinite = true) (hb : b.isFinite = true)
    (hbound : a.mag + b.mag < 2 ^ 150) :
    (add a b).isFinite = true ∧
      (add a b).toInt ≤ a.toInt + b.toInt + 2 ^ 127 ∧
      a.toInt + b.toInt ≤ (add a b).toInt + 2 ^ 127 := by
  rw [add_of_isFinite ha hb]
  have hA := natAbs_toInt a
  have hB := natAbs_toInt b
  split
  · rename_i h0
    refine ⟨by simp [zero, isFinite], ?_, ?_⟩ <;>
      · rw [h0]; cases (a.sign && b.sign) <;> simp [zero, toInt, mag]
  · rename_i h0
    have hn : (a.toInt + b.toInt).natAbs < 2 ^ 150 := by omega
    obtain ⟨hf, hs, hm1, hm2⟩ :=
      ofMag_near (decide (a.toInt + b.toInt < 0)) _ hn
    generalize ofMag (decide (a.toInt + b.toInt < 0)) (a.toInt + b.toInt).natAbs = r
      at hf hs hm1 hm2 ⊢
    have hr : r.toInt = if decide (a.toInt + b.toInt < 0) then - (r.mag : Int) else (r.mag : Int) := by
      rw [toInt_eq, hs]
    by_cases hneg : a.toInt + b.toInt < 0
    · simp only [hneg, decide_True, if_true] at hr
      exact ⟨hf, by omega, by omega⟩
    · simp only [hneg, decide_False, Bool.false_eq_true, if_false] at hr
      exact ⟨hf, by omega, by omega⟩

end F32

namespace F32

end F32

namespace F32

/-- Rounding never takes a magnitude below a representable magnitude `m * 2^119`
that it is not below. -/
theorem ofMag_ge_scaled (s : Bool) (n m : Nat) (hm1 : 8388608 ≤ m) (hm2 : m < 16777216)
    (h : m * 2 ^ 119 ≤ n) (h2 : n < 2 ^ 200) : m * 2 ^ 119 ≤ (ofMag s n).mag := by
  have h119 : 8388608 ≤ m * 2 ^ 119 := le_trans hm1 (Nat.le_mul_of_pos_right _ (Nat.pow_pos (by decide)))
  obtain ⟨sh, hlo, hhi, _, _, hm1', _⟩ := ofMag_spec s n (le_trans h119 h) h2
  refine le_trans ?_ hm1'
  have hP : 0 < 2 ^ sh := Nat.pow_pos (by decide)
  by_cases hsh : sh ≤ 119
  · obtain ⟨k, hk⟩ : ∃ k, sh + k = 119 := ⟨119 - sh, by omega⟩
    have hT2 : m * 2 ^ 119 = (m * 2 ^ k) * 2 ^ sh := by
      rw [← hk, Nat.pow_add]; ring
    rw [hT2] at h ⊢
    exact Nat.mul_le_mul_right _ ((Nat.le_div_iff_mul_le hP).2 h)
  · have h120 : 2 ^ 120 ≤ 2 ^ sh := Nat.pow_le_pow_right (by decide) (by omega)
    have hq1 : 8388608 ≤ n / 2 ^ sh := (Nat.le_div_iff_mul_le hP).2 hlo
    calc m * 2 ^ 119 ≤ 16777216 * 2 ^ 119 := Nat.mul_le_mul_right _ (by omega)
      _ = 8388608 * 2 ^ 120 := by norm_num
      _ ≤ 8388608 * 2 ^ sh := Nat.mul_le_mul_left _ h120
      _ ≤ n / 2 ^ sh * 2 ^ sh := Nat.mul_le_mul_right _ hq1

theorem isTolerance_c0_01 : IsTolerance c0_01 10737418 := by
  refine ⟨by decide, by decide, by decide, by decide⟩

theorem isTolerance_c0_01_tight : IsTolerance c0_01_tight 10737162 := by
  refine ⟨by decide, by decide, by decide, by decide⟩

/-- Two finite values that are at least the tolerance apart fail the test
`fabs(x - y) < tolerance`. -/
theorem lt_fabs_sub_false_of_far {x y tol : F32} {m : Nat} (ht : IsTolerance tol m)
    (hx : x.isFinite = true) (hy : y.isFinite = true)
    (hfar : m * 2 ^ 119 ≤ (x.toInt - y.toInt).natAbs)
    (hbound : (x.toInt - y.toInt).natAbs < 2 ^ 200) :
    lt (fabs (sub x y)) tol = false := by
  obtain ⟨_, htol, hm1, hm2⟩ := ht
  have hy1 : (neg y).isFinite = true := by rw [isFinite_neg]; exact hy
  have hd : x.toInt + (neg y).toInt = x.toInt - y.toInt := by rw [toInt_neg]; ring
  unfold sub
  rw [add_of_isFinite hx hy1, hd]
  have hpos : 0 < m * 2 ^ 119 := Nat.mul_pos (by omega) (Nat.pow_pos (by decide))
  have hne : x.toInt - y.toInt ≠ 0 := by
    intro h0
    rw [h0] at hfar
    simp only [Int.natAbs_zero] at hfar
    omega
  rw [if_neg hne]
  have hge := ofMag_ge_scaled (decide (x.toInt - y.toInt < 0)) _ m hm1 hm2 hfar hbound
  generalize ofMag (decide (x.toInt - y.toInt < 0)) (x.toInt - y.toInt).natAbs = r at hge
  have hfab : (fabs r).toInt = (r.mag : Int) := by
    cases r; simp [fabs, toInt, mag]
  simp only [lt, hfab, htol, Bool.and_eq_false_imp, Bool.and_eq_true, Bool.not_eq_true',
    decide_eq_false_iff_not, not_lt]
  intro _
  exact_mod_cast hge

/-- Two finite values that pass the test `fabs(x - y) < tolerance` are less than
the tolerance apart. -/
theorem exact_lt_of_lt_fabs_sub {x y tol : F32} {m : Nat} (ht : IsTolerance tol m)
    (hx : x.isFinite = true) (hy : y.isFinite = true)
    (hbound : (x.toInt - y.toInt).natAbs < 2 ^ 200)
    (h : lt (fabs (sub x y)) tol = true) : (x.toInt - y.toInt).natAbs < m * 2 ^ 119 := by
  by_contra hc
  rw [lt_fabs_sub_false_of_far ht hx hy (not_lt.1 hc) hbound] at h
  cases h

theorem lt_c0_01_of_lt_tight {x : F32} (h : lt x c0_01_tight = true) : lt x c0_01 = true := by
  have h1 : c0_01_tight.toInt < c0_01.toInt := by decide
  have h2 : c0_01.isNaN = false := by decide
  simp only [lt, Bool.and_eq_true, Bool.not_eq_true', decide_eq_true_eq] at h ⊢
  exact ⟨⟨h.1.1, h2⟩, lt_trans h.2 h1⟩

theorem natAbs_toInt_sub_lt {a b : F32} (ha : a.mag ≤ one.mag) (hb : b.mag ≤ one.mag) :
    (a.toInt - b.toInt).natAbs < 2 ^ 200 := by
  have hone : one.mag = 2 ^ 149 := by decide
  have hA := natAbs_toInt a
  have hB := natAbs_toInt b
  rw [hone] at ha hb
  have : (2:Nat) ^ 149 + 2 ^ 149 < 2 ^ 200 := by norm_num
  omega

/-- Adding `0.02f` or `-0.02f` to a finite value `a` of magnitude at most 1 takes
it at least `0.01f` away from every finite value that was within
`0.01f - 2^-22` of `a`. -/
theorem add_c0_02_far_from {a b d : F32} (ha : a.isFinite = true) (hmag : a.mag ≤ one.mag)
    (hd : d = c0_02 ∨ d = neg c0_02)
    (hclose : (a.toInt - b.toInt).natAbs < 10737162 * 2 ^ 119) :
    (add a d).isFinite = true ∧
      10737418 * 2 ^ 119 ≤ ((add a d).toInt - b.toInt).natAbs ∧
      ((add a d).toInt - b.toInt).natAbs < 2 ^ 200 := by
  have hone : one.mag = 2 ^ 149 := by decide
  have hdf : d.isFinite = true := by rcases hd with rfl | rfl <;> decide
  have hdm : d.mag = 10737418 * 2 ^ 120 := by rcases hd with rfl | rfl <;> decide
  have hdi : d.toInt = 10737418 * 2 ^ 120 ∨ d.toInt = - (10737418 * 2 ^ 120) := by
    rcases hd with rfl | rfl
    · left; decide
    · right; decide
  obtain ⟨hf, h1, h2⟩ := add_near ha hdf (by rw [hdm]; rw [hone] at hmag; norm_num at hmag ⊢; omega)
  refine ⟨hf, ?_, ?_⟩
  · rcases hdi with h | h <;> rw [h] at h1 h2 <;> norm_num at h1 h2 hclose ⊢ <;> omega
  · have hA := natAbs_toInt a
    rw [hone] at hmag
    rcases hdi with h | h <;> rw [h] at h1 h2 <;> norm_num at h1 h2 hclose hmag ⊢ <;> omega

end F32

theorem XrpCompareFloat_self {a : F32} (h : a.isFinite = true) : XrpCompareFloat a a = true := by
  simp [XrpCompareFloat, F32.sub_self h]
  decide

theorem XrQuaternionf.negated_negated (q : XrQuaternionf) : q.negated.negated = q := by
  cases q; simp [XrQuaternionf.negated, F32.neg_neg]

theorem XrQuaternionf.eqTol_self {q : XrQuaternionf} (h : q.isFinite = true) :
    q.eqTol q = true := by
  simp only [XrQuaternionf.isFinite, Bool.and_eq_true] at h
  simp [XrQuaternionf.eqTol, XrpCompareFloat_self, h]

theorem StandardizeXrQuaternion_of_ge {q : XrQuaternionf}
    (h : F32.ge q.w (F32.zero false) = true) : StandardizeXrQuaternion q = q := by
  simp [StandardizeXrQuaternion, h]

theorem StandardizeXrQuaternion_of_not_ge {q : XrQuaternionf}
    (h : F32.ge q.w (F32.zero false) = false) : StandardizeXrQuaternion q = q.negated := by
  simp [StandardizeXrQuaternion, h, XrQuaternionf.negated]

theorem StandardizeXrQuaternion_w_ge {q : XrQuaternionf} (h : q.w.isNaN = false) :
    F32.ge (StandardizeXrQuaternion q).w (F32.zero false) = true := by
  by_cases hge : F32.ge q.w (F32.zero false) = true
  · rw [StandardizeXrQuaternion_of_ge hge]; exact hge
  · have hge' : F32.ge q.w (F32.zero false) = false := by simpa using hge
    rw [StandardizeXrQuaternion_of_not_ge hge']
    have hlt : ¬ (0 ≤ q.w.toInt) := by
      intro h0
      exact hge ((F32.ge_zero_iff _).2 ⟨h, h0⟩)
    refine (F32.ge_zero_iff _).2 ⟨?_, ?_⟩
    · simpa [XrQuaternionf.negated, F32.isNaN_neg] using h
    · simp only [XrQuaternionf.negated, F32.toInt_neg]
      omega

/-- C1 (as stated, refuted): for the quaternion (NaN, 1, 0, 0) the comparison
`w >= 0.f` is false, every component is negated, and the result's `w` is
still a NaN, so the result does not have `w >= 0`. -/
theorem C1_counterexample_nan :
    qNaN.w.isNaN = true ∧
      F32.ge (StandardizeXrQuaternion qNaN).w (F32.zero false) = false := by
  decide

/-- C1 (amended): `StandardizeXrQuaternion` leaves `q` unchanged when `w >= 0`
and replaces it by (-w,-x,-y,-z) when `w < 0`; for every `q` the result is `q`
or its component-wise negation, and for every `q` whose `w` is not a NaN the
result has `w >= 0`. -/
theorem C1_StandardizeXrQuaternion_sign (q : XrQuaternionf) :
    (F32.ge q.w (F32.zero false) = true → StandardizeXrQuaternion q = q) ∧
    (F32.lt q.w (F32.zero false) = true → StandardizeXrQuaternion q = q.negated) ∧
    (StandardizeXrQuaternion q = q ∨ StandardizeXrQuaternion q = q.negated) ∧
    (q.w.isNaN = false → F32.ge (StandardizeXrQuaternion q).w (F32.zero false) = true) := by
  refine ⟨StandardizeXrQuaternion_of_ge, ?_, ?_, StandardizeXrQuaternion_w_ge⟩
  · intro hlt
    apply StandardizeXrQuaternion_of_not_ge
    have h1 := (F32.lt_zero_iff _).1 hlt
    cases hge : F32.ge q.w (F32.zero false) with
    | false => rfl
    | true =>
      have h2 := (F32.ge_zero_iff _).1 hge
      omega
  · cases hge : F32.ge q.w (F32.zero false) with
    | false => exact Or.inr (StandardizeXrQuaternion_of_not_ge hge)
    | true => exact Or.inl (StandardizeXrQuaternion_of_ge hge)

/-- C1 witness: at (-1, 0.01, 0, -0) the branch `w < 0` is taken, the result is
the component-wise negation (1, -0.01, -0, 0) and its `w` is `>= 0`. -/
theorem C1_StandardizeXrQuaternion_sign_witness :
    F32.lt qNegW.w (F32.zero false) = true ∧
      StandardizeXrQuaternion qNegW = qNegW.negated ∧
      F32.ge (StandardizeXrQuaternion qNegW).w (F32.zero false) = true :=
  ⟨by decide, (C1_StandardizeXrQuaternion_sign qNegW).2.1 (by decide),
    (C1_StandardizeXrQuaternion_sign qNegW).2.2.2 (by decide)⟩

/-- C2 (as stated, refuted): on (NaN, 1, 0, 0) every call negates all four
components, so the second application undoes the first: applying twice gives
x = 1 where applying once gives x = -1. -/
theorem C2_counterexample_nan :
    StandardizeXrQuaternion (StandardizeXrQuaternion qNaN) ≠ StandardizeXrQuaternion qNaN ∧
      (StandardizeXrQuaternion qNaN).x = F32.neg F32.one ∧
      (StandardizeXrQuaternion (StandardizeXrQuaternion qNaN)).x = F32.one := by
  decide

/-- C2 (amended): for every quaternion whose `w` is not a NaN, applying
`StandardizeXrQuaternion` twice gives exactly the quaternion that applying it
once gives. -/
theorem C2_StandardizeXrQuaternion_idempotent (q : XrQuaternionf) (h : q.w.isNaN = false) :
    StandardizeXrQuaternion (StandardizeXrQuaternion q) = StandardizeXrQuaternion q :=
  StandardizeXrQuaternion_of_ge (StandardizeXrQuaternion_w_ge h)

/-- C2 witness: (-1, 0.01, 0, -0) has a non-NaN `w`; one and two applications
both give (1, -0.01, -0, 0). -/
theorem C2_StandardizeXrQuaternion_idempotent_witness :
    qNegW.w.isNaN = false ∧
      StandardizeXrQuaternion (StandardizeXrQuaternion qNegW) = StandardizeXrQuaternion qNegW :=
  ⟨by decide, C2_StandardizeXrQuaternion_idempotent qNegW (by decide)⟩

/-- C3 (as stated, refuted): (0, 1, 0, 0) and its negation (-0, -1, -0, -0)
both pass the test `w >= 0.f`, so both are left unchanged, and they differ by 2
in x: `operator==` on the two canonicalised quaternions is false. -/
theorem C3_counterexample_zero_w :
    StandardizeXrQuaternion qHalfTurn = qHalfTurn ∧
      StandardizeXrQuaternion qHalfTurn.negated = qHalfTurn.negated ∧
      (StandardizeXrQuaternion qHalfTurn).eqTol (StandardizeXrQuaternion qHalfTurn.negated)
        = false := by
  decide

/-- C3 (amended): for every quaternion with finite components and `w` different
from zero, canonicalising `q` and canonicalising (-w,-x,-y,-z) give the same
quaternion, and the two results are equal under `operator==`. -/
theorem C3_StandardizeXrQuaternion_negated (q : XrQuaternionf)
    (hfin : q.isFinite = true) (hw : q.w.toInt ≠ 0) :
    StandardizeXrQuaternion q.negated = StandardizeXrQuaternion q ∧
      (StandardizeXrQuaternion q).eqTol (StandardizeXrQuaternion q.negated) = true := by
  have hwfin : q.w.isFinite = true := by
    simp only [XrQuaternionf.isFinite, Bool.and_eq_true] at hfin
    exact hfin.1.1.1
  have hnan := F32.isNaN_of_isFinite hwfin
  have hnan' : q.negated.w.isNaN = false := by
    simpa [XrQuaternionf.negated, F32.isNaN_neg] using hnan
  have hneg : q.negated.w.toInt = - q.w.toInt := by
    simp [XrQuaternionf.negated, F32.toInt_neg]
  have key : StandardizeXrQuaternion q.negated = StandardizeXrQuaternion q := by
    by_cases h0 : 0 ≤ q.w.toInt
    · have hge : F32.ge q.w (F32.zero false) = true := (F32.ge_zero_iff _).2 ⟨hnan, h0⟩
      have hnge : F32.ge q.negated.w (F32.zero false) = false := by
        cases hc : F32.ge q.negated.w (F32.zero false) with
        | false => rfl
        | true =>
          have h2 := ((F32.ge_zero_iff _).1 hc).2
          omega
      rw [StandardizeXrQuaternion_of_ge hge, StandardizeXrQuaternion_of_not_ge hnge,
        XrQuaternionf.negated_negated]
    · have hge : F32.ge q.negated.w (F32.zero false) = true :=
        (F32.ge_zero_iff _).2 ⟨hnan', by omega⟩
      have hnge : F32.ge q.w (F32.zero false) = false := by
        cases hc : F32.ge q.w (F32.zero false) with
        | false => rfl
        | true => exact absurd ((F32.ge_zero_iff _).1 hc).2 h0
      rw [StandardizeXrQuaternion_of_ge hge, StandardizeXrQuaternion_of_not_ge hnge]
  refine ⟨key, ?_⟩
  rw [key]
  apply XrQuaternionf.eqTol_self
  cases hc : F32.ge q.w (F32.zero false) with
  | true => rw [StandardizeXrQuaternion_of_ge hc]; exact hfin
  | false =>
    rw [StandardizeXrQuaternion_of_not_ge hc]
    simpa [XrQuaternionf.isFinite, XrQuaternionf.negated, F32.isFinite_neg] using hfin

/-- C3 witness: (-1, 0.01, 0, -0) is finite with non-zero `w`; it and its
negation canonicalise to the same quaternion. -/
theorem C3_StandardizeXrQuaternion_negated_witness :
    qNegW.isFinite = true ∧ qNegW.w.toInt ≠ 0 ∧
      StandardizeXrQuaternion qNegW.negated = StandardizeXrQuaternion qNegW ∧
      (StandardizeXrQuaternion qNegW).eqTol (StandardizeXrQuaternion qNegW.negated) = true :=
  ⟨by decide, by decide, C3_StandardizeXrQuaternion_negated qNegW (by decide) (by decide)⟩

/-! ### `PoseInput::GetPoseInfo`: the symmetry classification -/

theorem PoseInput.classify_pose_infos (l : List PoseInfo) :
    (PoseInput.classify l).pose_infos = l := by
  unfold PoseInput.classify
  split <;> rfl

theorem PoseInput.classify_check (l : List PoseInfo) :
    (PoseInput.classify l).check_symmetrical = decide (l.length = 2) := by
  match l with
  | [] => rfl
  | [_] => rfl
  | [_, _] => rfl
  | _ :: _ :: _ :: _ => simp [PoseInput.classify]

theorem PoseInput.classify_orientation (l : List PoseInfo) :
    (PoseInput.classify l).is_orientation_symmetrical = true ↔
      ∃ p1 p2, l = [p1, p2] ∧
        orientationSymmetrical p1.pose.orientation p2.pose.orientation = true := by
  match l with
  | [] => simp [PoseInput.classify]
  | [_] => simp [PoseInput.classify]
  | [a, b] =>
    simp only [PoseInput.classify, List.cons.injEq, and_true, ite_eq_left_iff,
      Bool.not_eq_true, Bool.false_eq_true, imp_false, Bool.not_eq_false]
    exact ⟨fun h => ⟨a, b, ⟨rfl, rfl⟩, h⟩, fun ⟨_, _, ⟨h1, h2⟩, h⟩ => h1 ▸ h2 ▸ h⟩
  | _ :: _ :: _ :: _ => simp [PoseInput.classify]

theorem PoseInput.classify_position (l : List PoseInfo) :
    (PoseInput.classify l).is_position_symmetrical = true ↔
      ∃ p1 p2, l = [p1, p2] ∧
        positionSymmetrical p1.pose.position p2.pose.position = true := by
  match l with
  | [] => simp [PoseInput.classify]
  | [_] => simp [PoseInput.classify]
  | [a, b] =>
    simp only [PoseInput.classify, List.cons.injEq, and_true, ite_eq_left_iff,
      Bool.not_eq_true, Bool.false_eq_true, imp_false, Bool.not_eq_false]
    exact ⟨fun h => ⟨a, b, ⟨rfl, rfl⟩, h⟩, fun ⟨_, _, ⟨h1, h2⟩, h⟩ => h1 ▸ h2 ▸ h⟩
  | _ :: _ :: _ :: _ => simp [PoseInput.classify]

/-- A successful `GetPoseInfo` on a non-reference action ran the loop over the
subaction paths to its end and classified what the loop collected. -/
theorem PoseInput.GetPoseInfo_ret_true {rt : XrRuntime} {context : XrpContext}
    {poses : StdMap (Option PoseInput)} {self : PoseInput} {out0 out : PoseOutputInfo}
    (href : self.action_info_.reference = false)
    (h : PoseInput.GetPoseInfo rt context poses self out0 = .ret true out) :
    ∃ base pose_infos,
      PoseInput.GetPoseInfoLoop rt context self base self.action_info_.subaction_paths []
        = some pose_infos ∧ out = PoseInput.classify pose_infos := by
  unfold PoseInput.GetPoseInfo at h
  simp only [href, Bool.false_eq_true, if_false] at h
  split at h
  · split at h
    · simp at h
    · rename_i pose_infos hl
      refine ⟨none, pose_infos, hl, ?_⟩
      simpa using h.symm
  · split at h
    · rename_i b _
      split at h
      · simp at h
      · rename_i pose_infos hl
        refine ⟨some b, pose_infos, hl, ?_⟩
        simpa using h.symm
    · simp at h

theorem XrpCompareFloat_eq (x y : F32) :
    XrpCompareFloat x y = F32.lt (F32.fabs (F32.sub x y)) F32.c0_01 := by
  unfold XrpCompareFloat
  cases F32.lt (F32.fabs (F32.sub x y)) F32.c0_01 <;> rfl

theorem orientationSymmetrical_iff (q1 q2 : XrQuaternionf) :
    orientationSymmetrical q1 q2 = true ↔
      F32.lt (F32.fabs (F32.sub q1.w q2.w)) F32.c0_01 = true ∧
      F32.lt (F32.fabs (F32.sub q1.x q2.x)) F32.c0_01 = true ∧
      F32.lt (F32.fabs (F32.sub (F32.neg q1.y) q2.y)) F32.c0_01 = true ∧
      F32.lt (F32.fabs (F32.sub (F32.neg q1.z) q2.z)) F32.c0_01 = true := by
  simp only [orientationSymmetrical, XrpCompareFloat_eq, Bool.and_eq_true, and_assoc]

theorem positionSymmetrical_iff (vec1 vec2 : XrVector3f) :
    positionSymmetrical vec1 vec2 = true ↔
      F32.lt (F32.fabs (F32.sub vec1.x (F32.neg vec2.x))) F32.c0_01 = true ∧
      F32.lt (F32.fabs (F32.sub vec1.y vec2.y)) F32.c0_01 = true ∧
      F32.lt (F32.fabs (F32.sub vec1.z vec2.z)) F32.c0_01 = true := by
  simp only [positionSymmetrical, XrpCompareFloat_eq, Bool.and_eq_true, and_assoc]

/-- A finite orientation and its mirror image (w, x, -y, -z) pass the test. -/
theorem orientationSymmetrical_mirrored {q : XrQuaternionf} (h : q.isFinite = true) :
    orientationSymmetrical q q.mirrored = true := by
  simp only [XrQuaternionf.isFinite, Bool.and_eq_true] at h
  obtain ⟨⟨⟨hw, hx⟩, hy⟩, hz⟩ := h
  have hy1 : (F32.neg q.y).isFinite = true := by rw [F32.isFinite_neg]; exact hy
  have hz1 : (F32.neg q.z).isFinite = true := by rw [F32.isFinite_neg]; exact hz
  simp [orientationSymmetrical, XrQuaternionf.mirrored, XrpCompareFloat_self, hw, hx, hy1, hz1]

/-- C4 (as stated, refuted): the runtime marks only the position as valid and
leaves the orientations (+inf, 0, 0, 0) and (+inf, 0, -0, -0) for the two
hands, which are (w, x, y, z) and (w, x, -y, -z); `GetPoseInfo` succeeds with
these two samples, and since `inf - inf` is a NaN the comparison of the `w`
components fails: orientation-symmetrical is false. -/
theorem C4_counterexample_infinite :
    (PoseInput.GetPoseInfo
        (exRuntime ⟨qInfW, exZeroPosition⟩ ⟨qInfW.mirrored, exZeroPosition⟩
          XR_SPACE_LOCATION_POSITION_VALID_BIT)
        exContext [] exGrip exOut).value?.map
      (fun out => (out.pose_infos.map (fun p => p.pose.orientation),
        out.is_orientation_symmetrical))
      = some ([qInfW, qInfW.mirrored], false) := by
  decide

/-- C4 (amended): for every successful `GetPoseInfo` on a non-reference action,
orientation-symmetrical is true if and only if exactly two samples were
produced and, for the first sample q1 and the second q2, `fabs(q1.w - q2.w)`,
`fabs(q1.x - q2.x)`, `fabs(-q1.y - q2.y)` and `fabs(-q1.z - q2.z)`, computed in
`float`, are all less than `0.01f`; in particular two samples (w, x, y, z) and
(w, x, -y, -z) with finite components are classified orientation-symmetrical. -/
theorem C4_orientation_symmetrical (rt : XrRuntime) (context : XrpContext)
    (poses : StdMap (Option PoseInput)) (self : PoseInput) (out0 out : PoseOutputInfo)
    (href : self.action_info_.reference = false)
    (h : PoseInput.GetPoseInfo rt context poses self out0 = .ret true out) :
    (out.is_orientation_symmetrical = true ↔
      ∃ p1 p2, out.pose_infos = [p1, p2] ∧
        F32.lt (F32.fabs (F32.sub p1.pose.orientation.w p2.pose.orientation.w)) F32.c0_01 = true ∧
        F32.lt (F32.fabs (F32.sub p1.pose.orientation.x p2.pose.orientation.x)) F32.c0_01 = true ∧
        F32.lt (F32.fabs (F32.sub (F32.neg p1.pose.orientation.y) p2.pose.orientation.y))
          F32.c0_01 = true ∧
        F32.lt (F32.fabs (F32.sub (F32.neg p1.pose.orientation.z) p2.pose.orientation.z))
          F32.c0_01 = true) ∧
    (∀ p1 p2, out.pose_infos = [p1, p2] → p1.pose.orientation.isFinite = true →
      p2.pose.orientation = p1.pose.orientation.mirrored →
      out.is_orientation_symmetrical = true) := by
  obtain ⟨_, l, _, rfl⟩ := PoseInput.GetPoseInfo_ret_true href h
  rw [PoseInput.classify_orientation, PoseInput.classify_pose_infos]
  constructor
  · simp only [orientationSymmetrical_iff]
  · intro p1 p2 hl hfin hmir
    refine ⟨p1, p2, hl, ?_⟩
    rw [hmir]
    exact orientationSymmetrical_mirrored hfin

/-- C4 witness: the runtime reports (1, 0.1, 0.2, 0.3) for the left hand and its
mirror image (1, 0.1, -0.2, -0.3) for the right hand; `GetPoseInfo` succeeds on
the non-reference action `grip` with these two samples and
orientation-symmetrical is true. -/
theorem C4_orientation_symmetrical_witness :
    exGrip.action_info_.reference = false ∧
      PoseInput.GetPoseInfo
        (exRuntime ⟨qTilted, exZeroPosition⟩ ⟨qTilted.mirrored, exZeroPosition⟩ 3)
        exContext [] exGrip exOut
        = .ret true (PoseInput.classify
            [exSample "/user/hand/left" ⟨qTilted, exZeroPosition⟩,
             exSample "/user/hand/right" ⟨qTilted.mirrored, exZeroPosition⟩]) ∧
      (PoseInput.classify
        [exSample "/user/hand/left" ⟨qTilted, exZeroPosition⟩,
         exSample "/user/hand/right" ⟨qTilted.mirrored, exZeroPosition⟩]
        ).is_orientation_symmetrical = true :=
  ⟨by decide, by decide,
    (C4_orientation_symmetrical
      (exRuntime ⟨qTilted, exZeroPosition⟩ ⟨qTilted.mirrored, exZeroPosition⟩ 3)
      exContext [] exGrip exOut _ (by decide) (by decide)).2
      (exSample "/user/hand/left" ⟨qTilted, exZeroPosition⟩)
      (exSample "/user/hand/right" ⟨qTilted.mirrored, exZeroPosition⟩)
      (by decide) (by decide) (by decide)⟩

/-- C6: for every successful `GetPoseInfo` on a non-reference action,
position-symmetrical is true if and only if exactly two samples were produced
and, for the first position p1 and the second p2, `fabs(p1.x - (-p2.x))`,
`fabs(p1.y - p2.y)` and `fabs(p1.z - p2.z)`, computed in `float`, are all less
than `0.01f`; in particular a left sample at (0.1, 0.2, 0.3) and a right sample
at (-0.1, 0.2, 0.3), both with the identity orientation, give
position-symmetrical = true and orientation-symmetrical = true. -/
theorem C6_position_symmetrical (rt : XrRuntime) (context : XrpContext)
    (poses : StdMap (Option PoseInput)) (self : PoseInput) (out0 out : PoseOutputInfo)
    (href : self.action_info_.reference = false)
    (h : PoseInput.GetPoseInfo rt context poses self out0 = .ret true out) :
    (out.is_position_symmetrical = true ↔
      ∃ p1 p2, out.pose_infos = [p1, p2] ∧
        F32.lt (F32.fabs (F32.sub p1.pose.position.x (F32.neg p2.pose.position.x)))
          F32.c0_01 = true ∧
        F32.lt (F32.fabs (F32.sub p1.pose.position.y p2.pose.position.y)) F32.c0_01 = true ∧
        F32.lt (F32.fabs (F32.sub p1.pose.position.z p2.pose.position.z)) F32.c0_01 = true) ∧
    (∀ p1 p2, out.pose_infos = [p1, p2] → p1.pose = exLeftPose → p2.pose = exRightPose →
      out.is_position_symmetrical = true ∧ out.is_orientation_symmetrical = true) := by
  obtain ⟨_, l, _, rfl⟩ := PoseInput.GetPoseInfo_ret_true href h
  rw [PoseInput.classify_position, PoseInput.classify_orientation,
    PoseInput.classify_pose_infos]
  constructor
  · simp only [positionSymmetrical_iff]
  · intro p1 p2 hl h1 h2
    refine ⟨⟨p1, p2, hl, ?_⟩, ⟨p1, p2, hl, ?_⟩⟩
    · rw [h1, h2]; decide
    · rw [h1, h2]; decide

/-- C6 witness: the end-to-end scenario. `GetPoseInfo` succeeds on `grip` with
the left sample at (0.1, 0.2, 0.3) and the right sample at (-0.1, 0.2, 0.3),
and both symmetry flags are true. -/
theorem C6_position_symmetrical_witness :
    exGrip.action_info_.reference = false ∧
      PoseInput.GetPoseInfo (exRuntime exLeftPose exRightPose 3) exContext [] exGrip exOut
        = .ret true (PoseInput.classify
            [exSample "/user/hand/left" exLeftPose, exSample "/user/hand/right" exRightPose]) ∧
      (PoseInput.classify
        [exSample "/user/hand/left" exLeftPose, exSample "/user/hand/right" exRightPose]
        ).is_position_symmetrical = true ∧
      (PoseInput.classify
        [exSample "/user/hand/left" exLeftPose, exSample "/user/hand/right" exRightPose]
        ).is_orientation_symmetrical = true :=
  ⟨by decide, by decide,
    (C6_position_symmetrical (exRuntime exLeftPose exRightPose 3) exContext [] exGrip exOut _
      (by decide) (by decide)).2 (exSample "/user/hand/left" exLeftPose)
      (exSample "/user/hand/right" exRightPose) (by decide) (by decide) (by decide)⟩

/-! ### Perturbing a symmetrical pair -/

theorem perturbValue_eq (v : F32) (subtract : Bool) :
    ∃ d, (d = F32.c0_02 ∨ d = F32.neg F32.c0_02) ∧ perturbValue v subtract = F32.add v d := by
  cases subtract
  · exact ⟨F32.c0_02, Or.inl rfl, rfl⟩
  · exact ⟨F32.neg F32.c0_02, Or.inr rfl, rfl⟩

/-- C5 (as stated, refuted): the samples (0.99, 0, 0, 0) and (1, 0, 0, 0) are
classified orientation-symmetrical (`1.0f - 0.99f` is below `0.01f`); adding
`0.02f` to `w` of the first gives `1.01f` rounded to `float`, whose distance from
`1.0f` is again below `0.01f`, so the pair is still classified
orientation-symmetrical. -/
theorem C5_counterexample_rounding :
    orientationSymmetrical qW099 qIdentity = true ∧
      orientationSymmetrical (qW099.perturb .w false) qIdentity = true := by
  decide

theorem XrpCompareFloat_eq_lt (x y tol : F32) :
    XrpCompareFloat x y tol = F32.lt (F32.fabs (F32.sub x y)) tol := by
  unfold XrpCompareFloat
  cases F32.lt (F32.fabs (F32.sub x y)) tol <;> rfl

theorem F32.isFinite_of_inUnitRange {a : F32} (h : a.inUnitRange = true) :
    a.isFinite = true ∧ a.mag ≤ F32.one.mag := by
  simpa [F32.inUnitRange] using h

theorem XrpCompareFloat_of_tight {a b : F32} (h : XrpCompareFloat a b F32.c0_01_tight = true) :
    XrpCompareFloat a b = true := by
  rw [XrpCompareFloat_eq_lt] at h ⊢
  exact F32.lt_c0_01_of_lt_tight h

/-- The exact distance of two values of magnitude at most 1 that pass the test
with the tolerance `0.01f - 2^-22`. -/
theorem exact_of_tight {a b : F32} (ha : a.inUnitRange = true) (hb : b.inUnitRange = true)
    (h : XrpCompareFloat a b F32.c0_01_tight = true) :
    (a.toInt - b.toInt).natAbs < 10737162 * 2 ^ 119 := by
  obtain ⟨haf, ham⟩ := F32.isFinite_of_inUnitRange ha
  obtain ⟨hbf, hbm⟩ := F32.isFinite_of_inUnitRange hb
  rw [XrpCompareFloat_eq_lt] at h
  exact F32.exact_lt_of_lt_fabs_sub F32.isTolerance_c0_01_tight haf hbf
    (F32.natAbs_toInt_sub_lt ham hbm) h

theorem XrpCompareFloat_perturb_left {a b : F32} (ha : a.inUnitRange = true)
    (hb : b.inUnitRange = true) (h : XrpCompareFloat a b F32.c0_01_tight = true)
    (subtract : Bool) : XrpCompareFloat (perturbValue a subtract) b = false := by
  obtain ⟨haf, ham⟩ := F32.isFinite_of_inUnitRange ha
  obtain ⟨hbf, _⟩ := F32.isFinite_of_inUnitRange hb
  obtain ⟨d, hd, he⟩ := perturbValue_eq a subtract
  obtain ⟨hf, h1, h2⟩ := F32.add_c0_02_far_from haf ham hd (exact_of_tight ha hb h)
  rw [he, XrpCompareFloat_eq_lt]
  exact F32.lt_fabs_sub_false_of_far F32.isTolerance_c0_01 hf hbf h1 h2

theorem XrpCompareFloat_perturb_right {a b : F32} (ha : a.inUnitRange = true)
    (hb : b.inUnitRange = true) (h : XrpCompareFloat a b F32.c0_01_tight = true)
    (subtract : Bool) : XrpCompareFloat a (perturbValue b subtract) = false := by
  obtain ⟨haf, _⟩ := F32.isFinite_of_inUnitRange ha
  obtain ⟨hbf, hbm⟩ := F32.isFinite_of_inUnitRange hb
  obtain ⟨d, hd, he⟩ := perturbValue_eq b subtract
  have hclose : (b.toInt - a.toInt).natAbs < 10737162 * 2 ^ 119 := by
    rw [← Int.natAbs_neg, Int.neg_sub]; exact exact_of_tight ha hb h
  obtain ⟨hf, h1, h2⟩ := F32.add_c0_02_far_from hbf hbm hd hclose
  rw [he, XrpCompareFloat_eq_lt]
  apply F32.lt_fabs_sub_false_of_far F32.isTolerance_c0_01 haf hf
  · rw [← Int.natAbs_neg, Int.neg_sub]; exact h1
  · rw [← Int.natAbs_neg, Int.neg_sub]; exact h2

theorem XrpCompareFloat_perturb_left_neg {a b : F32} (ha : a.inUnitRange = true)
    (hb : b.inUnitRange = true) (h : XrpCompareFloat (F32.neg a) b F32.c0_01_tight = true)
    (subtract : Bool) : XrpCompareFloat (F32.neg (perturbValue a subtract)) b = false := by
  obtain ⟨haf, ham⟩ := F32.isFinite_of_inUnitRange ha
  obtain ⟨hbf, _⟩ := F32.isFinite_of_inUnitRange hb
  obtain ⟨d, hd, he⟩ := perturbValue_eq a subtract
  have hna : (F32.neg a).inUnitRange = true := ha
  have hclose : (a.toInt - (F32.neg b).toInt).natAbs < 10737162 * 2 ^ 119 := by
    have := exact_of_tight hna hb h
    rw [F32.toInt_neg] at this ⊢
    rw [← Int.natAbs_neg]
    rw [show -(a.toInt - -b.toInt) = -a.toInt - b.toInt by ring]
    exact this
  obtain ⟨hf, h1, h2⟩ := F32.add_c0_02_far_from haf ham hd hclose
  rw [he, XrpCompareFloat_eq_lt]
  have hconv : (F32.neg (F32.add a d)).toInt - b.toInt
      = -((F32.add a d).toInt - (F32.neg b).toInt) := by
    rw [F32.toInt_neg, F32.toInt_neg]; ring
  apply F32.lt_fabs_sub_false_of_far F32.isTolerance_c0_01
    (by rw [F32.isFinite_neg]; exact hf) hbf
  · rw [hconv, Int.natAbs_neg]; exact h1
  · rw [hconv, Int.natAbs_neg]; exact h2

/-- An orientation with components of magnitude at most 1 and its exact mirror
image pass the symmetry test with the tolerance `0.01f - 2^-22`. -/
theorem orientationSymmetricalWithin_mirrored {q : XrQuaternionf} (h : q.inUnitRange = true) :
    orientationSymmetricalWithin F32.c0_01_tight q q.mirrored = true := by
  simp only [XrQuaternionf.inUnitRange, Bool.and_eq_true] at h
  obtain ⟨⟨⟨hw, hx⟩, hy⟩, hz⟩ := h
  have self_ok : ∀ a : F32, a.isFinite = true → XrpCompareFloat a a F32.c0_01_tight = true := by
    intro a ha
    rw [XrpCompareFloat_eq_lt, F32.sub_self ha]
    decide
  simp [orientationSymmetricalWithin, XrQuaternionf.mirrored,
    self_ok _ (F32.isFinite_of_inUnitRange hw).1, self_ok _ (F32.isFinite_of_inUnitRange hx).1,
    self_ok _ (show (F32.neg q.y).isFinite = true from (F32.isFinite_of_inUnitRange hy).1),
    self_ok _ (show (F32.neg q.z).isFinite = true from (F32.isFinite_of_inUnitRange hz).1)]

/-- C5 (amended): for every pair of orientation samples q1, q2 whose components
are finite and of magnitude at most 1 and whose four component comparisons
hold with the tolerance `0.01f - 2^-22` (as they do for every exact mirror
pair (w, x, y, z), (w, x, -y, -z)), the check of `GetPoseInfo` classifies the
pair as orientation-symmetrical, and adding or subtracting `0.02f` to any single
component of either sample makes the same check classify the pair as not
orientation-symmetrical. -/
theorem C5_perturbation_flips (q1 q2 : XrQuaternionf)
    (h1 : q1.inUnitRange = true) (h2 : q2.inUnitRange = true)
    (hclose : orientationSymmetricalWithin F32.c0_01_tight q1 q2 = true)
    (c : Component) (subtract : Bool) :
    orientationSymmetrical q1 q2 = true ∧
      orientationSymmetrical (q1.perturb c subtract) q2 = false ∧
      orientationSymmetrical q1 (q2.perturb c subtract) = false := by
  simp only [XrQuaternionf.inUnitRange, Bool.and_eq_true] at h1 h2
  obtain ⟨⟨⟨hw1, hx1⟩, hy1⟩, hz1⟩ := h1
  obtain ⟨⟨⟨hw2, hx2⟩, hy2⟩, hz2⟩ := h2
  simp only [orientationSymmetricalWithin, Bool.and_eq_true] at hclose
  obtain ⟨⟨⟨cw, cx⟩, cy⟩, cz⟩ := hclose
  have hy1n : (F32.neg q1.y).inUnitRange = true := hy1
  have hz1n : (F32.neg q1.z).inUnitRange = true := hz1
  refine ⟨?_, ?_, ?_⟩
  · simp [orientationSymmetrical, XrpCompareFloat_of_tight cw, XrpCompareFloat_of_tight cx,
      XrpCompareFloat_of_tight cy, XrpCompareFloat_of_tight cz]
  · cases c
    · simp [orientationSymmetrical, XrQuaternionf.perturb,
        XrpCompareFloat_perturb_left hw1 hw2 cw subtract]
    · simp [orientationSymmetrical, XrQuaternionf.perturb,
        XrpCompareFloat_perturb_left hx1 hx2 cx subtract]
    · simp [orientationSymmetrical, XrQuaternionf.perturb,
        XrpCompareFloat_perturb_left_neg hy1 hy2 cy subtract]
    · simp [orientationSymmetrical, XrQuaternionf.perturb,
        XrpCompareFloat_perturb_left_neg hz1 hz2 cz subtract]
  · cases c
    · simp [orientationSymmetrical, XrQuaternionf.perturb,
        XrpCompareFloat_perturb_right hw1 hw2 cw subtract]
    · simp [orientationSymmetrical, XrQuaternionf.perturb,
        XrpCompareFloat_perturb_right hx1 hx2 cx subtract]
    · simp [orientationSymmetrical, XrQuaternionf.perturb,
        XrpCompareFloat_perturb_right hy1n hy2 cy subtract]
    · simp [orientationSymmetrical, XrQuaternionf.perturb,
        XrpCompareFloat_perturb_right hz1n hz2 cz subtract]

/-- C5 witness: (1, 0.1, 0.2, 0.3) and its mirror image (1, 0.1, -0.2, -0.3)
have components of magnitude at most 1 and pass the test with the tighter
tolerance; they are classified symmetrical, and subtracting `0.02f` from `y` of
either sample makes the check fail. -/
theorem C5_perturbation_flips_witness :
    qTilted.inUnitRange = true ∧ qTilted.mirrored.inUnitRange = true ∧
      orientationSymmetricalWithin F32.c0_01_tight qTilted qTilted.mirrored = true ∧
      orientationSymmetrical qTilted qTilted.mirrored = true ∧
      orientationSymmetrical (qTilted.perturb .y true) qTilted.mirrored = false ∧
      orientationSymmetrical qTilted (qTilted.mirrored.perturb .y true) = false :=
  ⟨by decide, by decide, by decide,
    C5_perturbation_flips qTilted qTilted.mirrored (by decide) (by decide) (by decide) .y true⟩

/-! ### The key order and `std::map` -/

theorem ltChars_irrefl : ∀ l : List Char, ltChars l l = false
  | [] => rfl
  | a :: as => by simp [ltChars, ltChars_irrefl as]

theorem ltChars_trans : ∀ {a b c : List Char}, ltChars a b = true → ltChars b c = true →
    ltChars a c = true
  | _, [], _, h, _ => by cases ‹List Char› <;> simp [ltChars] at h
  | _, _ :: _, [], _, h => by simp [ltChars] at h
  | [], _ :: _, _ :: _, _, _ => by simp [ltChars]
  | x :: xs, y :: ys, z :: zs, h1, h2 => by
    simp only [ltChars, Bool.or_eq_true, decide_eq_true_eq, Bool.and_eq_true] at h1 h2 ⊢
    rcases h1 with h1 | ⟨e1, h1⟩ <;> rcases h2 with h2 | ⟨e2, h2⟩
    · left; omega
    · left; omega
    · left; omega
    · right; exact ⟨by omega, ltChars_trans h1 h2⟩

theorem ltChars_trichotomy : ∀ a b : List Char, ltChars a b = true ∨ a = b ∨ ltChars b a = true
  | [], [] => Or.inr (Or.inl rfl)
  | [], _ :: _ => Or.inl rfl
  | _ :: _, [] => Or.inr (Or.inr rfl)
  | x :: xs, y :: ys => by
    simp only [ltChars, Bool.or_eq_true, decide_eq_true_eq, Bool.and_eq_true, List.cons.injEq]
    rcases Nat.lt_trichotomy x.toNat y.toNat with h | h | h
    · left; left; exact h
    · have hxy : x = y := Char.ext (UInt32.ext h)
      rcases ltChars_trichotomy xs ys with h2 | h2 | h2
      · left; right; exact ⟨h, h2⟩
      · right; left; exact ⟨hxy, h2⟩
      · right; right; right; exact ⟨h.symm, h2⟩
    · right; right; left; exact h

theorem strLt_irrefl (a : String) : strLt a a = false := ltChars_irrefl _

theorem strLt_trans {a b c : String} (h1 : strLt a b = true) (h2 : strLt b c = true) :
    strLt a c = true := ltChars_trans h1 h2

theorem strLt_trichotomy (a b : String) : strLt a b = true ∨ a = b ∨ strLt b a = true := by
  rcases ltChars_trichotomy a.toList b.toList with h | h | h
  · exact Or.inl h
  · exact Or.inr (Or.inl (String.ext h))
  · exact Or.inr (Or.inr h)

theorem strLt_asymm {a b : String} (h1 : strLt a b = true) : strLt b a = false := by
  cases h : strLt b a
  · rfl
  · have := strLt_trans h1 h
    rw [strLt_irrefl] at this
    exact absurd this (by decide)

theorem strLt_ne {a b : String} (h : strLt a b = true) : a ≠ b := by
  rintro rfl
  rw [strLt_irrefl] at h
  exact absurd h (by decide)

namespace StdMap

variable {T : Type}

theorem find_assign_self (m : StdMap T) (k : String) (v : T) :
    find (assign m k v) k = some v := by
  induction m with
  | nil => simp [assign, find]
  | cons e rest ih =>
    obtain ⟨k1, v1⟩ := e
    simp only [assign]
    split
    · simp [find]
    · split
      · simp [find]
      · rename_i h1 _
        simp [find, h1, ih]

theorem find_assign_ne (m : StdMap T) {k k' : String} (v : T) (h : k' ≠ k) :
    find (assign m k v) k' = find m k' := by
  induction m with
  | nil => simp [assign, find, h.symm]
  | cons e rest ih =>
    obtain ⟨k1, v1⟩ := e
    simp only [assign]
    split
    · rename_i h1
      subst h1
      simp [find, h.symm]
    · split
      · simp [find, h.symm]
      · simp only [find, ih]

theorem mem_assign {m : StdMap T} {k : String} {v : T} {e : String × T}
    (h : e ∈ assign m k v) : e = (k, v) ∨ e ∈ m := by
  induction m with
  | nil => simpa [assign] using h
  | cons e1 rest ih =>
    obtain ⟨k1, v1⟩ := e1
    simp only [assign] at h
    split at h
    · rcases List.mem_cons.1 h with h | h
      · exact Or.inl h
      · exact Or.inr (List.mem_cons_of_mem _ h)
    · split at h
      · rcases List.mem_cons.1 h with h | h
        · exact Or.inl h
        · exact Or.inr h
      · rcases List.mem_cons.1 h with h | h
        · exact Or.inr (h ▸ List.mem_cons_self _ _)
        · rcases ih h with h | h
          · exact Or.inl h
          · exact Or.inr (List.mem_cons_of_mem _ h)

theorem mem_assign_self (m : StdMap T) (k : String) (v : T) : (k, v) ∈ assign m k v := by
  induction m with
  | nil => simp [assign]
  | cons e1 rest ih =>
    obtain ⟨k1, v1⟩ := e1
    simp only [assign]
    split
    · exact List.mem_cons_self _ _
    · split
      · exact List.mem_cons_self _ _
      · exact List.mem_cons_of_mem _ ih

theorem mem_assign_of_mem {m : StdMap T} {k : String} {v : T} {e : String × T}
    (h : e ∈ m) (hk : e.1 ≠ k) : e ∈ assign m k v := by
  induction m with
  | nil => cases h
  | cons e1 rest ih =>
    obtain ⟨k1, v1⟩ := e1
    simp only [assign]
    split
    · rename_i h1
      rcases List.mem_cons.1 h with h | h
      · subst h; exact absurd h1 hk
      · exact List.mem_cons_of_mem _ h
    · split
      · exact List.mem_cons_of_mem _ h
      · rcases List.mem_cons.1 h with h | h
        · exact h ▸ List.mem_cons_self _ _
        · exact List.mem_cons_of_mem _ (ih h)

theorem mem_of_find {m : StdMap T} {k : String} {v : T} (h : find m k = some v) :
    (k, v) ∈ m := by
  induction m with
  | nil => simp [find] at h
  | cons e1 rest ih =>
    obtain ⟨k1, v1⟩ := e1
    simp only [find] at h
    split at h
    · rename_i h1
      simp only [Option.some.injEq] at h
      subst h1; subst h
      exact List.mem_cons_self _ _
    · exact List.mem_cons_of_mem _ (ih h)

theorem find_of_mem {m : StdMap T} (hs : Sorted m) {k : String} {v : T} (h : (k, v) ∈ m) :
    find m k = some v := by
  induction m with
  | nil => cases h
  | cons e1 rest ih =>
    obtain ⟨k1, v1⟩ := e1
    have hs' := List.pairwise_cons.1 hs
    simp only [find]
    rcases List.mem_cons.1 h with h | h
    · simp only [Prod.mk.injEq] at h
      simp [h.1, h.2]
    · have hlt := hs'.1 _ h
      have hne : k1 ≠ k := strLt_ne hlt
      simp only [hne, if_false]
      exact ih hs'.2 h

theorem find_eq_none_iff {m : StdMap T} {k : String} :
    find m k = none ↔ ∀ e ∈ m, e.1 ≠ k := by
  induction m with
  | nil => simp [find]
  | cons e1 rest ih =>
    obtain ⟨k1, v1⟩ := e1
    simp only [find]
    split
    · rename_i h1
      simp [h1]
    · rename_i h1
      simp [ih, h1]

theorem sorted_assign {m : StdMap T} (hs : Sorted m) (k : String) (v : T) :
    Sorted (assign m k v) := by
  induction m with
  | nil => simp [assign, Sorted]
  | cons e1 rest ih =>
    obtain ⟨k1, v1⟩ := e1
    have hs' := List.pairwise_cons.1 hs
    simp only [assign]
    split
    · rename_i h1
      subst h1
      exact List.pairwise_cons.2 ⟨hs'.1, hs'.2⟩
    · split
      · rename_i h1 h2
        refine List.pairwise_cons.2 ⟨?_, hs⟩
        intro e he
        rcases List.mem_cons.1 he with he | he
        · subst he; exact h2
        · exact strLt_trans h2 (hs'.1 e he)
      · rename_i h1 h2
        refine List.pairwise_cons.2 ⟨?_, ih hs'.2⟩
        intro e he
        rcases mem_assign he with he | he
        · subst he
          rcases strLt_trichotomy k1 k with h | h | h
          · exact h
          · exact absurd h h1
          · exact absurd h h2
        · exact hs'.1 e he

end StdMap

/-! ### `InputItemSet::Init` -/

theorem PoseInput.InitSpaces_info (rt : XrRuntime) :
    ∀ (paths : List String) (self : PoseInput) (ok : Bool) (p : PoseInput),
      PoseInput.InitSpaces rt self paths = .ret ok p →
      p.action_info_ = self.action_info_ ∧ p.base_pose_ = self.base_pose_ := by
  intro paths
  induction paths with
  | nil =>
    intro self ok p h
    simp only [PoseInput.InitSpaces, Outcome.ret.injEq] at h
    rw [← h.2]; exact ⟨rfl, rfl⟩
  | cons s rest ih =>
    intro self ok p h
    simp only [PoseInput.InitSpaces] at h
    split at h
    · have h1 := ih _ _ _ h
      exact h1
    · simp only [Outcome.ret.injEq] at h
      rw [← h.2]; exact ⟨rfl, rfl⟩

theorem PoseInput.Init_info {rt : XrRuntime} {action_set : XrActionSet} {self : PoseInput}
    {base_pose : Option String} {ok : Bool} {p : PoseInput}
    (h : PoseInput.Init rt action_set self base_pose = .ret ok p) :
    p.action_info_ = self.action_info_ ∧ p.base_pose_ = base_pose := by
  simp only [PoseInput.Init] at h
  split at h
  · cases h
  · split at h
    · exact PoseInput.InitSpaces_info rt _ _ _ _ h
    · simp only [Outcome.ret.injEq] at h
      rw [← h.2]; exact ⟨rfl, rfl⟩

namespace StdMap

theorem subscript_snd {T : Type} (m : StdMap T) (k : String) (dflt : T) :
    (subscript m k dflt).2 = (find m k).getD dflt := by
  unfold subscript
  cases find m k <;> rfl

theorem subscript_fst {T : Type} (m : StdMap T) (k : String) (dflt : T) :
    (subscript m k dflt).1 = if (find m k).isSome then m else assign m k dflt := by
  unfold subscript
  cases find m k <;> rfl

theorem sorted_subscript {T : Type} {m : StdMap T} (hs : Sorted m) (k : String) (dflt : T) :
    Sorted (subscript m k dflt).1 := by
  rw [subscript_fst]
  split
  · exact hs
  · exact sorted_assign hs k dflt

theorem mem_subscript {T : Type} {m : StdMap T} {k : String} {dflt : T} {e : String × T}
    (h : e ∈ (subscript m k dflt).1) : e = (k, dflt) ∨ e ∈ m := by
  rw [subscript_fst] at h
  split at h
  · exact Or.inr h
  · exact mem_assign h

theorem mem_subscript_of_mem {T : Type} {m : StdMap T} {k : String} {dflt : T}
    {e : String × T} (h : e ∈ m) : e ∈ (subscript m k dflt).1 := by
  rw [subscript_fst]
  split
  · exact h
  · rename_i hn
    have hnone : find m k = none := by
      cases hf : find m k with
      | none => rfl
      | some v => rw [hf] at hn; exact absurd rfl hn
    exact mem_assign_of_mem h (find_eq_none_iff.1 hnone e h)

theorem find_subscript {T : Type} (m : StdMap T) (k x : String) (dflt : T) :
    find (subscript m k dflt).1 x =
      if x = k then some ((find m k).getD dflt) else find m x := by
  rw [subscript_fst]
  cases hf : find m k with
  | none =>
    simp only [Option.isSome_none, Bool.false_eq_true, if_false, Option.getD_none]
    split
    · rename_i hx; subst hx; exact find_assign_self m x dflt
    · rename_i hx; exact find_assign_ne m dflt hx
  | some v =>
    simp only [Option.isSome_some, if_true, Option.getD_some]
    split
    · rename_i hx; subst hx; exact hf
    · rfl

end StdMap

theorem resolves_subscript (m : StdMap (Option PoseInput)) (b x : String) :
    resolves (StdMap.subscript m b none).1 x = resolves m x := by
  unfold resolves
  rw [StdMap.find_subscript]
  by_cases hx : x = b
  · subst hx
    simp only [if_true]
    cases hf : StdMap.find m x with
    | none => rfl
    | some v => cases v <;> rfl
  · simp only [hx, if_false]

theorem resolves_assign_some (m : StdMap (Option PoseInput)) (k x : String) (p : PoseInput)
    (h : resolves m k = true) : resolves (StdMap.assign m k (some p)) x = resolves m x := by
  by_cases hx : x = k
  · subst hx
    rw [h]
    unfold resolves
    rw [StdMap.find_assign_self]
  · unfold resolves
    rw [StdMap.find_assign_ne m _ hx]

theorem resolves_of_mem {m : StdMap (Option PoseInput)} (hs : StdMap.Sorted m) {k : String}
    {p : PoseInput} (h : (k, some p) ∈ m) : resolves m k = true := by
  unfold resolves
  rw [StdMap.find_of_mem hs h]

theorem mem_of_resolves {m : StdMap (Option PoseInput)} {k : String}
    (h : resolves m k = true) : ∃ p, (k, some p) ∈ m := by
  unfold resolves at h
  split at h
  · rename_i p hf
    exact ⟨p, StdMap.mem_of_find hf⟩
  · cases h

theorem ItInv_head {m : StdMap (Option PoseInput)} (hs : StdMap.Sorted m) : ItInv m m.head? := by
  cases m with
  | nil => intro k p h; cases h
  | cons e rest =>
    obtain ⟨key, v⟩ := e
    refine ⟨List.mem_cons_self _ _, ?_⟩
    intro k p h hlt
    have hs' := List.pairwise_cons.1 hs
    rcases List.mem_cons.1 h with h | h
    · simp only [Prod.mk.injEq] at h
      rw [h.1, strLt_irrefl] at hlt
      cases hlt
    · have := strLt_asymm (hs'.1 _ h)
      simp only at this
      rw [this] at hlt
      cases hlt

/-- One round of the loop keeps the invariant. -/
theorem ItInv_step {m : StdMap (Option PoseInput)} (hs : StdMap.Sorted m) (hn : Named m)
    {key : String} {pose pose1 : PoseInput}
    (hit : ItInv m (some (key, some pose)))
    (hinfo : pose1.action_info_ = pose.action_info_)
    (hbase : pose1.base_pose_ =
      match (StdMap.subscript m pose.GetActionInfo.base none).2 with
      | some _ => some pose.GetActionInfo.base
      | none => none) :
    let poses1 := StdMap.assign (StdMap.subscript m pose.GetActionInfo.base none).1 key (some pose1)
    StdMap.Sorted poses1 ∧ Named poses1 ∧ ItInv poses1 (StdMap.next poses1 key) ∧
      (∀ k p, (k, some p) ∈ poses1 → ∃ p0, (k, some p0) ∈ m ∧ p.action_info_ = p0.action_info_) ∧
      (∀ x, resolves poses1 x = resolves m x) := by
  intro poses1
  obtain ⟨hmem, hbefore⟩ := hit
  have hs0 : StdMap.Sorted (StdMap.subscript m pose.GetActionInfo.base none).1 :=
    StdMap.sorted_subscript hs _ _
  have hs1 : StdMap.Sorted poses1 := StdMap.sorted_assign hs0 _ _
  have hres : ∀ x, resolves poses1 x = resolves m x := by
    intro x
    have hk : resolves (StdMap.subscript m pose.GetActionInfo.base none).1 key = true := by
      rw [resolves_subscript]; exact resolves_of_mem hs hmem
    show resolves (StdMap.assign _ key (some pose1)) x = _
    rw [resolves_assign_some _ _ _ _ hk, resolves_subscript]
  have hfind : ∀ x, (StdMap.find m x).isSome = true → (StdMap.find poses1 x).isSome = true := by
    intro x hx
    show (StdMap.find (StdMap.assign _ key (some pose1)) x).isSome = true
    by_cases hk : x = key
    · subst hk; rw [StdMap.find_assign_self]; rfl
    · rw [StdMap.find_assign_ne _ _ hk, StdMap.find_subscript]
      split
      · rfl
      · exact hx
  have hbok : ∀ p, BaseOk m p → BaseOk poses1 p := by
    intro p hp
    unfold BaseOk at hp ⊢
    rw [hres]; exact ⟨hp.1, hfind _ hp.2⟩
  -- the entries of the new map
  have hent : ∀ k p, (k, some p) ∈ poses1 → (k = key ∧ p = pose1) ∨ (k ≠ key ∧ (k, some p) ∈ m) := by
    intro k p h
    by_cases hk : k = key
    · left
      subst hk
      have h1 := StdMap.find_of_mem hs1 h
      have h2 : StdMap.find poses1 k = some (some pose1) := StdMap.find_assign_self _ _ _
      rw [h1] at h2
      simp only [Option.some.injEq] at h2
      exact ⟨rfl, h2⟩
    · right
      refine ⟨hk, ?_⟩
      rcases StdMap.mem_assign h with h | h
      · simp only [Prod.mk.injEq] at h; exact absurd h.1 hk
      · rcases StdMap.mem_subscript h with h | h
        · simp only [Prod.mk.injEq] at h; cases h.2
        · exact h
  have hpose1 : BaseOk poses1 pose1 := by
    unfold BaseOk
    constructor
    · rw [hres, hbase, hinfo, StdMap.subscript_snd]
      simp only [PoseInput.GetActionInfo]
      unfold resolves
      cases hf : StdMap.find m pose.action_info_.base with
      | none => rfl
      | some v => cases v <;> rfl
    · rw [hinfo]
      show (StdMap.find (StdMap.assign _ key (some pose1)) pose.action_info_.base).isSome = true
      by_cases hk : pose.action_info_.base = key
      · rw [hk, StdMap.find_assign_self]; rfl
      · rw [StdMap.find_assign_ne _ _ hk, StdMap.find_subscript]
        simp [PoseInput.GetActionInfo]
  have hnamed : Named poses1 := by
    intro k p h
    rcases hent k p h with ⟨hk, hp⟩ | ⟨_, hm⟩
    · subst hk; subst hp
      rw [hinfo]; exact hn _ _ hmem
    · exact hn _ _ hm
  refine ⟨hs1, hnamed, ?_, ?_, hres⟩
  · -- the iterator after `++it`
    cases hnext : StdMap.next poses1 key with
    | none =>
      intro k p h
      rcases hent k p h with ⟨_, hp⟩ | ⟨hk, hm⟩
      · subst hp; exact hpose1
      · apply hbok
        apply hbefore k p hm
        rcases strLt_trichotomy k key with h1 | h1 | h1
        · exact h1
        · exact absurd h1 hk
        · have := List.find?_eq_none.1 hnext (k, some p) h
          simp only [h1, not_true_eq_false] at this
    | some e =>
      obtain ⟨k2, v2⟩ := e
      have hfind := List.find?_eq_some.1 hnext
      obtain ⟨hk2, l1, l2, hsplit, hl1⟩ := hfind
      refine ⟨List.mem_of_find?_eq_some hnext, ?_⟩
      intro k p h hlt
      rcases hent k p h with ⟨_, hp⟩ | ⟨hk, hm⟩
      · subst hp; exact hpose1
      · apply hbok
        apply hbefore k p hm
        rcases strLt_trichotomy k key with h1 | h1 | h1
        · exact h1
        · exact absurd h1 hk
        · exfalso
          -- k lies strictly between key and k2: impossible in a sorted map
          have hs1' : List.Pairwise (fun a b => strLt a.1 b.1 = true) (l1 ++ (k2, v2) :: l2) := by
            rw [← hsplit]; exact hs1
          have hmem' : (k, some p) ∈ l1 ++ (k2, v2) :: l2 := by rw [← hsplit]; exact h
          rcases List.mem_append.1 hmem' with hin | hin
          · have := hl1 _ hin
            simp only [h1, Bool.not_true, Bool.false_eq_true] at this
          · rcases List.mem_cons.1 hin with hin | hin
            · simp only [Prod.mk.injEq] at hin
              rw [hin.1, strLt_irrefl] at hlt
              cases hlt
            · have hp2 := (List.pairwise_cons.1 (List.pairwise_append.1 hs1').2.1).1 _ hin
              have := strLt_asymm hp2
              simp only at this
              rw [this] at hlt
              cases hlt
  · intro k p h
    rcases hent k p h with ⟨hk, hp⟩ | ⟨_, hm⟩
    · subst hk; subst hp
      exact ⟨pose, hmem, hinfo⟩
    · exact ⟨p, hm, rfl⟩


/-- When the loop over `poses_` runs to its end, the map is still in key order,
every action is held under its name with its descriptor unchanged, and every
action has its base pointer set. -/
theorem InputItemSet.InitPoses_ret_true (rt : XrRuntime) (action_set : XrActionSet) :
    ∀ (fuel : Nat) (m : StdMap (Option PoseInput)) (it : Option (String × Option PoseInput))
      (sb : List XrActionSuggestedBinding) (m1 : StdMap (Option PoseInput))
      (sb1 : List XrActionSuggestedBinding),
      InputItemSet.InitPoses rt action_set fuel m it sb = some (.ret true (m1, sb1)) →
      StdMap.Sorted m → Named m → ItInv m it →
      StdMap.Sorted m1 ∧ Named m1 ∧ (∀ k p, (k, some p) ∈ m1 → BaseOk m1 p) ∧
        (∀ k p, (k, some p) ∈ m1 → ∃ p0, (k, some p0) ∈ m ∧ p.action_info_ = p0.action_info_) ∧
        (∀ x, resolves m1 x = resolves m x) := by
  intro fuel
  induction fuel with
  | zero =>
    intro m it sb m1 sb1 h
    simp [InputItemSet.InitPoses] at h
  | succ fuel ih =>
    intro m it sb m1 sb1 h hs hn hit
    cases it with
    | none =>
      simp only [InputItemSet.InitPoses, Option.some.injEq, Outcome.ret.injEq, Prod.mk.injEq,
        true_and] at h
      obtain ⟨rfl, _⟩ := h
      exact ⟨hs, hn, hit, fun k p hp => ⟨p, hp, rfl⟩, fun _ => rfl⟩
    | some e =>
      obtain ⟨key, v⟩ := e
      cases v with
      | none => simp [InputItemSet.InitPoses] at h
      | some pose =>
        simp only [InputItemSet.InitPoses] at h
        split at h
        · simp at h
        · simp at h
        · rename_i pose1 hinit
          obtain ⟨hinfo, hbase⟩ := PoseInput.Init_info hinit
          obtain ⟨hs1, hn1, hit1, hprov1, hres1⟩ := ItInv_step hs hn hit hinfo hbase
          obtain ⟨hs2, hn2, hall, hprov2, hres2⟩ := ih _ _ _ _ _ h hs1 hn1 hit1
          refine ⟨hs2, hn2, hall, ?_, fun x => (hres2 x).trans (hres1 x)⟩
          intro k p hp
          obtain ⟨p0, hp0, e0⟩ := hprov2 k p hp
          obtain ⟨p00, hp00, e00⟩ := hprov1 k p0 hp0
          exact ⟨p00, hp00, e0.trans e00⟩

theorem InputItemSet.InitParse_sorted :
    ∀ (actions : List ActionNode) (poses : StdMap (Option PoseInput)),
      StdMap.Sorted poses → StdMap.Sorted (InputItemSet.InitParse actions poses) := by
  intro actions
  induction actions with
  | nil => intro poses h; exact h
  | cons a rest ih =>
    intro poses h
    simp only [InputItemSet.InitParse]
    split
    · split
      · exact ih _ h
      · exact ih _ (StdMap.sorted_assign h _ _)
    · exact ih _ h

/-- Every action in the map after the parsing loop was in the map before it or
comes from an accepted `action` element. -/
theorem InputItemSet.InitParse_mem :
    ∀ (actions : List ActionNode) (poses : StdMap (Option PoseInput)) (k : String)
      (p : PoseInput), (k, some p) ∈ InputItemSet.InitParse actions poses →
      (k, some p) ∈ poses ∨
        ∃ node ∈ actions, node.accepted ∧ k = node.name ∧ p = PoseInput.new node.descriptor := by
  intro actions
  induction actions with
  | nil => intro poses k p h; exact Or.inl h
  | cons a rest ih =>
    intro poses k p h
    simp only [InputItemSet.InitParse] at h
    have hrest : ∀ poses1, (k, some p) ∈ InputItemSet.InitParse rest poses1 →
        ((k, some p) ∈ poses1 ∨ ∃ node ∈ a :: rest, node.accepted ∧ k = node.name ∧
          p = PoseInput.new node.descriptor) := by
      intro poses1 h1
      rcases ih poses1 k p h1 with h2 | ⟨node, hnode, h2⟩
      · exact Or.inl h2
      · exact Or.inr ⟨node, List.mem_cons_of_mem _ hnode, h2⟩
    split at h
    · rename_i htype
      split at h
      · exact hrest _ h
      · rename_i hacc
        rcases hrest _ h with h2 | h2
        · rcases StdMap.mem_assign h2 with h3 | h3
          · simp only [Prod.mk.injEq, Option.some.injEq] at h3
            right
            refine ⟨a, List.mem_cons_self _ _, ⟨htype, ?_, ?_⟩, h3.1, h3.2⟩
            · intro hc; exact hacc (Or.inl hc)
            · intro hc; exact hacc (Or.inr hc)
          · exact Or.inl h3
        · exact Or.inr h2
    · exact hrest _ h

theorem InputItemSet.InitParse_resolves_mono :
    ∀ (actions : List ActionNode) (poses : StdMap (Option PoseInput)) (x : String),
      resolves poses x = true → resolves (InputItemSet.InitParse actions poses) x = true := by
  intro actions
  induction actions with
  | nil => intro poses x h; exact h
  | cons a rest ih =>
    intro poses x h
    simp only [InputItemSet.InitParse]
    split
    · split
      · exact ih _ _ h
      · apply ih
        by_cases hx : x = a.name
        · subst hx
          unfold resolves
          rw [StdMap.find_assign_self]
        · unfold resolves at h ⊢
          rw [StdMap.find_assign_ne _ _ hx]
          exact h
    · exact ih _ _ h

/-- Every accepted `action` element has an action under its name after the
parsing loop, wherever it stands in the configuration. -/
theorem InputItemSet.InitParse_resolves :
    ∀ (actions : List ActionNode) (poses : StdMap (Option PoseInput)) (node : ActionNode),
      node ∈ actions → node.accepted →
      resolves (InputItemSet.InitParse actions poses) node.name = true := by
  intro actions
  induction actions with
  | nil => intro poses node h; cases h
  | cons a rest ih =>
    intro poses node hnode hacc
    rcases List.mem_cons.1 hnode with h | h
    · subst h
      have h1 : ¬ (node.name = "" ∨ node.suggested_binding = "") := by
        rintro (hc | hc)
        · exact hacc.2.1 hc
        · exact hacc.2.2 hc
      simp only [InputItemSet.InitParse, hacc.1, if_true, h1, if_false]
      apply InputItemSet.InitParse_resolves_mono
      unfold resolves
      rw [StdMap.find_assign_self]
    · simp only [InputItemSet.InitParse]
      split
      · split
        · exact ih _ _ h hacc
        · exact ih _ _ h hacc
      · exact ih _ _ h hacc

/-- The postcondition of a successful `InputItemSet::Init` on a freshly
constructed set. -/
theorem InputItemSet.Init_ret_true {rt : XrRuntime} {inputs_config : InputsConfig}
    {self : InputItemSet}
    (h : InputItemSet.Init rt (InputItemSet.new inputs_config) = some (.ret true self)) :
    StdMap.Sorted self.poses_ ∧ Named self.poses_ ∧
      (∀ k p, (k, some p) ∈ self.poses_ → BaseOk self.poses_ p) ∧
      (∀ k p, (k, some p) ∈ self.poses_ →
        ∃ node ∈ inputs_config.actions, node.accepted ∧ k = node.name ∧
          p.action_info_ = node.descriptor) ∧
      (∀ node ∈ inputs_config.actions, node.accepted → resolves self.poses_ node.name = true) := by
  simp only [InputItemSet.Init, InputItemSet.new] at h
  split at h
  · have hs0 : StdMap.Sorted (InputItemSet.InitParse inputs_config.actions []) :=
      InputItemSet.InitParse_sorted _ _ List.Pairwise.nil
    have hmem0 := InputItemSet.InitParse_mem inputs_config.actions []
    have hn0 : Named (InputItemSet.InitParse inputs_config.actions []) := by
      intro k p hp
      rcases hmem0 k p hp with h1 | ⟨node, _, hacc, hk, hp1⟩
      · cases h1
      · subst hk; subst hp1
        exact ⟨rfl, hacc.2.1⟩
    split at h
    · simp at h
    · simp at h
    · simp at h
    · rename_i poses1 sb hloop
      obtain ⟨hs1, hn1, hall, hprov, hres⟩ :=
        InputItemSet.InitPoses_ret_true rt _ _ _ _ _ _ _ hloop hs0 hn0 (ItInv_head hs0)
      have hself : self.poses_ = poses1 := by
        split at h
        · split at h
          · simp only [Option.some.injEq, Outcome.ret.injEq, true_and] at h
            rw [← h]
          · simp at h
        · simp at h
      rw [hself]
      refine ⟨hs1, hn1, hall, ?_, ?_⟩
      · intro k p hp
        obtain ⟨p0, hp0, e0⟩ := hprov k p hp
        rcases hmem0 k p0 hp0 with h1 | ⟨node, hnode, hacc, hk, hp1⟩
        · cases h1
        · exact ⟨node, hnode, hacc, hk, by rw [e0, hp1]; rfl⟩
      · intro node hnode hacc
        rw [hres]
        exact InputItemSet.InitParse_resolves _ _ _ hnode hacc
  · simp at h


theorem StdMap.countP_assign_of_key {T : Type} (Q : String × T → Bool) (m : StdMap T)
    (k : String) (v : T) (hQ : ∀ v1, Q (k, v1) = false) :
    (StdMap.assign m k v).countP Q = m.countP Q := by
  induction m with
  | nil => simp [StdMap.assign, List.countP_cons, hQ]
  | cons e rest ih =>
    obtain ⟨k1, v1⟩ := e
    simp only [StdMap.assign]
    split
    · rename_i h1
      subst h1
      simp [List.countP_cons, hQ]
    · split
      · simp [List.countP_cons, hQ]
      · simp only [List.countP_cons, ih]

theorem StdMap.countP_assign_of_absent {T : Type} (Q : String × T → Bool) (m : StdMap T)
    (k : String) (v : T) (hQ : Q (k, v) = false) (habs : StdMap.find m k = none) :
    (StdMap.assign m k v).countP Q = m.countP Q := by
  induction m with
  | nil => simp [StdMap.assign, List.countP_cons, hQ]
  | cons e rest ih =>
    obtain ⟨k1, v1⟩ := e
    simp only [StdMap.find] at habs
    split at habs
    · cases habs
    · rename_i h1
      simp only [StdMap.assign, h1, if_false]
      split
      · simp [List.countP_cons, hQ]
      · simp only [List.countP_cons, ih habs]

theorem List.countP_lt_of_mem {α : Type} {P Q : α → Bool} {l : List α} {x : α}
    (hPQ : ∀ e, P e = true → Q e = true) (hx : x ∈ l) (hQx : Q x = true) (hPx : P x = false) :
    l.countP P < l.countP Q := by
  induction l with
  | nil => cases hx
  | cons e rest ih =>
    have hle : rest.countP P ≤ rest.countP Q :=
      List.countP_mono_left fun e _ h => hPQ e h
    rcases List.mem_cons.1 hx with h | h
    · subst h
      simp only [List.countP_cons, hQx, hPx, if_true, Bool.false_eq_true, if_false]
      omega
    · have := ih h
      simp only [List.countP_cons]
      cases hPe : P e
      · simp only [Bool.false_eq_true, if_false]; split <;> omega
      · simp only [hPQ e hPe, if_true]; omega

/-- The loop over `poses_` ends: with more rounds allowed than `roundsLeft`, it
yields an outcome. -/
theorem InputItemSet.InitPoses_isSome (rt : XrRuntime) (action_set : XrActionSet) :
    ∀ (fuel : Nat) (m : StdMap (Option PoseInput)) (it : Option (String × Option PoseInput))
      (sb : List XrActionSuggestedBinding), roundsLeft m it < fuel →
      (InputItemSet.InitPoses rt action_set fuel m it sb).isSome = true := by
  intro fuel
  induction fuel with
  | zero => intro m it sb h; omega
  | succ fuel ih =>
    intro m it sb h
    cases it with
    | none => simp [InputItemSet.InitPoses]
    | some e =>
      obtain ⟨key, v⟩ := e
      cases v with
      | none => simp [InputItemSet.InitPoses]
      | some pose =>
        simp only [InputItemSet.InitPoses]
        split
        · rfl
        · rfl
        · rename_i pose1 _
          apply ih
          generalize hm2 : StdMap.assign
            (StdMap.subscript m pose.GetActionInfo.base none).1 key (some pose1) = m2
          simp only [roundsLeft] at h
          cases hnext : StdMap.next m2 key with
          | none => simp only [roundsLeft]; omega
          | some e2 =>
            obtain ⟨k2, v2⟩ := e2
            cases v2 with
            | none => simp only [roundsLeft]; omega
            | some p2 =>
              simp only [roundsLeft]
              have hk2 : strLt key k2 = true := by
                unfold StdMap.next at hnext
                exact @List.find?_some _ (fun e : String × Option PoseInput => strLt key e.1)
                  (k2, some p2) m2 hnext
              have hmem2 : (k2, some p2) ∈ m2 := by
                unfold StdMap.next at hnext
                exact List.mem_of_find?_eq_some hnext
              have hmem : (k2, some p2) ∈ m := by
                rw [← hm2] at hmem2
                rcases StdMap.mem_assign hmem2 with h1 | h1
                · simp only [Prod.mk.injEq] at h1
                  exact absurd h1.1.symm (strLt_ne hk2)
                · rcases StdMap.mem_subscript h1 with h1 | h1
                  · simp only [Prod.mk.injEq] at h1; cases h1.2
                  · exact h1
              have hcount : m2.countP (fun e => strLt k2 e.1 && e.2.isSome)
                  = m.countP (fun e => strLt k2 e.1 && e.2.isSome) := by
                rw [← hm2, StdMap.countP_assign_of_key _ _ _ _
                  (by intro v1; simp [strLt_asymm hk2]), StdMap.subscript_fst]
                split
                · rfl
                · rename_i hn
                  apply StdMap.countP_assign_of_absent
                  · simp
                  · cases hf : StdMap.find m pose.GetActionInfo.base with
                    | none => rfl
                    | some v => rw [hf] at hn; exact absurd rfl hn
              have hlt : m.countP (fun e => strLt k2 e.1 && e.2.isSome)
                  < m.countP (fun e => strLt key e.1 && e.2.isSome) := by
                apply List.countP_lt_of_mem (x := (k2, some p2))
                · intro e he
                  simp only [Bool.and_eq_true] at he ⊢
                  exact ⟨strLt_trans hk2 he.1, he.2⟩
                · exact hmem
                · simp [hk2]
                · simp [strLt_irrefl]
              omega

/-- The method `InputItemSet::Init` always yields an outcome: the bound on the rounds of its
loop over `poses_` is never reached. -/
theorem InputItemSet.Init_isSome (rt : XrRuntime) (self : InputItemSet) :
    (InputItemSet.Init rt self).isSome = true := by
  simp only [InputItemSet.Init]
  split
  · have hfuel : roundsLeft (InputItemSet.InitParse self.config_.actions self.poses_)
        (InputItemSet.InitParse self.config_.actions self.poses_).head?
        < (InputItemSet.InitParse self.config_.actions self.poses_).length + 2 := by
      generalize InputItemSet.InitParse self.config_.actions self.poses_ = m
      have := List.countP_le_length (fun e : String × Option PoseInput => true) (l := m)
      cases m with
      | nil => simp [roundsLeft]
      | cons e rest =>
        obtain ⟨k, v⟩ := e
        cases v with
        | none => simp [roundsLeft]
        | some p =>
          simp only [List.head?_cons, roundsLeft, List.length_cons]
          have := List.countP_le_length (fun e : String × Option PoseInput =>
            strLt k e.1 && e.2.isSome) (l := (k, some p) :: rest)
          simp only [List.length_cons] at this
          omega
    have hsome := InputItemSet.InitPoses_isSome rt (rt.xrCreateActionSet).2 _ _ _ [] hfuel
    split
    · rename_i hnone
      rw [hnone] at hsome
      cases hsome
    · rfl
    · rfl
    · split
      · split <;> rfl
      · rfl
  · rfl


/-! ### Base resolution -/

/-- The poses the loop of `GetPoseInfo` collects are the located poses of the
subaction paths, in order. -/
theorem PoseInput.GetPoseInfoLoop_poses (rt : XrRuntime) (context : XrpContext)
    (self : PoseInput) (base : Option PoseInput) :
    ∀ (paths : List String) (acc l : List PoseInfo),
      PoseInput.GetPoseInfoLoop rt context self base paths acc = some l →
      l.map (fun p => p.pose) = acc.map (fun p => p.pose) ++
        paths.map (PoseInput.locatedPose rt context self base) := by
  intro paths
  induction paths with
  | nil =>
    intro acc l h
    simp only [PoseInput.GetPoseInfoLoop, Option.some.injEq] at h
    simp [h]
  | cons s rest ih =>
    intro acc l h
    simp only [PoseInput.GetPoseInfoLoop] at h
    split at h
    · cases h
    · split at h
      · cases h
      · split at h
        · cases h
        · split at h
          · cases h
          · split at h
            · cases h
            · have := ih _ _ h
              rw [this]
              simp [PoseInput.locatedPose]

/-- The samples of `GetPoseInfo` on a non-reference action whose base pointer is
null. -/
theorem PoseInput.GetPoseInfo_no_base {rt : XrRuntime} {context : XrpContext}
    {poses : StdMap (Option PoseInput)} {self : PoseInput} {out0 out : PoseOutputInfo}
    (href : self.action_info_.reference = false) (hb : self.base_pose_ = none)
    (h : PoseInput.GetPoseInfo rt context poses self out0 = .ret true out) :
    out.pose_infos.map (fun p => p.pose) =
      self.action_info_.subaction_paths.map (PoseInput.locatedPose rt context self none) := by
  simp only [PoseInput.GetPoseInfo, href, Bool.false_eq_true, if_false, hb] at h
  split at h
  · simp at h
  · rename_i l hl
    simp only [Outcome.ret.injEq, true_and] at h
    rw [← h, PoseInput.classify_pose_infos, PoseInput.GetPoseInfoLoop_poses _ _ _ _ _ _ _ hl]
    simp

/-- The samples of `GetPoseInfo` on a non-reference action whose base pointer is
the action `b`. -/
theorem PoseInput.GetPoseInfo_base {rt : XrRuntime} {context : XrpContext}
    {poses : StdMap (Option PoseInput)} {self b : PoseInput} {key : String}
    {out0 out : PoseOutputInfo}
    (href : self.action_info_.reference = false) (hb : self.base_pose_ = some key)
    (hfind : StdMap.find poses key = some (some b))
    (h : PoseInput.GetPoseInfo rt context poses self out0 = .ret true out) :
    out.pose_infos.map (fun p => p.pose) =
      self.action_info_.subaction_paths.map (PoseInput.locatedPose rt context self (some b)) := by
  simp only [PoseInput.GetPoseInfo, href, Bool.false_eq_true, if_false, hb, hfind] at h
  split at h
  · simp at h
  · rename_i l hl
    simp only [Outcome.ret.injEq, true_and] at h
    rw [← h, PoseInput.classify_pose_infos, PoseInput.GetPoseInfoLoop_poses _ _ _ _ _ _ _ hl]
    simp

/-- For every configuration, whenever `InputItemSet::Init` returns `true`,
every pose action whose base name is not the name of any accepted pose action
of the configuration has been initialised with a null base pointer, as an
action without a base is, and `poses_[base]` has left a null entry under that
base name in the map. -/
theorem InputItemSet.Init_unresolved_base (rt : XrRuntime) (inputs_config : InputsConfig)
    (self : InputItemSet)
    (h : InputItemSet.Init rt (InputItemSet.new inputs_config) = some (.ret true self))
    (key : String) (p : PoseInput) (hp : (key, some p) ∈ self.poses_)
    (hbase : ∀ node ∈ inputs_config.actions, node.accepted → node.name ≠ p.action_info_.base) :
    p.base_pose_ = none ∧ StdMap.find self.poses_ p.action_info_.base = some none := by
  obtain ⟨_, _, hall, hprov, _⟩ := InputItemSet.Init_ret_true h
  obtain ⟨hok, hsome⟩ := hall key p hp
  have hr : resolves self.poses_ p.action_info_.base = false := by
    cases hr : resolves self.poses_ p.action_info_.base with
    | false => rfl
    | true =>
      obtain ⟨b, hb⟩ := mem_of_resolves hr
      obtain ⟨node, hnode, hacc, hk, _⟩ := hprov _ b hb
      exact absurd hk.symm (hbase node hnode hacc)
  constructor
  · rw [hr] at hok; simpa using hok
  · unfold resolves at hr
    cases hf : StdMap.find self.poses_ p.action_info_.base with
    | none => rw [hf] at hsome; cases hsome
    | some v =>
      cases v with
      | none => rfl
      | some b => rw [hf] at hr; cases hr

/-- C9: an unresolved base does not make `Init` fail, and the set it leaves
cannot be sampled. For every configuration, whenever `Init` returns `true`,
every pose action whose base name is not the name of any accepted pose action
has a null base pointer, and `poses_[base]` has left a null entry under that
base name. On the example (`grip` names the base `aim`, which is not
configured; every call of the runtime succeeds) `Init` returns `true` with a
null entry under `aim`; `GetOutput` on the set it leaves ends abnormally, since
it skips only the entry with the empty key and calls `GetPoseInfo` through the
null pointer under `aim`; a whole run of the frame loop on that configuration
ends abnormally in the first focused frame. The same run on the configuration
without the base returns `true` with the exit requested. When the base name
comes after the name of the action (`aim` with the base `grip`), `Init` itself
ends abnormally, its loop reaching the null entry it inserted. -/
theorem C9_unresolved_base_passes_Init :
    (∀ (rt : XrRuntime) (inputs_config : InputsConfig) (self : InputItemSet),
      InputItemSet.Init rt (InputItemSet.new inputs_config) = some (.ret true self) →
      ∀ (key : String) (p : PoseInput), (key, some p) ∈ self.poses_ →
        (∀ node ∈ inputs_config.actions, node.accepted → node.name ≠ p.action_info_.base) →
        p.base_pose_ = none ∧ StdMap.find self.poses_ p.action_info_.base = some none) ∧
    InputItemSet.Init (exRuntime exLeftPose exRightPose 3) (InputItemSet.new exUnresolvedConfig)
      = some (.ret true exUnresolvedSet) ∧
    StdMap.find exUnresolvedSet.poses_ "aim" = some none ∧
    InputItemSet.GetOutput (exEnv exLeftPose exRightPose 3) exContext exUnresolvedSet
      { output_files := [] } = .abnormal ∧
    (XrpRunFrameLoop exGoodFrameRuntime exHost 6 exContext
      { enabled_item_sets := [InputItemSet.new exUnresolvedConfig], state := exMainState }).map
        LoopStep.isAbnormal = some true ∧
    ((XrpRunFrameLoop exGoodFrameRuntime exHost 6 exContext
      { enabled_item_sets := [InputItemSet.new exGripSet.config_], state := exMainState }).bind
        LoopStep.summary).map (fun t => (t.1, t.2.2.2.exit_requests)) = some (true, 1) ∧
    InputItemSet.Init (exRuntime exLeftPose exRightPose 3) (InputItemSet.new exLateBaseConfig)
      = some .abnormal := by
  refine ⟨?_, by decide, by decide, by decide, by decide, by decide, by decide⟩
  intro rt inputs_config self h key p hp hbase
  exact InputItemSet.Init_unresolved_base rt inputs_config self h key p hp hbase

/-- C10: for every configuration, in any order of its descriptors, after a
successful `InputItemSet::Init` every pose action A of the set whose base name
is the name of an accepted pose action has that action B of the set as its
base, so that `GetPoseInfo` locates each space of A relative to the space B has
for the same subaction path; and every pose action with an empty base name has
no base, so that its spaces are located relative to the context's reference
space. -/
theorem C10_base_resolved (rt : XrRuntime) (inputs_config : InputsConfig) (self : InputItemSet)
    (h : InputItemSet.Init rt (InputItemSet.new inputs_config) = some (.ret true self))
    (keyA : String) (A : PoseInput) (hA : (keyA, some A) ∈ self.poses_) :
    (∀ nodeB ∈ inputs_config.actions, nodeB.accepted → nodeB.name = A.action_info_.base →
      ∃ B, (A.action_info_.base, some B) ∈ self.poses_ ∧
        B.action_info_.name = A.action_info_.base ∧
        A.base_pose_ = some A.action_info_.base ∧
        ∀ (rt1 : XrRuntime) (context : XrpContext) (out0 out : PoseOutputInfo),
          A.action_info_.reference = false →
          PoseInput.GetPoseInfo rt1 context self.poses_ A out0 = .ret true out →
          out.pose_infos.map (fun i => i.pose) =
            A.action_info_.subaction_paths.map fun s =>
              { (rt1.xrLocateSpace (A.GetActionSpace s) (B.GetActionSpace s)
                  context.predictedDisplayTime).2.pose with
                orientation := StandardizeXrQuaternion
                  (rt1.xrLocateSpace (A.GetActionSpace s) (B.GetActionSpace s)
                    context.predictedDisplayTime).2.pose.orientation }) ∧
    (A.action_info_.base = "" →
      A.base_pose_ = none ∧
        ∀ (rt1 : XrRuntime) (context : XrpContext) (out0 out : PoseOutputInfo),
          A.action_info_.reference = false →
          PoseInput.GetPoseInfo rt1 context self.poses_ A out0 = .ret true out →
          out.pose_infos.map (fun i => i.pose) =
            A.action_info_.subaction_paths.map fun s =>
              { (rt1.xrLocateSpace (A.GetActionSpace s) context.reference_space
                  context.predictedDisplayTime).2.pose with
                orientation := StandardizeXrQuaternion
                  (rt1.xrLocateSpace (A.GetActionSpace s) context.reference_space
                    context.predictedDisplayTime).2.pose.orientation }) := by
  obtain ⟨hs, hn, hall, _, hres⟩ := InputItemSet.Init_ret_true h
  have hok := (hall keyA A hA).1
  constructor
  · intro nodeB hnode hacc hname
    have hr : resolves self.poses_ A.action_info_.base = true := by
      rw [← hname]; exact hres nodeB hnode hacc
    obtain ⟨B, hB⟩ := mem_of_resolves hr
    rw [hr] at hok
    refine ⟨B, hB, (hn _ _ hB).1, hok, ?_⟩
    intro rt1 context out0 out href hget
    exact PoseInput.GetPoseInfo_base href hok (StdMap.find_of_mem hs hB) hget
  · intro hempty
    have hr : resolves self.poses_ A.action_info_.base = false := by
      cases hr : resolves self.poses_ A.action_info_.base with
      | false => rfl
      | true =>
        obtain ⟨B, hB⟩ := mem_of_resolves hr
        exact absurd hempty (hn _ _ hB).2
    rw [hr] at hok
    have hnone : A.base_pose_ = none := by simpa using hok
    refine ⟨hnone, ?_⟩
    intro rt1 context out0 out href hget
    exact PoseInput.GetPoseInfo_no_base href hnone hget

/-- C10 witness: in `exBaseConfig` the descriptor of `grip`, whose base is `aim`,
comes before the descriptor of `aim`; `Init` succeeds, `grip` has the action
`aim` of the set as its base, and `aim`, whose base name is empty, has none. -/
theorem C10_base_resolved_witness :
    InputItemSet.Init (exRuntime exLeftPose exRightPose 3) (InputItemSet.new exBaseConfig)
        = some (.ret true exBaseSet) ∧
      (∃ B, ("aim", some B) ∈ exBaseSet.poses_ ∧ B.action_info_.name = "aim" ∧
        exGripOnAim.base_pose_ = some "aim") ∧
      exAim.base_pose_ = none := by
  have hinit : InputItemSet.Init (exRuntime exLeftPose exRightPose 3)
      (InputItemSet.new exBaseConfig) = some (.ret true exBaseSet) := by decide
  refine ⟨hinit, ?_, ?_⟩
  · obtain ⟨B, h1, h2, h3, _⟩ :=
      (C10_base_resolved (exRuntime exLeftPose exRightPose 3) exBaseConfig exBaseSet hinit
        "grip" exGripOnAim (by decide)).1
        { type := "pose", name := "aim", suggested_binding := "/input/aim/pose", base := "",
          reference := true, subaction_paths := ["/user/hand/left", "/user/hand/right"] }
        (by decide) ⟨by decide, by decide, by decide⟩ (by decide)
    exact ⟨B, h1, h2, h3⟩
  · exact ((C10_base_resolved (exRuntime exLeftPose exRightPose 3) exBaseConfig exBaseSet hinit
      "aim" exAim (by decide)).2 (by decide)).1

/-! ### `InputItemSet::GetOutput`: where the `pose` elements come from -/

theorem mem_appendToInputs {document : XmlDocument} {pose_node : XmlPoseNode}
    {n : XmlInputsNode} {e : XmlPoseNode}
    (hn : n ∈ appendToInputs document pose_node) (he : e ∈ n.children) :
    (∃ n0 ∈ document, e ∈ n0.children) ∨ e = pose_node := by
  induction document with
  | nil => simp [appendToInputs] at hn
  | cons d rest ih =>
    simp only [appendToInputs] at hn
    split at hn
    · rcases List.mem_cons.1 hn with h | h
      · subst h
        simp only [List.mem_append, List.mem_singleton] at he
        rcases he with he | he
        · exact Or.inl ⟨d, List.mem_cons_self _ _, he⟩
        · exact Or.inr he
      · exact Or.inl ⟨n, List.mem_cons_of_mem _ h, he⟩
    · rcases List.mem_cons.1 hn with h | h
      · subst h
        exact Or.inl ⟨n, List.mem_cons_self _ _, he⟩
      · rcases ih h with ⟨n0, hn0, h0⟩ | h0
        · exact Or.inl ⟨n0, List.mem_cons_of_mem _ hn0, h0⟩
        · exact Or.inr h0

theorem InputItemSet.GetOutputPose_inv {P : XmlPoseNode → Prop} {env : Env}
    {pose_output_info : PoseOutputInfo} {files files1 : StdMap ItemFile} {pose_info : PoseInfo}
    (h : InputItemSet.GetOutputPose env pose_output_info files pose_info = some files1)
    (hfiles : FilesInv P files)
    (hnew : ∀ reference, P (poseNode pose_output_info pose_info reference)) :
    FilesInv P files1 := by
  simp only [InputItemSet.GetOutputPose] at h
  split at h
  · cases h
  · rename_i opened hopen
    have hopened : FilesInv P opened := by
      split at hopen
      · simp only [Option.some.injEq] at hopen
        rw [← hopen]; exact hfiles
      · split at hopen
        · cases hopen
        · simp only [Option.some.injEq] at hopen
          rw [← hopen]
          intro k file hk n hn e he
          rcases StdMap.mem_assign hk with h1 | h1
          · simp only [Prod.mk.injEq] at h1
            rw [h1.2] at hn
            simp only [List.mem_singleton] at hn
            rw [hn] at he
            cases he
          · exact hfiles k file h1 n hn e he
    split at h
    · cases h
    · split at h
      · simp only [Option.some.injEq] at h
        rw [← h]; exact hopened
      · rename_i file hfile
        simp only [Option.some.injEq] at h
        rw [← h]
        intro k file1 hk n hn e he
        rcases StdMap.mem_assign hk with h1 | h1
        · simp only [Prod.mk.injEq] at h1
          rw [h1.2] at hn
          rcases mem_appendToInputs hn he with ⟨n0, hn0, h0⟩ | h0
          · exact hopened _ file (StdMap.mem_of_find hfile) n0 hn0 e h0
          · rw [h0]; exact hnew _
        · exact hopened k file1 h1 n hn e he

theorem InputItemSet.GetOutputPoses_inv {P : XmlPoseNode → Prop} {env : Env}
    {pose_output_info : PoseOutputInfo} :
    ∀ (l : List PoseInfo) (files files1 : StdMap ItemFile),
      InputItemSet.GetOutputPoses env pose_output_info l files = some files1 →
      FilesInv P files →
      (∀ pose_info ∈ l, ∀ reference, P (poseNode pose_output_info pose_info reference)) →
      FilesInv P files1 := by
  intro l
  induction l with
  | nil =>
    intro files files1 h hfiles _
    simp only [InputItemSet.GetOutputPoses, Option.some.injEq] at h
    rw [← h]; exact hfiles
  | cons pose_info rest ih =>
    intro files files1 h hfiles hnew
    simp only [InputItemSet.GetOutputPoses] at h
    split at h
    · cases h
    · rename_i files2 h2
      exact ih _ _ h
        (InputItemSet.GetOutputPose_inv h2 hfiles (hnew _ (List.mem_cons_self _ _)))
        (fun pi hpi => hnew pi (List.mem_cons_of_mem _ hpi))

theorem InputItemSet.GetOutputLoop_inv {env : Env} {context : XrpContext}
    {poses : StdMap (Option PoseInput)} :
    ∀ (rest : List (String × Option PoseInput)) (files files1 : StdMap ItemFile),
      InputItemSet.GetOutputLoop env context poses rest files = .ret true files1 →
      (∀ e ∈ rest, e ∈ poses) →
      FilesInv (Produced env context poses) files →
      FilesInv (Produced env context poses) files1 := by
  intro rest
  induction rest with
  | nil =>
    intro files files1 h _ hfiles
    simp only [InputItemSet.GetOutputLoop, Outcome.ret.injEq, true_and] at h
    rw [← h]; exact hfiles
  | cons entry rest ih =>
    intro files files1 h hsub hfiles
    obtain ⟨key, pose⟩ := entry
    have hsub1 : ∀ e ∈ rest, e ∈ poses := fun e he => hsub e (List.mem_cons_of_mem _ he)
    simp only [InputItemSet.GetOutputLoop] at h
    split at h
    · exact ih _ _ h hsub1 hfiles
    · rename_i hkey
      split at h
      · cases h
      · rename_i p
        split at h
        · cases h
        · simp at h
        · rename_i info hinfo
          split at h
          · cases h
          · rename_i files2 h2
            apply ih _ _ h hsub1
            apply InputItemSet.GetOutputPoses_inv _ _ _ h2 hfiles
            intro pose_info hpi reference
            exact ⟨key, p, info, pose_info, reference, hsub _ (List.mem_cons_self _ _), hkey,
              hinfo, hpi, rfl⟩

/-- Every `pose` element of every document a successful `GetOutput` returns was
written for a sample of an action of the set. -/
theorem InputItemSet.GetOutput_produced {env : Env} {context : XrpContext}
    {self : InputItemSet} {out_itemset out : ItemSetOutput}
    (h : InputItemSet.GetOutput env context self out_itemset = .ret true out) :
    ∃ files, out.output_files = out_itemset.output_files ++ files ∧
      ∀ file ∈ files, ∀ n ∈ file.document, ∀ e ∈ n.children,
        Produced env context self.poses_ e := by
  simp only [InputItemSet.GetOutput] at h
  split at h
  · split at h
    · cases h
    · simp at h
    · rename_i files hloop
      simp only [Outcome.ret.injEq, true_and] at h
      refine ⟨files.map fun e => e.2, by rw [← h], ?_⟩
      have hinv := InputItemSet.GetOutputLoop_inv _ _ _ hloop (fun e he => he)
        (fun k file hk => by cases hk)
      intro file hfile
      obtain ⟨⟨k, f⟩, hk, rfl⟩ := List.mem_map.1 hfile
      exact hinv k f hk
  · simp at h

theorem PoseInput.GetPoseInfoLoop_length (rt : XrRuntime) (context : XrpContext)
    (self : PoseInput) (base : Option PoseInput) :
    ∀ (paths : List String) (acc l : List PoseInfo),
      PoseInput.GetPoseInfoLoop rt context self base paths acc = some l →
      l.length = acc.length + paths.length := by
  intro paths
  induction paths with
  | nil =>
    intro acc l h
    simp only [PoseInput.GetPoseInfoLoop, Option.some.injEq] at h
    simp [h]
  | cons s rest ih =>
    intro acc l h
    simp only [PoseInput.GetPoseInfoLoop] at h
    split at h
    · cases h
    · split at h
      · cases h
      · split at h
        · cases h
        · split at h
          · cases h
          · split at h
            · cases h
            · have := ih _ _ h
              rw [this, List.length_append, List.length_singleton, List.length_cons]
              omega

theorem PoseInput.GetPoseInfoLoop_names (rt : XrRuntime) (context : XrpContext)
    (self : PoseInput) (base : Option PoseInput) :
    ∀ (paths : List String) (acc l : List PoseInfo),
      PoseInput.GetPoseInfoLoop rt context self base paths acc = some l →
      (∀ i ∈ acc, i.action_name = self.action_info_.name) →
      ∀ i ∈ l, i.action_name = self.action_info_.name := by
  intro paths
  induction paths with
  | nil =>
    intro acc l h hacc
    simp only [PoseInput.GetPoseInfoLoop, Option.some.injEq] at h
    rw [← h]; exact hacc
  | cons s rest ih =>
    intro acc l h hacc
    simp only [PoseInput.GetPoseInfoLoop] at h
    split at h
    · cases h
    · split at h
      · cases h
      · split at h
        · cases h
        · split at h
          · cases h
          · split at h
            · cases h
            · apply ih _ _ h
              intro i hi
              rcases List.mem_append.1 hi with hi | hi
              · exact hacc i hi
              · simp only [List.mem_singleton] at hi
                rw [hi]

/-- What a successful `GetPoseInfo` leaves in its out-parameter, for a
non-reference action and for a reference action. -/
theorem PoseInput.GetPoseInfo_result {rt : XrRuntime} {context : XrpContext}
    {poses : StdMap (Option PoseInput)} {self : PoseInput} {out0 out : PoseOutputInfo}
    (h : PoseInput.GetPoseInfo rt context poses self out0 = .ret true out) :
    (self.action_info_.reference = true ∧ out = out0) ∨
    (self.action_info_.reference = false ∧
      out.pose_infos.length = self.action_info_.subaction_paths.length ∧
      out.check_symmetrical = decide (self.action_info_.subaction_paths.length = 2) ∧
      ∀ i ∈ out.pose_infos, i.action_name = self.action_info_.name) := by
  cases href : self.action_info_.reference with
  | true =>
    left
    simp only [PoseInput.GetPoseInfo, href, if_true, Outcome.ret.injEq, true_and] at h
    exact ⟨rfl, h.symm⟩
  | false =>
    right
    obtain ⟨base, l, hl, rfl⟩ := PoseInput.GetPoseInfo_ret_true href h
    have hlen := PoseInput.GetPoseInfoLoop_length _ _ _ _ _ _ _ hl
    simp only [List.length_nil, Nat.zero_add] at hlen
    refine ⟨rfl, ?_, ?_, ?_⟩
    · rw [PoseInput.classify_pose_infos, hlen]
    · rw [PoseInput.classify_check, hlen]
    · rw [PoseInput.classify_pose_infos]
      exact PoseInput.GetPoseInfoLoop_names _ _ _ _ _ _ _ hl (fun i hi => by cases hi)


theorem attributeValue_position_symmetrical (info : PoseOutputInfo)
    (pose_info : PoseInfo) (reference : Option ReferencePoseNode) :
    attributeValue (positionNode info pose_info reference).attributes "symmetrical" =
      if info.check_symmetrical then some (boolAttributeValue info.is_position_symmetrical)
      else none := by
  cases hc : info.check_symmetrical <;> cases reference <;>
    simp [attributeValue, positionNode, hc, List.find?]

theorem attributeValue_orientation_symmetrical (info : PoseOutputInfo)
    (pose_info : PoseInfo) (reference : Option ReferencePoseNode) :
    attributeValue (orientationNode info pose_info reference).attributes "symmetrical" =
      if info.check_symmetrical then some (boolAttributeValue info.is_orientation_symmetrical)
      else none := by
  cases hc : info.check_symmetrical <;> cases reference <;>
    simp [attributeValue, orientationNode, hc, List.find?]

theorem attributeValue_pose_name (info : PoseOutputInfo) (pose_info : PoseInfo)
    (reference : Option ReferencePoseNode) :
    attributeValue (poseNode info pose_info reference).attributes "name" =
      some pose_info.action_name := by
  simp [attributeValue, poseNode, List.find?]

/-- An element written for a sample comes from a non-reference action. -/
theorem Produced.not_reference {env : Env} {context : XrpContext}
    {poses : StdMap (Option PoseInput)} {e : XmlPoseNode} (h : Produced env context poses e) :
    ∃ key p info pose_info reference,
      (key, some p) ∈ poses ∧ key ≠ "" ∧ p.action_info_.reference = false ∧
      PoseInput.GetPoseInfo env.rt context poses p (PoseOutputInfo.uninitialized env)
        = .ret true info ∧
      pose_info ∈ info.pose_infos ∧ e = poseNode info pose_info reference ∧
      info.check_symmetrical = decide (p.action_info_.subaction_paths.length = 2) ∧
      pose_info.action_name = p.action_info_.name := by
  obtain ⟨key, p, info, pose_info, reference, hmem, hkey, hget, hpi, he⟩ := h
  rcases PoseInput.GetPoseInfo_result hget with ⟨_, hout⟩ | ⟨href, _, hcheck, hnames⟩
  · rw [hout] at hpi
    cases hpi
  · exact ⟨key, p, info, pose_info, reference, hmem, hkey, href, hget, hpi, he, hcheck,
      hnames _ hpi⟩

/-- C7: symmetry is reported only for actions with exactly two subaction paths.
A successful `GetPoseInfo` on a non-reference action produces one sample per
subaction path and sets `check_symmetrical` exactly when there are two; and
every `pose` element of every document a successful `GetOutput` returns was
written for a sample of a non-reference action of the set, with a `position`
and an `orientation` element that carry no `symmetrical` attribute when that
action has a number of subaction paths different from 2, and both carry it
(with the value of the respective flag) when it has exactly 2. -/
theorem C7_symmetry_only_for_two_paths (env : Env) (context : XrpContext)
    (self : InputItemSet) :
    (∀ (p : PoseInput) (out0 info : PoseOutputInfo), p.action_info_.reference = false →
      PoseInput.GetPoseInfo env.rt context self.poses_ p out0 = .ret true info →
      info.pose_infos.length = p.action_info_.subaction_paths.length ∧
      info.check_symmetrical = decide (p.action_info_.subaction_paths.length = 2)) ∧
    (∀ (out_itemset out : ItemSetOutput),
      InputItemSet.GetOutput env context self out_itemset = .ret true out →
      ∃ files, out.output_files = out_itemset.output_files ++ files ∧
        ∀ file ∈ files, ∀ n ∈ file.document, ∀ e ∈ n.children,
          ∃ key p info pose_info reference,
            (key, some p) ∈ self.poses_ ∧ p.action_info_.reference = false ∧
            PoseInput.GetPoseInfo env.rt context self.poses_ p (PoseOutputInfo.uninitialized env)
              = .ret true info ∧
            pose_info ∈ info.pose_infos ∧
            attributeValue e.attributes "name" = some p.action_info_.name ∧
            e.children = [positionNode info pose_info reference,
              orientationNode info pose_info reference] ∧
            (p.action_info_.subaction_paths.length ≠ 2 →
              attributeValue (positionNode info pose_info reference).attributes
                "symmetrical" = none ∧
              attributeValue (orientationNode info pose_info reference).attributes
                "symmetrical" = none) ∧
            (p.action_info_.subaction_paths.length = 2 →
              attributeValue (positionNode info pose_info reference).attributes
                "symmetrical" = some (boolAttributeValue info.is_position_symmetrical) ∧
              attributeValue (orientationNode info pose_info reference).attributes
                "symmetrical" = some (boolAttributeValue info.is_orientation_symmetrical))) := by
  constructor
  · intro p out0 info href hget
    rcases PoseInput.GetPoseInfo_result hget with ⟨hr, _⟩ | ⟨_, hlen, hcheck, _⟩
    · rw [href] at hr; cases hr
    · exact ⟨hlen, hcheck⟩
  · intro out_itemset out hout
    obtain ⟨files, hfiles, hprod⟩ := InputItemSet.GetOutput_produced hout
    refine ⟨files, hfiles, ?_⟩
    intro file hfile n hn e he
    obtain ⟨key, p, info, pose_info, reference, hmem, _, href, hget, hpi, hnode, hcheck, hname⟩ :=
      (hprod file hfile n hn e he).not_reference
    refine ⟨key, p, info, pose_info, reference, hmem, href, hget, hpi, ?_, ?_, ?_, ?_⟩
    · rw [hnode, attributeValue_pose_name, hname]
    · rw [hnode]; rfl
    · intro hne
      rw [attributeValue_position_symmetrical, attributeValue_orientation_symmetrical, hcheck]
      simp [hne]
    · intro heq
      rw [attributeValue_position_symmetrical, attributeValue_orientation_symmetrical, hcheck]
      simp [heq]

/-- C7 witness: in the end-to-end scenario `grip` has two subaction paths;
`GetOutput` succeeds, and the `position` and `orientation` elements of the first
`pose` element both carry `symmetrical="true"`. -/
theorem C7_symmetry_only_for_two_paths_witness :
    InputItemSet.GetOutput (exEnv exLeftPose exRightPose 3) exContext exGripSet
        { output_files := [] } = .ret true exGripOutput ∧
      (∃ files, exGripOutput.output_files = [] ++ files ∧
        ∀ file ∈ files, ∀ n ∈ file.document, ∀ e ∈ n.children,
          ∃ p : PoseInput, p.action_info_.reference = false ∧
            attributeValue e.attributes "name" = some p.action_info_.name) ∧
      attributeValue (positionNode exGripInfoOut
        (exSample "/user/hand/left" exLeftPose) none).attributes "symmetrical" = some "true" ∧
      attributeValue (orientationNode exGripInfoOut
        (exSample "/user/hand/left" exLeftPose) none).attributes "symmetrical" = some "true" := by
  have hout : InputItemSet.GetOutput (exEnv exLeftPose exRightPose 3) exContext exGripSet
      { output_files := [] } = .ret true exGripOutput := by decide
  refine ⟨hout, ?_, by decide, by decide⟩
  obtain ⟨files, hfiles, hall⟩ :=
    (C7_symmetry_only_for_two_paths (exEnv exLeftPose exRightPose 3) exContext exGripSet).2
      _ _ hout
  refine ⟨files, hfiles, ?_⟩
  intro file hfile n hn e he
  obtain ⟨_, p, _, _, _, _, href, _, _, hname, _⟩ := hall file hfile n hn e he
  exact ⟨p, href, hname⟩

/-- C8: for every pose action with `reference = true` of a set that `Init`
initialised, whatever its subaction paths and whatever the runtime reports,
`GetPoseInfo` returns `true` and leaves its out-parameter as it was (no sample
is produced), and no document that `GetOutput` returns contains a `pose`
element whose name is the name of that action. -/
theorem C8_reference_never_sampled (rt0 : XrRuntime) (inputs_config : InputsConfig)
    (self : InputItemSet)
    (h : InputItemSet.Init rt0 (InputItemSet.new inputs_config) = some (.ret true self))
    (key : String) (A : PoseInput) (hA : (key, some A) ∈ self.poses_)
    (href : A.action_info_.reference = true) (env : Env) (context : XrpContext) :
    (∀ out0, PoseInput.GetPoseInfo env.rt context self.poses_ A out0 = .ret true out0) ∧
    (∀ (out_itemset out : ItemSetOutput),
      InputItemSet.GetOutput env context self out_itemset = .ret true out →
      ∃ files, out.output_files = out_itemset.output_files ++ files ∧
        ∀ file ∈ files, ∀ n ∈ file.document, ∀ e ∈ n.children,
          attributeValue e.attributes "name" ≠ some A.action_info_.name) := by
  obtain ⟨hs, hn, _, _, _⟩ := InputItemSet.Init_ret_true h
  constructor
  · intro out0
    simp [PoseInput.GetPoseInfo, href]
  · intro out_itemset out hout
    obtain ⟨files, hfiles, hprod⟩ := InputItemSet.GetOutput_produced hout
    refine ⟨files, hfiles, ?_⟩
    intro file hfile n hn1 e he
    obtain ⟨k, p, info, pose_info, reference, hmem, _, hpref, _, _, hnode, _, hname⟩ :=
      (hprod file hfile n hn1 e he).not_reference
    rw [hnode, attributeValue_pose_name, hname]
    intro hc
    simp only [Option.some.injEq] at hc
    have hk : k = key := by rw [← (hn _ _ hmem).1, ← (hn _ _ hA).1, hc]
    subst hk
    have h1 := StdMap.find_of_mem hs hmem
    have h2 := StdMap.find_of_mem hs hA
    rw [h1] at h2
    simp only [Option.some.injEq] at h2
    rw [h2, href] at hpref
    cases hpref

/-- C8 witness: in `exBaseConfig` the action `aim` is a reference action with two
subaction paths; `Init` succeeds, `GetPoseInfo` on `aim` returns `true` and
leaves the out-parameter as it was. -/
theorem C8_reference_never_sampled_witness :
    InputItemSet.Init (exRuntime exLeftPose exRightPose 3) (InputItemSet.new exBaseConfig)
        = some (.ret true exBaseSet) ∧
      ("aim", some exAim) ∈ exBaseSet.poses_ ∧ exAim.action_info_.reference = true ∧
      PoseInput.GetPoseInfo (exEnv exLeftPose exRightPose 3).rt exContext exBaseSet.poses_
        exAim exOut = .ret true exOut :=
  ⟨by decide, by decide, by decide,
    (C8_reference_never_sampled (exRuntime exLeftPose exRightPose 3) exBaseConfig exBaseSet
      (by decide) "aim" exAim (by decide) (by decide) (exEnv exLeftPose exRightPose 3)
      exContext).1 exOut⟩

/-! ### A base that is the action itself -/

/-- After a successful `Init` the base pointer of every action points to an
action of the set or is null. -/
theorem InputItemSet.Init_basePointee {rt : XrRuntime} {inputs_config : InputsConfig}
    {self : InputItemSet}
    (h : InputItemSet.Init rt (InputItemSet.new inputs_config) = some (.ret true self))
    {key : String} {p : PoseInput} (hp : (key, some p) ∈ self.poses_) :
    (p.basePointee self.poses_).isSome = true := by
  obtain ⟨_, _, hall, _, _⟩ := InputItemSet.Init_ret_true h
  have hok := (hall key p hp).1
  unfold PoseInput.basePointee
  cases hr : resolves self.poses_ p.action_info_.base with
  | false => rw [hr] at hok; simp at hok; rw [hok]; rfl
  | true =>
    rw [hr] at hok
    simp only [if_true] at hok
    rw [hok]
    obtain ⟨b, hb⟩ := mem_of_resolves hr
    unfold resolves at hr
    split at hr
    · rename_i b1 hf
      simp only [hf]; rfl
    · cases hr

/-- C11 (as stated, refuted): `grip` names itself as its base; with a runtime
whose calls all succeed `Init` returns `true`, and the base pointer of `grip`
points to the entry `grip` of the set, which holds `grip` itself. -/
theorem C11_counterexample_self_base :
    InputItemSet.Init (exRuntime exLeftPose exRightPose 3) (InputItemSet.new exSelfConfig)
        = some (.ret true exSelfSet) ∧
      exGripSelf.base_pose_ = some "grip" ∧
      StdMap.find exSelfSet.poses_ "grip" = some (some exGripSelf) := by
  decide

/-- C11 (amended): for every configuration, whenever `InputItemSet::Init` returns
`true`, every pose action whose base name equals its own name holds itself as
its base: its base pointer points to the entry of the set that holds the action
itself, and `GetPoseInfo` locates each of its spaces relative to that same
space. -/
theorem C11_self_base_is_kept (rt : XrRuntime) (inputs_config : InputsConfig)
    (self : InputItemSet)
    (h : InputItemSet.Init rt (InputItemSet.new inputs_config) = some (.ret true self))
    (key : String) (p : PoseInput) (hp : (key, some p) ∈ self.poses_)
    (hself : p.action_info_.base = p.action_info_.name) :
    p.base_pose_ = some key ∧ StdMap.find self.poses_ key = some (some p) ∧
      ∀ (rt1 : XrRuntime) (context : XrpContext) (out0 out : PoseOutputInfo),
        p.action_info_.reference = false →
        PoseInput.GetPoseInfo rt1 context self.poses_ p out0 = .ret true out →
        out.pose_infos.map (fun i => i.pose) =
          p.action_info_.subaction_paths.map fun s =>
            { (rt1.xrLocateSpace (p.GetActionSpace s) (p.GetActionSpace s)
                context.predictedDisplayTime).2.pose with
              orientation := StandardizeXrQuaternion
                (rt1.xrLocateSpace (p.GetActionSpace s) (p.GetActionSpace s)
                  context.predictedDisplayTime).2.pose.orientation } := by
  obtain ⟨hs, hn, hall, _, _⟩ := InputItemSet.Init_ret_true h
  have hok := (hall key p hp).1
  have hname : p.action_info_.name = key := (hn key p hp).1
  have hr : resolves self.poses_ p.action_info_.base = true := by
    rw [hself, hname]; exact resolves_of_mem hs hp
  rw [hr, hself, hname] at hok
  simp only [if_true] at hok
  have hfind := StdMap.find_of_mem hs hp
  refine ⟨hok, hfind, ?_⟩
  intro rt1 context out0 out href hget
  exact PoseInput.GetPoseInfo_base href hok hfind hget

/-- C11 witness: for `exSelfConfig` `Init` returns `true`, `grip` is in the set
with its own name as base name, and its base pointer points to itself. -/
theorem C11_self_base_is_kept_witness :
    InputItemSet.Init (exRuntime exLeftPose exRightPose 3) (InputItemSet.new exSelfConfig)
        = some (.ret true exSelfSet) ∧
      ("grip", some exGripSelf) ∈ exSelfSet.poses_ ∧
      exGripSelf.action_info_.base = exGripSelf.action_info_.name ∧
      exGripSelf.base_pose_ = some "grip" ∧
      StdMap.find exSelfSet.poses_ "grip" = some (some exGripSelf) :=
  ⟨by decide, by decide, by decide,
    (C11_self_base_is_kept (exRuntime exLeftPose exRightPose 3) exSelfConfig exSelfSet
      (by decide) "grip" exGripSelf (by decide) (by decide)).1,
    (C11_self_base_is_kept (exRuntime exLeftPose exRightPose 3) exSelfConfig exSelfSet
      (by decide) "grip" exGripSelf (by decide) (by decide)).2.1⟩

/-! ### `PoseInput::GetPoseInfo`: when it succeeds, and what the samples carry -/

theorem locationFlags_valid (flags : Nat) :
    (flags &&& (XR_SPACE_LOCATION_ORIENTATION_VALID_BIT ||| XR_SPACE_LOCATION_POSITION_VALID_BIT)
        = 0) ↔
      ¬ (flags &&& XR_SPACE_LOCATION_ORIENTATION_VALID_BIT ≠ 0 ∨
        flags &&& XR_SPACE_LOCATION_POSITION_VALID_BIT ≠ 0) := by
  rw [Nat.and_or_distrib_left]
  have h1 : flags &&& XR_SPACE_LOCATION_ORIENTATION_VALID_BIT ≤ 1 := Nat.and_le_right
  have h2 : flags &&& XR_SPACE_LOCATION_POSITION_VALID_BIT ≤ 2 := Nat.and_le_right
  generalize flags &&& XR_SPACE_LOCATION_ORIENTATION_VALID_BIT = a at h1 ⊢
  generalize flags &&& XR_SPACE_LOCATION_POSITION_VALID_BIT = b at h2 ⊢
  interval_cases a <;> interval_cases b <;> decide

/-- The loop of `GetPoseInfo` runs to its end exactly when every subaction path
passes the conditions. -/
theorem PoseInput.GetPoseInfoLoop_isSome (rt : XrRuntime) (context : XrpContext)
    (self : PoseInput) (base : Option PoseInput) :
    ∀ (paths : List String) (acc : List PoseInfo),
      (PoseInput.GetPoseInfoLoop rt context self base paths acc).isSome = true ↔
        ∀ s ∈ paths, PoseInput.sampleOk rt context self base s = true := by
  intro paths
  induction paths with
  | nil => intro acc; simp [PoseInput.GetPoseInfoLoop]
  | cons s rest ih =>
    intro acc
    rw [List.forall_mem_cons]
    unfold PoseInput.GetPoseInfoLoop
    simp only [PoseInput.sampleOk, PoseInput.baseSpace, Bool.and_eq_true, Bool.or_eq_true,
      decide_eq_true_eq]
    split
    · rename_i h; simp at h; simp [h]
    · rename_i h1; simp at h1
      split
      · rename_i h; simp at h; simp [h]
      · rename_i h2; simp at h2
        split
        · rename_i h; simp at h; simp [h]
        · rename_i h3; simp at h3
          split
          · rename_i h; simp [h]
          · rename_i ip h4
            split
            · rename_i h5
              have h6 := (locationFlags_valid _).1 h5
              simp only [Option.isSome_none, Bool.false_eq_true, false_iff, not_and]
              intro hc
              exact absurd hc.2 h6
            · rename_i h5
              have h6 : _ ∨ _ := not_not.1 (mt (locationFlags_valid _).2 h5)
              rw [ih]
              simp only [h1, h2, h3, h4, Option.isSome_some, true_and, h6, PoseInput.sampleOk,
                PoseInput.baseSpace, Bool.and_eq_true, Bool.or_eq_true, decide_eq_true_eq, and_self]

theorem PoseInput.GetPoseInfoLoop_fields (rt : XrRuntime) (context : XrpContext)
    (self : PoseInput) (base : Option PoseInput) :
    ∀ (paths : List String) (acc l : List PoseInfo),
      PoseInput.GetPoseInfoLoop rt context self base paths acc = some l →
      l.map (fun i => (i.action_name, i.binding_path, i.base)) =
        acc.map (fun i => (i.action_name, i.binding_path, i.base)) ++
          paths.map fun s =>
            (self.action_info_.name, s ++ self.action_info_.suggested_binding,
              PoseInput.baseField base s) := by
  intro paths
  induction paths with
  | nil =>
    intro acc l h
    simp only [PoseInput.GetPoseInfoLoop, Option.some.injEq] at h
    simp [h]
  | cons s rest ih =>
    intro acc l h
    simp only [PoseInput.GetPoseInfoLoop] at h
    split at h
    · cases h
    · split at h
      · cases h
      · split at h
        · cases h
        · split at h
          · cases h
          · split at h
            · cases h
            · rw [ih _ _ h]
              cases base <;> simp [PoseInput.baseField]

/-- What `GetPoseInfo` does on a non-reference action whose base pointer points
to `base`: it returns `true` with the classified samples when the loop over
the subaction paths runs to its end, and `false`, leaving the out-parameter
untouched, when it does not. -/
theorem PoseInput.GetPoseInfo_eq (rt : XrRuntime) (context : XrpContext)
    {poses : StdMap (Option PoseInput)} {self : PoseInput} {base : Option PoseInput}
    (out0 : PoseOutputInfo)
    (href : self.action_info_.reference = false) (hbase : self.basePointee poses = some base) :
    PoseInput.GetPoseInfo rt context poses self out0 =
      match PoseInput.GetPoseInfoLoop rt context self base self.action_info_.subaction_paths [] with
      | none => .ret false out0
      | some pose_infos => .ret true (PoseInput.classify pose_infos) := by
  unfold PoseInput.basePointee at hbase
  unfold PoseInput.GetPoseInfo
  simp only [href, Bool.false_eq_true, if_false]
  split at hbase
  · rename_i hb
    simp only [Option.some.injEq] at hbase
    subst hbase
    simp only [hb]
  · rename_i key hb
    split at hbase
    · rename_i b hf
      simp only [Option.some.injEq] at hbase
      subst hbase
      simp only [hb, hf]
    · cases hbase

/-- C12: for every non-reference pose action (whose base pointer is null or
points to an action of the set), `GetPoseInfo` returns `true` if and only if
every one of its subaction paths passes: the action-state query succeeds and
reports the action active, the space location query succeeds, the interaction
profile is resolved, and at least one of the orientation-valid and
position-valid flags is set. One flag alone is enough; a single subaction path
that is inactive, or whose location has neither flag, makes the call return
`false`, with the out-parameter untouched. -/
theorem C12_GetPoseInfo_success (rt : XrRuntime) (context : XrpContext)
    (poses : StdMap (Option PoseInput)) (self : PoseInput) (base : Option PoseInput)
    (out0 : PoseOutputInfo)
    (href : self.action_info_.reference = false) (hbase : self.basePointee poses = some base) :
    ((∃ out, PoseInput.GetPoseInfo rt context poses self out0 = .ret true out) ↔
      ∀ s ∈ self.action_info_.subaction_paths,
        PoseInput.sampleOk rt context self base s = true) ∧
    ((¬ ∀ s ∈ self.action_info_.subaction_paths,
        PoseInput.sampleOk rt context self base s = true) →
      PoseInput.GetPoseInfo rt context poses self out0 = .ret false out0) ∧
    (∀ s ∈ self.action_info_.subaction_paths,
      (rt.xrGetActionStatePose self.pose_action_ (XrpStringToXrPath rt s)).2 = false ∨
      (rt.xrLocateSpace (self.GetActionSpace s) (PoseInput.baseSpace context base s)
          context.predictedDisplayTime).2.locationFlags &&&
        (XR_SPACE_LOCATION_ORIENTATION_VALID_BIT ||| XR_SPACE_LOCATION_POSITION_VALID_BIT) = 0 →
      PoseInput.GetPoseInfo rt context poses self out0 = .ret false out0) := by
  have heq := PoseInput.GetPoseInfo_eq rt context out0 href hbase
  have hloop := PoseInput.GetPoseInfoLoop_isSome rt context self base
    self.action_info_.subaction_paths []
  have hfail : (¬ ∀ s ∈ self.action_info_.subaction_paths,
      PoseInput.sampleOk rt context self base s = true) →
      PoseInput.GetPoseInfo rt context poses self out0 = .ret false out0 := by
    intro hn
    rw [← hloop] at hn
    rw [heq]
    cases hl : PoseInput.GetPoseInfoLoop rt context self base
        self.action_info_.subaction_paths [] with
    | none => rfl
    | some l => rw [hl] at hn; exact absurd rfl hn
  refine ⟨⟨?_, ?_⟩, hfail, ?_⟩
  · rintro ⟨out, hout⟩
    rw [← hloop]
    rw [heq] at hout
    cases hl : PoseInput.GetPoseInfoLoop rt context self base
        self.action_info_.subaction_paths [] with
    | none => rw [hl] at hout; simp at hout
    | some l => rfl
  · intro hall
    rw [← hloop] at hall
    rw [heq]
    cases hl : PoseInput.GetPoseInfoLoop rt context self base
        self.action_info_.subaction_paths [] with
    | none => rw [hl] at hall; cases hall
    | some l => exact ⟨_, rfl⟩
  · intro s hs hbad
    apply hfail
    intro hall
    have hok := hall s hs
    simp only [PoseInput.sampleOk, Bool.and_eq_true, Bool.or_eq_true, decide_eq_true_eq] at hok
    rcases hbad with hbad | hbad
    · rw [hok.1.1.1.2] at hbad; cases hbad
    · exact (locationFlags_valid _).1 hbad hok.2

/-- C12 witness: `grip` has no base; with a runtime that sets only the
position-valid flag both subaction paths pass and `GetPoseInfo` returns `true`;
with a runtime that sets neither flag it returns `false` and leaves the
out-parameter as it was. -/
theorem C12_GetPoseInfo_success_witness :
    exGrip.action_info_.reference = false ∧ exGrip.basePointee [] = some none ∧
      (∀ s ∈ exGrip.action_info_.subaction_paths,
        PoseInput.sampleOk (exRuntime exLeftPose exRightPose XR_SPACE_LOCATION_POSITION_VALID_BIT)
          exContext exGrip none s = true) ∧
      (∃ out, PoseInput.GetPoseInfo
        (exRuntime exLeftPose exRightPose XR_SPACE_LOCATION_POSITION_VALID_BIT)
        exContext [] exGrip exOut = .ret true out) ∧
      PoseInput.GetPoseInfo (exRuntime exLeftPose exRightPose 0) exContext [] exGrip exOut
        = .ret false exOut :=
  ⟨by decide, by decide, by decide,
    (C12_GetPoseInfo_success
      (exRuntime exLeftPose exRightPose XR_SPACE_LOCATION_POSITION_VALID_BIT)
      exContext [] exGrip none exOut (by decide) (by decide)).1.2 (by decide),
    (C12_GetPoseInfo_success (exRuntime exLeftPose exRightPose 0)
      exContext [] exGrip none exOut (by decide) (by decide)).2.2
      "/user/hand/left" (by decide) (Or.inr (by decide))⟩

/-- C19 (as stated, refuted): `grip` has the base `aim`, whose suggested binding
is `/input/aim/pose`; the two samples of `grip` carry the base fields
`/user/hand/left/input/aim/pose` and `/user/hand/right/input/aim/pose`, not the
base name `aim` of the descriptor. -/
theorem C19_counterexample_base_field :
    (PoseInput.GetPoseInfo (exRuntime exLeftPose exRightPose 3) exContext exBaseSet.poses_
        exGripOnAim exOut).value?.map (fun out => out.pose_infos.map fun i => i.base)
      = some ["/user/hand/left/input/aim/pose", "/user/hand/right/input/aim/pose"] ∧
    exGripOnAim.action_info_.base = "aim" := by
  decide

/-- C19 (amended): for every successful `GetPoseInfo` on a non-reference action,
the samples are produced one per subaction path in configured order, and each
sample carries the action's name, a binding path equal to the subaction path
followed by the action's suggested binding, and a base field equal to the
subaction path followed by the suggested binding of the action's base action
(the empty string when the base pointer is null). -/
theorem C19_sample_fields (rt : XrRuntime) (context : XrpContext)
    (poses : StdMap (Option PoseInput)) (self : PoseInput) (base : Option PoseInput)
    (out0 out : PoseOutputInfo)
    (href : self.action_info_.reference = false) (hbase : self.basePointee poses = some base)
    (h : PoseInput.GetPoseInfo rt context poses self out0 = .ret true out) :
    out.pose_infos.map (fun i => (i.action_name, i.binding_path, i.base)) =
      self.action_info_.subaction_paths.map fun s =>
        (self.action_info_.name, s ++ self.action_info_.suggested_binding,
          PoseInput.baseField base s) := by
  rw [PoseInput.GetPoseInfo_eq rt context out0 href hbase] at h
  split at h
  · cases h
  · rename_i l hl
    simp only [Outcome.ret.injEq, true_and] at h
    rw [← h, PoseInput.classify_pose_infos, PoseInput.GetPoseInfoLoop_fields _ _ _ _ _ _ _ hl]
    simp

/-- C19 witness: `grip` with the base `aim` in the set of `exBaseConfig`; its two
samples carry the name `grip`, the binding paths of `grip` on the two hands and
the binding paths of `aim` on the two hands as base fields. -/
theorem C19_sample_fields_witness :
    exGripOnAim.action_info_.reference = false ∧
      exGripOnAim.basePointee exBaseSet.poses_ = some (some exAim) ∧
      (PoseInput.GetPoseInfo (exRuntime exLeftPose exRightPose 3) exContext exBaseSet.poses_
          exGripOnAim exOut).value?.map
        (fun out => out.pose_infos.map fun i => (i.action_name, i.binding_path, i.base))
        = some
          [("grip", "/user/hand/left/input/grip/pose", "/user/hand/left/input/aim/pose"),
           ("grip", "/user/hand/right/input/grip/pose", "/user/hand/right/input/aim/pose")] := by
  have hget : PoseInput.GetPoseInfo (exRuntime exLeftPose exRightPose 3) exContext
      exBaseSet.poses_ exGripOnAim exOut
      = .ret true (PoseInput.classify
          [{ action_name := "grip", binding_path := "/user/hand/left/input/grip/pose",
             interaction_profile := "/interaction_profiles/valve/index_controller",
             base := "/user/hand/left/input/aim/pose", pose := exLeftPose },
           { action_name := "grip", binding_path := "/user/hand/right/input/grip/pose",
             interaction_profile := "/interaction_profiles/valve/index_controller",
             base := "/user/hand/right/input/aim/pose", pose := exRightPose }]) := by
    decide
  refine ⟨by decide, by decide, ?_⟩
  rw [hget]
  simp only [Outcome.value?, Option.map_some']
  rw [C19_sample_fields (exRuntime exLeftPose exRightPose 3) exContext exBaseSet.poses_
    exGripOnAim (some exAim) exOut _ (by decide) (by decide) hget]
  decide

/-! ### The configuration-parsing step of `InputItemSet::Init` -/

theorem InputItemSet.InitParse_cons_accepted {a : ActionNode} (ha : a.accepted)
    (rest : List ActionNode) (poses : StdMap (Option PoseInput)) :
    InputItemSet.InitParse (a :: rest) poses =
      InputItemSet.InitParse rest
        (StdMap.assign poses a.name (some (PoseInput.new a.descriptor))) := by
  obtain ⟨h1, h2, h3⟩ := ha
  simp [InputItemSet.InitParse, h1, h2, h3, ActionNode.descriptor]

theorem InputItemSet.InitParse_cons_skipped {a : ActionNode} (ha : ¬ a.accepted)
    (rest : List ActionNode) (poses : StdMap (Option PoseInput)) :
    InputItemSet.InitParse (a :: rest) poses = InputItemSet.InitParse rest poses := by
  simp only [InputItemSet.InitParse]
  split
  · rename_i htype
    split
    · rfl
    · rename_i hacc
      exfalso
      apply ha
      exact ⟨htype, fun hc => hacc (Or.inl hc), fun hc => hacc (Or.inr hc)⟩
  · rfl

theorem InputItemSet.InitParse_append :
    ∀ (pre post : List ActionNode) (poses : StdMap (Option PoseInput)),
      InputItemSet.InitParse (pre ++ post) poses
        = InputItemSet.InitParse post (InputItemSet.InitParse pre poses) := by
  intro pre
  induction pre with
  | nil => intro post poses; rfl
  | cons a rest ih =>
    intro post poses
    by_cases ha : a.accepted
    · rw [List.cons_append, InputItemSet.InitParse_cons_accepted ha,
        InputItemSet.InitParse_cons_accepted ha, ih]
    · rw [List.cons_append, InputItemSet.InitParse_cons_skipped ha,
        InputItemSet.InitParse_cons_skipped ha, ih]

/-- An entry stays in the map through the parsing of descriptors none of which
is accepted under its key. -/
theorem InputItemSet.InitParse_keep :
    ∀ (actions : List ActionNode) (poses : StdMap (Option PoseInput))
      (e : String × Option PoseInput), e ∈ poses →
      (∀ n ∈ actions, n.accepted → n.name ≠ e.1) →
      e ∈ InputItemSet.InitParse actions poses := by
  intro actions
  induction actions with
  | nil => intro poses e he _; exact he
  | cons a rest ih =>
    intro poses e he hne
    have hrest : ∀ n ∈ rest, n.accepted → n.name ≠ e.1 :=
      fun n hn => hne n (List.mem_cons_of_mem _ hn)
    by_cases ha : a.accepted
    · rw [InputItemSet.InitParse_cons_accepted ha]
      apply ih _ _ _ hrest
      exact StdMap.mem_assign_of_mem he (fun hc => hne a (List.mem_cons_self _ _) ha hc.symm)
    · rw [InputItemSet.InitParse_cons_skipped ha]
      exact ih _ _ he hrest

/-- Every entry of the map after the parsing step was there before or was
built from an accepted descriptor, under its name. -/
theorem InputItemSet.InitParse_entry :
    ∀ (actions : List ActionNode) (poses : StdMap (Option PoseInput))
      (e : String × Option PoseInput), e ∈ InputItemSet.InitParse actions poses →
      e ∈ poses ∨
        ∃ node ∈ actions, node.accepted ∧ e = (node.name, some (PoseInput.new node.descriptor)) := by
  intro actions
  induction actions with
  | nil => intro poses e h; exact Or.inl h
  | cons a rest ih =>
    intro poses e h
    by_cases ha : a.accepted
    · rw [InputItemSet.InitParse_cons_accepted ha] at h
      rcases ih _ _ h with h1 | ⟨node, hnode, h1⟩
      · rcases StdMap.mem_assign h1 with h2 | h2
        · exact Or.inr ⟨a, List.mem_cons_self _ _, ha, h2⟩
        · exact Or.inl h2
      · exact Or.inr ⟨node, List.mem_cons_of_mem _ hnode, h1⟩
    · rw [InputItemSet.InitParse_cons_skipped ha] at h
      rcases ih _ _ h with h1 | ⟨node, hnode, h1⟩
      · exact Or.inl h1
      · exact Or.inr ⟨node, List.mem_cons_of_mem _ hnode, h1⟩

/-- The method `Init` reads the configuration through the parsed map and the
list of interaction profiles only. -/
theorem InputItemSet.Init_congr (rt : XrRuntime) (c1 c2 : InputsConfig)
    (hparse : InputItemSet.InitParse c1.actions [] = InputItemSet.InitParse c2.actions [])
    (hprofiles : c1.interaction_profiles = c2.interaction_profiles)
    {ok : Bool} {self : InputItemSet}
    (h : InputItemSet.Init rt (InputItemSet.new c1) = some (.ret ok self)) :
    InputItemSet.Init rt (InputItemSet.new c2) = some (.ret ok { self with config_ := c2 }) := by
  unfold InputItemSet.Init at h ⊢
  simp only [InputItemSet.new] at h ⊢
  rw [← hparse, ← hprofiles]
  generalize InputItemSet.InitPoses rt _ _ _ _ _ = r at h ⊢
  by_cases hc : XR_UNQUALIFIED_SUCCESS rt.xrCreateActionSet.1 = true
  · simp only [hc, if_true] at h ⊢
    cases r with
    | none => simp at h
    | some o =>
      cases o with
      | abnormal => simp at h
      | ret b pr =>
        obtain ⟨poses1, sb⟩ := pr
        cases b
        · cases h; rfl
        · simp only at h ⊢
          by_cases hs : InputItemSet.InitSuggest rt sb c1.interaction_profiles = true <;>
            by_cases ha : XR_UNQUALIFIED_SUCCESS
              (rt.xrAttachSessionActionSets rt.xrCreateActionSet.2) = true <;>
            simp only [hs, ha, if_true, if_false] at h ⊢ <;>
            (cases h; rfl)
  · simp only [hc, if_false] at h ⊢
    cases h; rfl

/-- C20: after the configuration-parsing step of `InputItemSet::Init` the map of
pose actions holds exactly the configured actions of type `pose` whose name
and suggested binding are both non-empty: every entry is the action built from
such a descriptor, under its name, and every such descriptor has its action in
the map (under a name several such descriptors share, the action of the last
of them). A descriptor that is not accepted is skipped: the map, and the result
of `Init`, are what they are without it, so it makes `Init` neither fail nor
drop a later descriptor. -/
theorem C20_parse_skips_incomplete (inputs_config : InputsConfig) :
    (∀ e ∈ InputItemSet.InitParse inputs_config.actions [],
      ∃ node ∈ inputs_config.actions, node.accepted ∧
        e = (node.name, some (PoseInput.new node.descriptor))) ∧
    (∀ pre node post, inputs_config.actions = pre ++ node :: post → node.accepted →
      (∀ n ∈ post, n.accepted → n.name ≠ node.name) →
      (node.name, some (PoseInput.new node.descriptor))
        ∈ InputItemSet.InitParse inputs_config.actions []) ∧
    (∀ node ∈ inputs_config.actions, node.accepted →
      ∃ p, (node.name, some p) ∈ InputItemSet.InitParse inputs_config.actions []) ∧
    (∀ pre node post, inputs_config.actions = pre ++ node :: post → ¬ node.accepted →
      InputItemSet.InitParse inputs_config.actions [] = InputItemSet.InitParse (pre ++ post) [] ∧
      ∀ (rt : XrRuntime) (ok : Bool) (self : InputItemSet),
        InputItemSet.Init rt (InputItemSet.new inputs_config) = some (.ret ok self) →
        InputItemSet.Init rt (InputItemSet.new { inputs_config with actions := pre ++ post })
          = some (.ret ok { self with config_ := { inputs_config with actions := pre ++ post } }))
    := by
  refine ⟨?_, ?_, ?_, ?_⟩
  · intro e he
    rcases InputItemSet.InitParse_entry _ _ e he with h | h
    · cases h
    · exact h
  · intro pre node post hsplit hacc hlast
    rw [hsplit, InputItemSet.InitParse_append, InputItemSet.InitParse_cons_accepted hacc]
    exact InputItemSet.InitParse_keep _ _ _ (StdMap.mem_assign_self _ _ _) hlast
  · intro node hnode hacc
    exact mem_of_resolves (InputItemSet.InitParse_resolves _ _ node hnode hacc)
  · intro pre node post hsplit hacc
    have hparse : InputItemSet.InitParse inputs_config.actions []
        = InputItemSet.InitParse (pre ++ post) [] := by
      rw [hsplit, InputItemSet.InitParse_append, InputItemSet.InitParse_cons_skipped hacc,
        ← InputItemSet.InitParse_append]
    refine ⟨hparse, ?_⟩
    intro rt ok self h
    exact InputItemSet.Init_congr rt inputs_config { inputs_config with actions := pre ++ post }
      hparse rfl h

/-- C20 witness: in `exSkippedConfig` a descriptor without a name and a
descriptor without a suggested binding come before the descriptor of `grip`;
after the parsing step the map holds `grip` alone, as it does for the
configuration without the first descriptor, and `Init` returns `true`. -/
theorem C20_parse_skips_incomplete_witness :
    InputItemSet.InitParse exSkippedConfig.actions [] = [("grip", some (PoseInput.new exGripInfo))] ∧
      InputItemSet.InitParse exSkippedConfig.actions []
        = InputItemSet.InitParse ([] ++ exSkippedConfig.actions.drop 1) [] ∧
      (InputItemSet.Init (exRuntime exLeftPose exRightPose 3)
        (InputItemSet.new exSkippedConfig)).map
          (fun o => o.value?.map fun s => s.poses_) = some (some exGripSet.poses_) :=
  ⟨by decide,
    ((C20_parse_skips_incomplete exSkippedConfig).2.2.2 []
      { type := "pose", name := "", suggested_binding := "/input/aim/pose", base := "",
        reference := false, subaction_paths := ["/user/hand/left"] }
      (exSkippedConfig.actions.drop 1) rfl (by decide)).1,
    by decide⟩

/-! ### `StripIllegalFilenameCharacters` -/

theorem String.toList_foldl_append (l : List String) :
    ∀ acc : String, (List.foldl (fun r s => r ++ s) acc l).toList
      = acc.toList ++ (l.map String.toList).flatten := by
  induction l with
  | nil => intro acc; simp
  | cons s rest ih =>
    intro acc
    rw [List.foldl_cons, ih]
    simp [String.toList, String.data_append, List.append_assoc]

theorem StripIllegalFilenameCharacters_toList (s : String) :
    (StripIllegalFilenameCharacters s "_").toList
      = s.toList.map fun c => if isIllegalFilenameCharacter c then '_' else c := by
  unfold StripIllegalFilenameCharacters String.join
  rw [String.toList_foldl_append]
  simp only [String.toList, List.nil_append, List.map_map]
  induction s.data with
  | nil => rfl
  | cons c rest ih =>
    simp only [List.map_cons, List.flatten_cons, ih]
    have hc : (if c = '<' ∨ c = '>' ∨ c = ':' ∨ c = '"' ∨ c = '/' ∨ c = '\\' ∨ c = '|' ∨ c = '?'
        ∨ c = '*' then "_" else String.singleton c).data
        = [if isIllegalFilenameCharacter c then '_' else c] := by
      by_cases h : c = '<' ∨ c = '>' ∨ c = ':' ∨ c = '"' ∨ c = '/' ∨ c = '\\' ∨ c = '|' ∨ c = '?'
        ∨ c = '*'
      · have h2 : isIllegalFilenameCharacter c = true := decide_eq_true h
        rw [if_pos h, h2]; rfl
      · have h2 : isIllegalFilenameCharacter c = false := decide_eq_false h
        rw [if_neg h, h2]; rfl
    simp only [Function.comp, String.toList, hc, List.singleton_append]

theorem utf8Size_of_isIllegalFilenameCharacter {c : Char}
    (h : isIllegalFilenameCharacter c = true) : c.utf8Size = 1 := by
  simp only [isIllegalFilenameCharacter, decide_eq_true_eq] at h
  rcases h with h | h | h | h | h | h | h | h | h <;> subst h <;> rfl

theorem utf8ByteSize_go_map (f : Char → Char) (hf : ∀ c, (f c).utf8Size = c.utf8Size) :
    ∀ l : List Char, String.utf8ByteSize.go (l.map f) = String.utf8ByteSize.go l := by
  intro l
  induction l with
  | nil => rfl
  | cons c rest ih => simp only [List.map_cons, String.utf8ByteSize.go, ih, hf]

/-- C14: for every string `s`, `StripIllegalFilenameCharacters(s, "_")` is `s`
with `_` at every position where `s` has one of the nine characters
`< > : " / \ | ? *` and the character of `s` at every other position; it has
the same length as `s` (in characters and in bytes), contains none of the nine
characters, and applying the function again changes nothing. -/
theorem C14_StripIllegalFilenameCharacters (s : String) :
    (StripIllegalFilenameCharacters s "_").toList =
        (s.toList.map fun c => if isIllegalFilenameCharacter c then '_' else c) ∧
      (StripIllegalFilenameCharacters s "_").length = s.length ∧
      (StripIllegalFilenameCharacters s "_").utf8ByteSize = s.utf8ByteSize ∧
      (∀ i : Nat, (StripIllegalFilenameCharacters s "_").toList[i]? =
        s.toList[i]?.map fun c => if isIllegalFilenameCharacter c then '_' else c) ∧
      (∀ c ∈ (StripIllegalFilenameCharacters s "_").toList,
        isIllegalFilenameCharacter c = false) ∧
      StripIllegalFilenameCharacters (StripIllegalFilenameCharacters s "_") "_"
        = StripIllegalFilenameCharacters s "_" := by
  have hl := StripIllegalFilenameCharacters_toList s
  have hfix : ∀ c : Char, isIllegalFilenameCharacter
      (if isIllegalFilenameCharacter c then '_' else c) = false := by
    intro c
    cases hc : isIllegalFilenameCharacter c with
    | true => rfl
    | false => simpa using hc
  refine ⟨hl, ?_, ?_, ?_, ?_, ?_⟩
  · rw [String.length, ← String.toList, hl, List.length_map]; rfl
  · have h1 : (StripIllegalFilenameCharacters s "_").utf8ByteSize
        = String.utf8ByteSize.go (StripIllegalFilenameCharacters s "_").toList := by
      cases (StripIllegalFilenameCharacters s "_"); rfl
    have h2 : s.utf8ByteSize = String.utf8ByteSize.go s.toList := by
      cases s; rfl
    rw [h1, h2, hl]
    apply utf8ByteSize_go_map
    intro c
    cases hc : isIllegalFilenameCharacter c with
    | true => simp only [if_true]; rw [utf8Size_of_isIllegalFilenameCharacter hc]; rfl
    | false => simp
  · intro i
    rw [hl, List.getElem?_map]
  · intro c hc
    rw [hl, List.mem_map] at hc
    obtain ⟨c0, _, rfl⟩ := hc
    exact hfix c0
  · apply String.ext
    have h2 := StripIllegalFilenameCharacters_toList (StripIllegalFilenameCharacters s "_")
    simp only [String.toList] at h2 hl
    rw [h2, hl, List.map_map]
    apply List.map_congr_left
    intro c _
    simp only [Function.comp]
    rw [hfix c]
    simp

/-! ### `XrpRoundFloatToString` -/

theorem digitChar_toNat (d : Nat) : (digitChar d).toNat = 48 + d % 10 := by
  have h : ∀ r, r < 10 → (Char.ofNat (48 + r)).toNat = 48 + r := by decide
  exact h _ (Nat.mod_lt _ (by decide))

theorem isDecimalDigit_digitChar (d : Nat) : isDecimalDigit (digitChar d) = true := by
  have h := digitChar_toNat d
  have h2 : d % 10 < 10 := Nat.mod_lt _ (by decide)
  simp only [isDecimalDigit, decide_eq_true_eq]
  omega

theorem ne_point_of_isDecimalDigit {c : Char} (h : isDecimalDigit c = true) :
    (c != '.') = true := by
  simp only [isDecimalDigit, decide_eq_true_eq] at h
  simp only [bne_iff_ne, ne_eq]
  intro hc
  subst hc
  have h46 : '.'.toNat = 46 := rfl
  omega

theorem ne_minus_of_isDecimalDigit {c : Char} (h : isDecimalDigit c = true) : c ≠ '-' := by
  simp only [isDecimalDigit, decide_eq_true_eq] at h
  intro hc
  subst hc
  have h45 : '-'.toNat = 45 := rfl
  omega

theorem digitsValue_append_singleton (l : List Char) (c : Char) :
    digitsValue (l ++ [c]) = 10 * digitsValue l + (c.toNat - 48) := by
  simp [digitsValue, List.foldl_append]

theorem fracDigits_length : ∀ (p f : Nat), (fracDigits p f).length = p
  | 0, _ => rfl
  | p + 1, f => by simp [fracDigits, fracDigits_length p]

theorem fracDigits_digits : ∀ (p f : Nat), ∀ c ∈ fracDigits p f, isDecimalDigit c = true
  | 0, _ => by simp [fracDigits]
  | p + 1, f => by
    intro c hc
    simp only [fracDigits, List.mem_append, List.mem_singleton] at hc
    rcases hc with hc | hc
    · exact fracDigits_digits p _ c hc
    · rw [hc]; exact isDecimalDigit_digitChar f

theorem digitsValue_fracDigits (l : List Char) :
    ∀ (p f : Nat), digitsValue (l ++ fracDigits p f) = digitsValue l * 10 ^ p + f % 10 ^ p
  | 0, f => by simp [fracDigits, Nat.mod_one]
  | p + 1, f => by
    rw [fracDigits, ← List.append_assoc, digitsValue_append_singleton,
      digitsValue_fracDigits l p, digitChar_toNat, Nat.pow_succ, Nat.mul_comm (10 ^ p) 10,
      Nat.mod_mul]
    have h : 48 + f % 10 - 48 = f % 10 := by omega
    rw [h]
    ring

theorem decimalAux_spec : ∀ (fuel n : Nat) (acc : List Char), n < 10 ^ (fuel + 1) →
    ∃ ds, decimalAux (fuel + 1) n acc = ds ++ acc ∧ ds ≠ [] ∧
      (∀ c ∈ ds, isDecimalDigit c = true) ∧ digitsValue ds = n := by
  intro fuel
  induction fuel with
  | zero =>
    intro n acc hn
    have hn10 : n < 10 := by simpa using hn
    refine ⟨[digitChar n], ?_, by simp, ?_, ?_⟩
    · simp [decimalAux, hn10]
    · intro c hc
      simp only [List.mem_singleton] at hc
      rw [hc]; exact isDecimalDigit_digitChar n
    · have := digitChar_toNat n
      simp only [digitsValue, List.foldl_cons, List.foldl_nil]
      omega
  | succ fuel ih =>
    intro n acc hn
    by_cases hn10 : n < 10
    · refine ⟨[digitChar n], ?_, by simp, ?_, ?_⟩
      · rw [decimalAux]; simp [hn10]
      · intro c hc
        simp only [List.mem_singleton] at hc
        rw [hc]; exact isDecimalDigit_digitChar n
      · have := digitChar_toNat n
        simp only [digitsValue, List.foldl_cons, List.foldl_nil]
        omega
    · have hdiv : n / 10 < 10 ^ (fuel + 1) := by
        rw [Nat.div_lt_iff_lt_mul (by decide)]
        rw [Nat.pow_succ] at hn
        exact hn
      obtain ⟨ds, h1, h2, h3, h4⟩ := ih (n / 10) (digitChar n :: acc) hdiv
      refine ⟨ds ++ [digitChar n], ?_, by simp, ?_, ?_⟩
      · rw [decimalAux]; simp only [hn10, if_false]; rw [h1]; simp
      · intro c hc
        simp only [List.mem_append, List.mem_singleton] at hc
        rcases hc with hc | hc
        · exact h3 c hc
        · rw [hc]; exact isDecimalDigit_digitChar n
      · rw [digitsValue_append_singleton, h4, digitChar_toNat]
        omega

theorem decimal_spec (n : Nat) :
    decimal n ≠ [] ∧ (∀ c ∈ decimal n, isDecimalDigit c = true) ∧ digitsValue (decimal n) = n := by
  have hn : n < 10 ^ (n + 1) :=
    Nat.lt_of_lt_of_le (Nat.lt_pow_self (by decide) n) (Nat.pow_le_pow_right (by decide) (by omega))
  obtain ⟨ds, h1, h2, h3, h4⟩ := decimalAux_spec n n [] hn
  have : decimal n = ds := by rw [decimal, h1, List.append_nil]
  rw [this]
  exact ⟨h2, h3, h4⟩

theorem roundHalfEven_spec (a b : Nat) (hb : 0 < b) :
    2 * (roundHalfEven a b * b) ≤ 2 * a + b ∧ 2 * a ≤ 2 * (roundHalfEven a b * b) + b := by
  have h1 : b * (a / b) + a % b = a := Nat.div_add_mod a b
  have h2 : a % b < b := Nat.mod_lt _ hb
  have h3 : a / b * b = b * (a / b) := Nat.mul_comm _ _
  unfold roundHalfEven
  simp only
  split
  · rename_i h
    rw [Nat.add_mul, h3]
    rcases h with h | ⟨h, _⟩ <;> constructor <;> omega
  · rename_i h
    rw [h3]
    have h4 : ¬ b < 2 * (a % b) := fun hc => h (Or.inl hc)
    constructor <;> omega

theorem parseUnsigned_fixed (i f p : Nat) :
    parseUnsigned (decimal i ++ (if p = 0 then [] else '.' :: fracDigits p f))
      = some (i * 10 ^ p + f % 10 ^ p, p) := by
  obtain ⟨hne, hdig, hval⟩ := decimal_spec i
  have hnp : ∀ c ∈ decimal i, (c != '.') = true := fun c hc => ne_point_of_isDecimalDigit (hdig c hc)
  have hall : (decimal i).all isDecimalDigit = true := List.all_eq_true.2 hdig
  have hempty : (decimal i).isEmpty = false := by
    cases h : decimal i with
    | nil => exact absurd h hne
    | cons _ _ => rfl
  by_cases hp : p = 0
  · subst hp
    have htake : (decimal i).takeWhile (fun c => c != '.') = decimal i :=
      List.takeWhile_eq_self_iff.2 hnp
    have hdrop : (decimal i).dropWhile (fun c => c != '.') = [] :=
      List.dropWhile_eq_nil_iff.2 hnp
    simp only [if_true, List.append_nil, parseUnsigned, htake, hdrop, hempty, hall,
      Bool.not_true, Bool.or_self, Bool.false_eq_true, if_false, hval, Nat.pow_zero, Nat.mul_one,
      Nat.mod_one, Nat.add_zero]
  · have htake : (decimal i ++ '.' :: fracDigits p f).takeWhile (fun c => c != '.') = decimal i := by
      rw [List.takeWhile_append_of_pos hnp]
      simp
    have hdrop : (decimal i ++ '.' :: fracDigits p f).dropWhile (fun c => c != '.')
        = '.' :: fracDigits p f := by
      rw [List.dropWhile_append_of_pos hnp]
      simp
    have hfall : (fracDigits p f).all isDecimalDigit = true :=
      List.all_eq_true.2 (fracDigits_digits p f)
    have hfempty : (fracDigits p f).isEmpty = false := by
      have hlen := fracDigits_length p f
      cases h : fracDigits p f with
      | nil => rw [h] at hlen; exact absurd hlen.symm hp
      | cons _ _ => rfl
    simp only [hp, if_false, parseUnsigned, htake, hdrop, hempty, hall, hfempty, hfall,
      Bool.not_true, Bool.or_self, Bool.false_eq_true, digitsValue_fracDigits, hval,
      fracDigits_length]

theorem parseFixed_signed (sign : Bool) {body : List Char} {c : Char} {rest : List Char}
    (hbody : body = c :: rest) (hc : c ≠ '-') :
    parseFixed ((if sign then ['-'] else []) ++ body)
      = (parseUnsigned body).map fun r => (sign, r.1, r.2) := by
  cases sign
  · subst hbody
    have : [c].head? ≠ some '-' := by simpa using hc
    simp [parseFixed, hc]
  · simp [parseFixed]

/-- What `XrpRoundFloatToString` writes for a finite value and a precision that
is not negative. -/
theorem XrpRoundFloatToString_finite {value : F32} (hfin : value.isFinite = true)
    {precision : Int} (hprec : 0 ≤ precision) :
    (XrpRoundFloatToString value precision).toList =
      (if value.sign then ['-'] else []) ++
        (decimal (roundHalfEven (value.mag * 10 ^ precision.toNat) (2 ^ 149)
            / 10 ^ precision.toNat) ++
          (if precision.toNat = 0 then []
            else '.' :: fracDigits precision.toNat
              (roundHalfEven (value.mag * 10 ^ precision.toNat) (2 ^ 149)
                % 10 ^ precision.toNat))) := by
  have hnan := F32.isNaN_of_isFinite hfin
  have hinf := F32.isInf_of_isFinite hfin
  have hp : ¬ precision < 0 := by omega
  simp only [XrpRoundFloatToString, fixedFormat, hnan, hinf, hp, Bool.false_eq_true, if_false,
    String.toList, List.append_assoc]

/-- C18 (as stated, refuted): a NaN is written as `nan` and a negative infinity
as `-inf`, neither of which reads as a decimal; and for the precision -1 the
value 1 is written with six digits after the decimal point. -/
theorem C18_counterexample_not_finite :
    XrpRoundFloatToString F32.qnan 3 = "nan" ∧
      parseFixed (XrpRoundFloatToString F32.qnan 3).toList = none ∧
      XrpRoundFloatToString (F32.inf true) 2 = "-inf" ∧
      XrpRoundFloatToString F32.one (-1) = "1.000000" := by
  decide

/-- C18 (amended): for every finite value `v` and every precision `p ≥ 0`,
`XrpRoundFloatToString(v, p)` is a fixed-point decimal string, with a minus
sign exactly when the sign bit of `v` is set and with exactly `p` digits after
the decimal point (no decimal point when `p = 0`), that denotes a multiple
`n / 10^p` of `10^-p` nearest to the magnitude `mag / 2^149` of `v`:
`|n * 2^149 - mag * 10^p| ≤ 2^149 / 2`. `GetOutput` writes X, Y, Z of a
position with `p = 3` and W, X, Y, Z of an orientation with `p = 2`; `0.1f` is
written `0.100` and `-0.1f` is written `-0.100`. -/
theorem C18_XrpRoundFloatToString (v : F32) (p : Int) (hfin : v.isFinite = true)
    (hp : 0 ≤ p) :
    (∃ n, parseFixed (XrpRoundFloatToString v p).toList = some (v.sign, n, p.toNat) ∧
      2 * (n * 2 ^ 149) ≤ 2 * (v.mag * 10 ^ p.toNat) + 2 ^ 149 ∧
      2 * (v.mag * 10 ^ p.toNat) ≤ 2 * (n * 2 ^ 149) + 2 ^ 149) ∧
    (∀ (info : PoseOutputInfo) (pose_info : PoseInfo) (reference : Option ReferencePoseNode),
      (positionNode info pose_info reference).children =
          [MakeNode "X" (XrpRoundFloatToString pose_info.pose.position.x 3),
           MakeNode "Y" (XrpRoundFloatToString pose_info.pose.position.y 3),
           MakeNode "Z" (XrpRoundFloatToString pose_info.pose.position.z 3)] ∧
        (orientationNode info pose_info reference).children =
          [MakeNode "W" (XrpRoundFloatToString pose_info.pose.orientation.w 2),
           MakeNode "X" (XrpRoundFloatToString pose_info.pose.orientation.x 2),
           MakeNode "Y" (XrpRoundFloatToString pose_info.pose.orientation.y 2),
           MakeNode "Z" (XrpRoundFloatToString pose_info.pose.orientation.z 2)]) ∧
    XrpRoundFloatToString F32.c0_1 3 = "0.100" ∧
    XrpRoundFloatToString (F32.neg F32.c0_1) 3 = "-0.100" := by
  refine ⟨?_, fun _ _ _ => ⟨rfl, rfl⟩, by decide, by decide⟩
  refine ⟨roundHalfEven (v.mag * 10 ^ p.toNat) (2 ^ 149), ?_,
    roundHalfEven_spec _ _ (Nat.pow_pos (by decide))⟩
  rw [XrpRoundFloatToString_finite hfin hp]
  obtain ⟨hne, hdig, _⟩ :=
    decimal_spec (roundHalfEven (v.mag * 10 ^ p.toNat) (2 ^ 149) / 10 ^ p.toNat)
  cases hd : decimal (roundHalfEven (v.mag * 10 ^ p.toNat) (2 ^ 149) / 10 ^ p.toNat) with
  | nil => exact absurd hd hne
  | cons c rest =>
    have hc : c ≠ '-' := ne_minus_of_isDecimalDigit (hdig c (by rw [hd]; exact List.mem_cons_self _ _))
    rw [parseFixed_signed v.sign (List.cons_append _ _ _) hc, ← hd, parseUnsigned_fixed,
      Nat.mod_mod, Nat.div_add_mod']
    rfl

/-- C18 witness: `0.1f` is finite and 3 is not negative; `0.100` reads as
100 / 10^3 without a minus sign, and 100 / 10^3 is the multiple of 10^-3
nearest to `0.1f`. -/
theorem C18_XrpRoundFloatToString_witness :
    F32.c0_1.isFinite = true ∧ (0 : Int) ≤ 3 ∧
      XrpRoundFloatToString F32.c0_1 3 = "0.100" ∧
      parseFixed "0.100".toList = some (false, 100, 3) ∧
      ∃ n, parseFixed (XrpRoundFloatToString F32.c0_1 3).toList = some (false, n, 3) ∧
        2 * (n * 2 ^ 149) ≤ 2 * (F32.c0_1.mag * 10 ^ 3) + 2 ^ 149 ∧
        2 * (F32.c0_1.mag * 10 ^ 3) ≤ 2 * (n * 2 ^ 149) + 2 ^ 149 :=
  ⟨by decide, by decide, by decide, by decide,
    (C18_XrpRoundFloatToString F32.c0_1 3 (by decide) (by decide)).1⟩

/-! ### `InputItemSet::GetOutput`: the documents it builds -/

theorem profileDocument_append_same (env : Env) (info : PoseOutputInfo) (pose_info : PoseInfo)
    (samples : List (PoseOutputInfo × PoseInfo)) :
    appendToInputs (profileDocument env pose_info.interaction_profile samples)
        (poseNode info pose_info (referenceFor env pose_info))
      = profileDocument env pose_info.interaction_profile (samples ++ [(info, pose_info)]) := by
  simp [profileDocument, appendToInputs, List.filter_append, List.filter_cons]

theorem profileDocument_append_other (env : Env) (info : PoseOutputInfo) (pose_info : PoseInfo)
    (samples : List (PoseOutputInfo × PoseInfo)) {k : String}
    (hk : k ≠ pose_info.interaction_profile) :
    profileDocument env k (samples ++ [(info, pose_info)]) = profileDocument env k samples := by
  simp [profileDocument, List.filter_append, List.filter_cons, Ne.symm hk]

theorem profileDocument_fresh (env : Env) (samples : List (PoseOutputInfo × PoseInfo))
    {k : String} (hk : k ∉ samples.map (fun s => s.2.interaction_profile)) :
    profileDocument env k samples
      = [{ name := "inputs", attributes := [{ name := "interaction_profile", value := k }],
           children := [] }] := by
  have : (samples.filter fun s => s.2.interaction_profile = k) = [] := by
    rw [List.filter_eq_nil_iff]
    intro s hs hc
    apply hk
    simp only [decide_eq_true_eq] at hc
    exact List.mem_map.2 ⟨s, hs, hc⟩
  simp [profileDocument, this]

theorem FilesSpec_nil (env : Env) : FilesSpec env [] [] := by
  refine ⟨List.Pairwise.nil, ?_, ?_⟩
  · intro k; simp [StdMap.find]
  · intro s hs; cases hs

theorem InputItemSet.GetOutputPose_spec {env : Env} {info : PoseOutputInfo}
    {files files1 : StdMap ItemFile} {pose_info : PoseInfo}
    {samples : List (PoseOutputInfo × PoseInfo)}
    (hspec : FilesSpec env samples files)
    (h : InputItemSet.GetOutputPose env info files pose_info = some files1) :
    FilesSpec env (samples ++ [(info, pose_info)]) files1 := by
  obtain ⟨hs, hfind, hsafe⟩ := hspec
  have hopen : ∃ files0 nm,
      (if StdMap.contains files pose_info.interaction_profile then some files
        else
          match interactionProfileSafe pose_info.interaction_profile with
          | none => none
          | some safe_name =>
            some (StdMap.assign files pose_info.interaction_profile
              { name := safe_name,
                document :=
                  [{ name := "inputs",
                     attributes :=
                       [{ name := "interaction_profile", value := pose_info.interaction_profile }],
                     children := [] }] })) = some files0 ∧
      StdMap.Sorted files0 ∧ interactionProfileSafe pose_info.interaction_profile = some nm ∧
      StdMap.find files0 pose_info.interaction_profile
        = some { document := profileDocument env pose_info.interaction_profile samples,
                 name := nm } ∧
      ∀ k, k ≠ pose_info.interaction_profile → StdMap.find files0 k = StdMap.find files k := by
    by_cases hc : StdMap.contains files pose_info.interaction_profile = true
    · have hf := hfind pose_info.interaction_profile
      simp only [StdMap.contains] at hc
      by_cases hmem : pose_info.interaction_profile
          ∈ samples.map (fun s => s.2.interaction_profile)
      · rw [if_pos hmem] at hf
        cases hsf : interactionProfileSafe pose_info.interaction_profile with
        | none => rw [hsf] at hf; rw [hf] at hc; cases hc
        | some nm =>
          rw [hsf] at hf
          refine ⟨files, nm, ?_, hs, rfl, hf, fun _ _ => rfl⟩
          simp [StdMap.contains, hc]
      · rw [if_neg hmem] at hf; rw [hf] at hc; cases hc
    · have hf := hfind pose_info.interaction_profile
      have hmem : pose_info.interaction_profile
          ∉ samples.map (fun s => s.2.interaction_profile) := by
        intro hmem
        rw [if_pos hmem] at hf
        obtain ⟨s, hsmem, hseq⟩ := List.mem_map.1 hmem
        have h1 := hsafe s hsmem
        rw [hseq] at h1
        cases hsf : interactionProfileSafe pose_info.interaction_profile with
        | none => rw [hsf] at h1; cases h1
        | some nm =>
          rw [hsf] at hf
          apply hc
          simp [StdMap.contains, hf]
      simp only [hc] at h ⊢
      unfold InputItemSet.GetOutputPose at h
      simp only [hc] at h
      cases hsf : interactionProfileSafe pose_info.interaction_profile with
      | none => rw [hsf] at h; simp at h
      | some nm =>
        refine ⟨_, nm, rfl, StdMap.sorted_assign hs _ _, rfl, ?_, ?_⟩
        · rw [StdMap.find_assign_self, profileDocument_fresh env samples hmem]
        · intro k hk
          exact StdMap.find_assign_ne _ _ hk
  obtain ⟨files0, nm, hopen, hs0, hnm, hf0, hother⟩ := hopen
  unfold InputItemSet.GetOutputPose at h
  simp only [hopen] at h
  have hwrite : files1 = StdMap.assign files0 pose_info.interaction_profile
      { document := profileDocument env pose_info.interaction_profile
          (samples ++ [(info, pose_info)]), name := nm } := by
    cases hsel : selectReferencePose env
        (LoadReferenceXMLDocument env pose_info.interaction_profile).2
        pose_info.action_name pose_info.base pose_info.binding_path with
    | threw => rw [hsel] at h; simp at h
    | empty =>
      rw [hsel] at h
      simp only [hf0, Option.some.injEq] at h
      rw [← h, ← profileDocument_append_same]
      simp [referenceFor, hsel]
    | node n =>
      rw [hsel] at h
      simp only [hf0, Option.some.injEq] at h
      rw [← h, ← profileDocument_append_same]
      simp [referenceFor, hsel]
  subst hwrite
  refine ⟨StdMap.sorted_assign hs0 _ _, ?_, ?_⟩
  · intro k
    by_cases hk : k = pose_info.interaction_profile
    · subst hk
      rw [StdMap.find_assign_self]
      simp [hnm]
    · rw [StdMap.find_assign_ne _ _ hk, hother k hk, hfind k]
      simp only [List.map_append, List.map_cons, List.map_nil, List.mem_append,
        List.mem_singleton, hk, or_false, profileDocument_append_other env info pose_info samples hk]
  · intro s hs1
    rcases List.mem_append.1 hs1 with hs1 | hs1
    · exact hsafe s hs1
    · simp only [List.mem_singleton] at hs1
      rw [hs1, hnm]; rfl

theorem InputItemSet.GetOutputPoses_spec {env : Env} {info : PoseOutputInfo} :
    ∀ (l : List PoseInfo) (samples : List (PoseOutputInfo × PoseInfo))
      (files files1 : StdMap ItemFile),
      FilesSpec env samples files →
      InputItemSet.GetOutputPoses env info l files = some files1 →
      FilesSpec env (samples ++ l.map fun pose_info => (info, pose_info)) files1 := by
  intro l
  induction l with
  | nil =>
    intro samples files files1 hspec h
    simp only [InputItemSet.GetOutputPoses, Option.some.injEq] at h
    subst h
    simpa using hspec
  | cons pose_info rest ih =>
    intro samples files files1 hspec h
    simp only [InputItemSet.GetOutputPoses] at h
    split at h
    · cases h
    · rename_i files0 hstep
      have h1 := ih _ _ _ (InputItemSet.GetOutputPose_spec hspec hstep) h
      simpa using h1

/-- The outer loop of `GetOutput`, when it returns `true`: the map holds the
documents of the samples taken, and every entry visited under a non-empty key
held an action on which `GetPoseInfo` returned `true`. -/
theorem InputItemSet.GetOutputLoop_spec {env : Env} {context : XrpContext}
    {poses : StdMap (Option PoseInput)} :
    ∀ (todo : List (String × Option PoseInput)) (samples : List (PoseOutputInfo × PoseInfo))
      (files files1 : StdMap ItemFile),
      FilesSpec env samples files →
      InputItemSet.GetOutputLoop env context poses todo files = .ret true files1 →
      FilesSpec env (samples ++ InputItemSet.sampledPoses env context poses todo) files1 ∧
        ∀ e ∈ todo, e.1 ≠ "" → ∃ p info, e.2 = some p ∧
          PoseInput.GetPoseInfo env.rt context poses p (PoseOutputInfo.uninitialized env)
            = .ret true info := by
  intro todo
  induction todo with
  | nil =>
    intro samples files files1 hspec h
    simp only [InputItemSet.GetOutputLoop, Outcome.ret.injEq, true_and] at h
    subst h
    refine ⟨by simpa [InputItemSet.sampledPoses] using hspec, ?_⟩
    intro e he; cases he
  | cons entry rest ih =>
    intro samples files files1 hspec h
    obtain ⟨key, pose⟩ := entry
    simp only [InputItemSet.GetOutputLoop] at h
    by_cases hkey : key = ""
    · simp only [hkey, if_true] at h
      obtain ⟨h1, h2⟩ := ih _ _ _ hspec h
      refine ⟨?_, ?_⟩
      · simpa [InputItemSet.sampledPoses, InputItemSet.samplesOf, hkey] using h1
      · intro e he hne
        rcases List.mem_cons.1 he with he | he
        · subst he; exact absurd hkey hne
        · exact h2 e he hne
    · simp only [hkey, if_false] at h
      cases pose with
      | none => simp at h
      | some p =>
        simp only at h
        cases hget : PoseInput.GetPoseInfo env.rt context poses p
            (PoseOutputInfo.uninitialized env) with
        | abnormal => rw [hget] at h; simp at h
        | ret ok info =>
          cases ok with
          | false => rw [hget] at h; simp at h
          | true =>
            rw [hget] at h
            simp only at h
            split at h
            · cases h
            · rename_i files0 hposes
              obtain ⟨h1, h2⟩ := ih _ _ _ (InputItemSet.GetOutputPoses_spec _ _ _ _ hspec hposes) h
              refine ⟨?_, ?_⟩
              · simpa [InputItemSet.sampledPoses, InputItemSet.samplesOf, hkey, hget,
                  List.append_assoc] using h1
              · intro e he hne
                rcases List.mem_cons.1 he with he | he
                · subst he; exact ⟨p, info, rfl, hget⟩
                · exact h2 e he hne

/-- A successful `GetOutput` appends to `out_itemset` the files of a map that
holds the documents of the sampled poses, and `GetPoseInfo` returned `true` on
every action held under a non-empty key. -/
theorem InputItemSet.GetOutput_spec {env : Env} {context : XrpContext}
    {self : InputItemSet} {out_itemset out : ItemSetOutput}
    (h : InputItemSet.GetOutput env context self out_itemset = .ret true out) :
    ∃ files, FilesSpec env (InputItemSet.sampledPoses env context self.poses_ self.poses_) files ∧
      out.output_files = out_itemset.output_files ++ files.map (fun e => e.2) ∧
      ∀ e ∈ self.poses_, e.1 ≠ "" → ∃ p info, e.2 = some p ∧
        PoseInput.GetPoseInfo env.rt context self.poses_ p (PoseOutputInfo.uninitialized env)
          = .ret true info := by
  unfold InputItemSet.GetOutput at h
  split at h
  · split at h
    · cases h
    · simp at h
    · rename_i files hloop
      obtain ⟨h1, h2⟩ := InputItemSet.GetOutputLoop_spec _ _ _ _ (FilesSpec_nil env) hloop
      simp only [Outcome.ret.injEq, true_and] at h
      refine ⟨files, by simpa using h1, ?_, h2⟩
      rw [← h]
  · simp at h

theorem StdMap.nodup_keys {T : Type} {m : StdMap T} (hs : StdMap.Sorted m) :
    (m.map fun e => e.1).Nodup := by
  unfold StdMap.Sorted at hs
  rw [List.Nodup, List.pairwise_map]
  exact hs.imp fun h => strLt_ne h

/-- What `FilesSpec` says of the entries of the map: their keys are the
interaction profiles among the samples, each once, and every entry holds the
document of its profile under the file name made from the profile string. -/
theorem FilesSpec.entries {env : Env} {samples : List (PoseOutputInfo × PoseInfo)}
    {files : StdMap ItemFile} (h : FilesSpec env samples files) :
    (files.map fun e => e.1).Nodup ∧
      (∀ k, k ∈ files.map (fun e => e.1) ↔ k ∈ samples.map fun s => s.2.interaction_profile) ∧
      ∀ e ∈ files, e.2.document = profileDocument env e.1 samples ∧
        interactionProfileSafe e.1 = some e.2.name := by
  obtain ⟨hs, hfind, hsafe⟩ := h
  have hentry : ∀ e ∈ files, e.1 ∈ samples.map (fun s => s.2.interaction_profile) ∧
      e.2.document = profileDocument env e.1 samples ∧
      interactionProfileSafe e.1 = some e.2.name := by
    intro e he
    obtain ⟨k, file⟩ := e
    have hf := StdMap.find_of_mem hs he
    rw [hfind k] at hf
    split at hf
    · rename_i hmem
      cases hsf : interactionProfileSafe k with
      | none => rw [hsf] at hf; cases hf
      | some nm =>
        rw [hsf] at hf
        simp only [Option.map_some', Option.some.injEq] at hf
        rw [← hf]
        exact ⟨hmem, rfl, rfl⟩
    · cases hf
  refine ⟨StdMap.nodup_keys hs, ?_, fun e he => (hentry e he).2⟩
  intro k
  constructor
  · intro hk
    obtain ⟨e, he, rfl⟩ := List.mem_map.1 hk
    exact (hentry e he).1
  · intro hk
    have hf := hfind k
    rw [if_pos hk] at hf
    obtain ⟨s, hsmem, hseq⟩ := List.mem_map.1 hk
    have h1 := hsafe s hsmem
    rw [hseq] at h1
    cases hsf : interactionProfileSafe k with
    | none => rw [hsf] at h1; cases h1
    | some nm =>
      rw [hsf] at hf
      exact List.mem_map.2 ⟨_, StdMap.mem_of_find hf, rfl⟩

theorem FilesSpec.length {env : Env} {samples : List (PoseOutputInfo × PoseInfo)}
    {files : StdMap ItemFile} (h : FilesSpec env samples files) :
    files.length = (samples.map fun s => s.2.interaction_profile).dedup.length := by
  obtain ⟨hnd, hmem, _⟩ := h.entries
  have hperm : (files.map fun e => e.1).Perm
      (samples.map fun s => s.2.interaction_profile).dedup := by
    rw [List.perm_ext_iff_of_nodup hnd (List.nodup_dedup _)]
    intro k
    rw [hmem k, List.mem_dedup]
  have := hperm.length_eq
  simpa using this

/-- Every sample has its `pose` element in the document of its profile. -/
theorem FilesSpec.sample_mem {env : Env} {samples : List (PoseOutputInfo × PoseInfo)}
    {files : StdMap ItemFile} (h : FilesSpec env samples files)
    {s : PoseOutputInfo × PoseInfo} (hs : s ∈ samples) :
    ∃ e ∈ files, e.1 = s.2.interaction_profile ∧
      e.2.document = profileDocument env s.2.interaction_profile samples ∧
      ∃ n ∈ e.2.document, poseNode s.1 s.2 (referenceFor env s.2) ∈ n.children := by
  obtain ⟨_, hmem, hdoc⟩ := h.entries
  have hk : s.2.interaction_profile ∈ files.map (fun e => e.1) :=
    (hmem _).2 (List.mem_map.2 ⟨s, hs, rfl⟩)
  obtain ⟨e, he, hek⟩ := List.mem_map.1 hk
  have hd := (hdoc e he).1
  rw [hek] at hd
  refine ⟨e, he, hek, hd, ?_⟩
  rw [hd]
  refine ⟨_, List.mem_singleton.2 rfl, ?_⟩
  simp only [profileDocument]
  exact List.mem_map.2 ⟨s, List.mem_filter.2 ⟨hs, by simp⟩, rfl⟩

theorem InputItemSet.mem_sampledPoses {env : Env} {context : XrpContext}
    {poses : StdMap (Option PoseInput)} {entries : List (String × Option PoseInput)}
    {key : String} {p : PoseInput} {info : PoseOutputInfo} {pose_info : PoseInfo}
    (he : (key, some p) ∈ entries) (hkey : key ≠ "")
    (hget : PoseInput.GetPoseInfo env.rt context poses p (PoseOutputInfo.uninitialized env)
      = .ret true info)
    (hp : pose_info ∈ info.pose_infos) :
    (info, pose_info) ∈ InputItemSet.sampledPoses env context poses entries := by
  unfold InputItemSet.sampledPoses
  rw [List.mem_flatMap]
  refine ⟨_, he, ?_⟩
  simp only [InputItemSet.samplesOf, hkey, if_false, hget]
  exact List.mem_map.2 ⟨pose_info, hp, rfl⟩

theorem InputItemSet.of_mem_sampledPoses {env : Env} {context : XrpContext}
    {poses : StdMap (Option PoseInput)} {entries : List (String × Option PoseInput)}
    {s : PoseOutputInfo × PoseInfo}
    (hs : s ∈ InputItemSet.sampledPoses env context poses entries) :
    ∃ key p, (key, some p) ∈ entries ∧ key ≠ "" ∧
      PoseInput.GetPoseInfo env.rt context poses p (PoseOutputInfo.uninitialized env)
        = .ret true s.1 ∧ s.2 ∈ s.1.pose_infos := by
  unfold InputItemSet.sampledPoses at hs
  rw [List.mem_flatMap] at hs
  obtain ⟨⟨key, pose⟩, he, hmem⟩ := hs
  simp only [InputItemSet.samplesOf] at hmem
  split at hmem
  · cases hmem
  · rename_i hkey
    split at hmem
    · cases hmem
    · rename_i p
      split at hmem
      · rename_i info hget
        obtain ⟨pose_info, hp, rfl⟩ := List.mem_map.1 hmem
        exact ⟨key, p, he, hkey, hget, hp⟩
      · cases hmem

theorem InputItemSet.GetOutputLoop_append {env : Env} {context : XrpContext}
    {poses : StdMap (Option PoseInput)} :
    ∀ (pre rest : List (String × Option PoseInput)) (files files1 : StdMap ItemFile),
      InputItemSet.GetOutputLoop env context poses pre files = .ret true files1 →
      InputItemSet.GetOutputLoop env context poses (pre ++ rest) files
        = InputItemSet.GetOutputLoop env context poses rest files1 := by
  intro pre
  induction pre with
  | nil =>
    intro rest files files1 h
    simp only [InputItemSet.GetOutputLoop, Outcome.ret.injEq, true_and] at h
    subst h; rfl
  | cons entry pre ih =>
    intro rest files files1 h
    obtain ⟨key, pose⟩ := entry
    simp only [List.cons_append, InputItemSet.GetOutputLoop] at h ⊢
    by_cases hkey : key = ""
    · simp only [hkey, if_true] at h ⊢
      exact ih rest files files1 h
    · simp only [hkey, if_false] at h ⊢
      cases pose with
      | none => simp at h
      | some p =>
        simp only at h ⊢
        cases hget : PoseInput.GetPoseInfo env.rt context poses p
            (PoseOutputInfo.uninitialized env) with
        | abnormal => rw [hget] at h; simp at h
        | ret ok info =>
          cases ok with
          | false => rw [hget] at h; simp at h
          | true =>
            rw [hget] at h
            simp only at h ⊢
            cases hg : InputItemSet.GetOutputPoses env info info.pose_infos files with
            | none => rw [hg] at h; simp at h
            | some files0 =>
              rw [hg] at h
              simp only at h ⊢
              exact ih rest files0 files1 h

/-! ### `InputItemSet::GetOutput`: all or nothing -/

/-- C13: `GetOutput` is all-or-nothing. If `xrSyncActions` fails it returns
`false` with `out_itemset` as it was. If the pass reaches an action on which
`GetPoseInfo` returns `false`, it returns `false` with `out_itemset` as it was,
whatever the actions before have contributed; so when `GetPoseInfo` returns
`false` on any action of the set, every result `GetOutput` returns is `false`
with `out_itemset` as it was. Whenever it returns `false`, `out_itemset` is as
it was. If it returns `true`, `GetPoseInfo` returned `true` on every action,
every non-reference action has one sample per subaction path, and every sample
has its `pose` element in a document appended to `out_itemset`. -/
theorem C13_GetOutput_all_or_nothing (env : Env) (context : XrpContext) (self : InputItemSet)
    (out_itemset : ItemSetOutput) :
    (XR_UNQUALIFIED_SUCCESS (env.rt.xrSyncActions self.action_set_) = false →
      InputItemSet.GetOutput env context self out_itemset = .ret false out_itemset) ∧
    (∀ pre key p rest files out0, self.poses_ = pre ++ (key, some p) :: rest → key ≠ "" →
      InputItemSet.GetOutputLoop env context self.poses_ pre [] = .ret true files →
      PoseInput.GetPoseInfo env.rt context self.poses_ p (PoseOutputInfo.uninitialized env)
        = .ret false out0 →
      InputItemSet.GetOutput env context self out_itemset = .ret false out_itemset) ∧
    (∀ key p out0, (key, some p) ∈ self.poses_ → key ≠ "" →
      PoseInput.GetPoseInfo env.rt context self.poses_ p (PoseOutputInfo.uninitialized env)
        = .ret false out0 →
      ∀ ok out, InputItemSet.GetOutput env context self out_itemset = .ret ok out →
        ok = false ∧ out = out_itemset) ∧
    (∀ out, InputItemSet.GetOutput env context self out_itemset = .ret false out →
      out = out_itemset) ∧
    (∀ out, InputItemSet.GetOutput env context self out_itemset = .ret true out →
      ∃ docs, out.output_files = out_itemset.output_files ++ docs ∧
        ∀ key p, (key, some p) ∈ self.poses_ → key ≠ "" →
          ∃ info,
            PoseInput.GetPoseInfo env.rt context self.poses_ p (PoseOutputInfo.uninitialized env)
              = .ret true info ∧
            (p.action_info_.reference = false →
              info.pose_infos.length = p.action_info_.subaction_paths.length) ∧
            ∀ pose_info ∈ info.pose_infos, ∃ doc ∈ docs, ∃ n ∈ doc.document,
              poseNode info pose_info (referenceFor env pose_info) ∈ n.children) := by
  have hfalse : ∀ out, InputItemSet.GetOutput env context self out_itemset = .ret false out →
      out = out_itemset := by
    intro out h
    unfold InputItemSet.GetOutput at h
    split at h
    · split at h
      · cases h
      · simp only [Outcome.ret.injEq, true_and] at h; exact h.symm
      · simp at h
    · simp only [Outcome.ret.injEq, true_and] at h; exact h.symm
  refine ⟨?_, ?_, ?_, hfalse, ?_⟩
  · intro hsync
    simp [InputItemSet.GetOutput, hsync]
  · intro pre key p rest files out0 hsplit hkey hpre hget
    have hloop : InputItemSet.GetOutputLoop env context self.poses_ self.poses_ []
        = .ret false files := by
      have h1 := congrArg (fun l => InputItemSet.GetOutputLoop env context self.poses_ l [])
        hsplit
      simp only at h1
      rw [h1, InputItemSet.GetOutputLoop_append pre _ [] files hpre]
      simp only [InputItemSet.GetOutputLoop, hkey, if_false, hget]
    unfold InputItemSet.GetOutput
    rw [hloop]
    split <;> rfl
  · intro key p out0 hmem hkey hget ok out h
    cases ok with
    | false => exact ⟨rfl, hfalse out h⟩
    | true =>
      obtain ⟨_, _, _, hall⟩ := InputItemSet.GetOutput_spec h
      obtain ⟨p1, info, hp1, hget1⟩ := hall (key, some p) hmem hkey
      simp only [Option.some.injEq] at hp1
      subst hp1
      rw [hget] at hget1
      cases hget1
  · intro out h
    obtain ⟨files, hspec, hout, hall⟩ := InputItemSet.GetOutput_spec h
    refine ⟨files.map (fun e => e.2), hout, ?_⟩
    intro key p hmem hkey
    obtain ⟨p1, info, hp1, hget⟩ := hall (key, some p) hmem hkey
    simp only [Option.some.injEq] at hp1
    subst hp1
    refine ⟨info, hget, ?_, ?_⟩
    · intro href
      rcases PoseInput.GetPoseInfo_result hget with ⟨h1, _⟩ | ⟨_, h2, _⟩
      · rw [href] at h1; cases h1
      · exact h2
    · intro pose_info hp
      obtain ⟨e, he, _, _, n, hn, hnode⟩ :=
        hspec.sample_mem (InputItemSet.mem_sampledPoses hmem hkey hget hp)
      exact ⟨e.2, List.mem_map.2 ⟨e, he, rfl⟩, n, hn, hnode⟩

/-- C13 witness: in `exTwoSet` the pass samples `aim` and then reaches `grip`.
With a runtime that reports `grip` as not active `GetOutput` returns `false` and
the file the caller already holds is all there is; with a runtime that
reports both actions active it returns `true`. -/
theorem C13_GetOutput_all_or_nothing_witness :
    InputItemSet.GetOutputLoop exEnvGripInactive exContext exTwoSet.poses_
        [("", none), ("aim", some exAimPlain)] [] = .ret true exAimFiles ∧
      PoseInput.GetPoseInfo exEnvGripInactive.rt exContext exTwoSet.poses_ exGrip
        (PoseOutputInfo.uninitialized exEnvGripInactive)
        = .ret false (PoseOutputInfo.uninitialized exEnvGripInactive) ∧
      InputItemSet.GetOutput exEnvGripInactive exContext exTwoSet exEarlierOutput
        = .ret false exEarlierOutput ∧
      (InputItemSet.GetOutput (exEnv exLeftPose exRightPose 3) exContext exTwoSet
        exEarlierOutput).value?.map (fun out => out.output_files.length) = some 2 :=
  ⟨by decide, by decide,
    (C13_GetOutput_all_or_nothing exEnvGripInactive exContext exTwoSet exEarlierOutput).2.1
      [("", none), ("aim", some exAimPlain)] "grip" exGrip [] exAimFiles
      (PoseOutputInfo.uninitialized exEnvGripInactive) rfl (by decide) (by decide) (by decide),
    by decide⟩

/-! ### `InputItemSet::GetOutput`: one document per interaction profile -/

theorem attributeValue_pose_base (info : PoseOutputInfo) (pose_info : PoseInfo)
    (reference : Option ReferencePoseNode) :
    attributeValue (poseNode info pose_info reference).attributes "base" =
      some pose_info.base := by
  simp [attributeValue, poseNode, List.find?]

theorem attributeValue_pose_binding_path (info : PoseOutputInfo) (pose_info : PoseInfo)
    (reference : Option ReferencePoseNode) :
    attributeValue (poseNode info pose_info reference).attributes "binding_path" =
      some pose_info.binding_path := by
  simp [attributeValue, poseNode, List.find?]

/-- C15: for every successful `GetOutput`, the documents appended to
`out_itemset` are one per interaction profile among the sampled poses: their
number is the number of distinct profile strings, and they are the documents
of pairwise distinct profiles `k` that are exactly the profiles of the samples.
The document of `k` is one `inputs` element that carries `k` in its
`interaction_profile` attribute and holds exactly the `pose` elements of the
samples of profile `k`, one for each in the order sampled; a `pose` element
carries the `name`, `base` and `binding_path` of its sample. -/
theorem C15_one_document_per_profile (env : Env) (context : XrpContext) (self : InputItemSet)
    (out_itemset out : ItemSetOutput)
    (h : InputItemSet.GetOutput env context self out_itemset = .ret true out) :
    ∃ (docs : List ItemFile) (profiles : List String),
      out.output_files = out_itemset.output_files ++ docs ∧
      docs.length =
        ((InputItemSet.sampledPoses env context self.poses_ self.poses_).map
          fun s => s.2.interaction_profile).dedup.length ∧
      profiles.Nodup ∧
      (∀ k, k ∈ profiles ↔
        ∃ s ∈ InputItemSet.sampledPoses env context self.poses_ self.poses_,
          s.2.interaction_profile = k) ∧
      docs.map (fun file => file.document) =
        profiles.map (fun k =>
          [{ name := "inputs",
             attributes := [{ name := "interaction_profile", value := k }],
             children :=
               ((InputItemSet.sampledPoses env context self.poses_ self.poses_).filter
                 fun s => s.2.interaction_profile = k).map fun s =>
                   poseNode s.1 s.2 (referenceFor env s.2) }]) ∧
      (∀ k, attributeValue
        ([{ name := "interaction_profile", value := k }] : List XmlAttribute)
        "interaction_profile" = some k) ∧
      ∀ (info : PoseOutputInfo) (pose_info : PoseInfo) (reference : Option ReferencePoseNode),
        (poseNode info pose_info reference).name = "pose" ∧
        attributeValue (poseNode info pose_info reference).attributes "name"
          = some pose_info.action_name ∧
        attributeValue (poseNode info pose_info reference).attributes "base"
          = some pose_info.base ∧
        attributeValue (poseNode info pose_info reference).attributes "binding_path"
          = some pose_info.binding_path := by
  obtain ⟨files, hspec, hout, _⟩ := InputItemSet.GetOutput_spec h
  obtain ⟨hnd, hmem, hdoc⟩ := hspec.entries
  refine ⟨files.map (fun e => e.2), files.map (fun e => e.1), hout, ?_, hnd, ?_, ?_, ?_, ?_⟩
  · rw [List.length_map]; exact hspec.length
  · intro k
    rw [hmem k, List.mem_map]
  · rw [List.map_map, List.map_map]
    apply List.map_congr_left
    intro e he
    exact (hdoc e he).1
  · intro k
    simp [attributeValue, List.find?]
  · intro info pose_info reference
    exact ⟨rfl, attributeValue_pose_name _ _ _, attributeValue_pose_base _ _ _,
      attributeValue_pose_binding_path _ _ _⟩

/-- C15 witness: the end-to-end scenario. `GetOutput` returns `true` with one
document, for the one interaction profile of the two samples of `grip`. -/
theorem C15_one_document_per_profile_witness :
    InputItemSet.GetOutput (exEnv exLeftPose exRightPose 3) exContext exGripSet
        { output_files := [] } = .ret true exGripOutput ∧
      exGripOutput.output_files.length = 1 ∧
      ((InputItemSet.sampledPoses (exEnv exLeftPose exRightPose 3) exContext exGripSet.poses_
          exGripSet.poses_).map fun s => s.2.interaction_profile)
        = ["/interaction_profiles/valve/index_controller",
           "/interaction_profiles/valve/index_controller"] ∧
      ∃ (docs : List ItemFile) (profiles : List String),
        exGripOutput.output_files = [] ++ docs ∧
        docs.length =
          ((InputItemSet.sampledPoses (exEnv exLeftPose exRightPose 3) exContext
            exGripSet.poses_ exGripSet.poses_).map
            fun s => s.2.interaction_profile).dedup.length ∧
        profiles.Nodup := by
  refine ⟨by decide, by decide, by decide, ?_⟩
  obtain ⟨docs, profiles, h1, h2, h3, _⟩ :=
    C15_one_document_per_profile (exEnv exLeftPose exRightPose 3) exContext exGripSet
      { output_files := [] } exGripOutput (by decide)
  exact ⟨docs, profiles, h1, h2, h3⟩

/-! ### `InputItemSet::GetOutput`: the comparison with the reference -/

theorem boolAttributeValue_eq_true (b : Bool) : boolAttributeValue b = "true" ↔ b = true := by
  cases b <;> simp [boolAttributeValue]

theorem attributeValue_position_matches (info : PoseOutputInfo) (pose_info : PoseInfo)
    (reference : Option ReferencePoseNode) :
    attributeValue (positionNode info pose_info reference).attributes "matches_canonical" =
      reference.map fun r =>
        boolAttributeValue (XrVector3f.eqTol r.position pose_info.pose.position) := by
  cases hc : info.check_symmetrical <;> cases reference <;>
    simp [attributeValue, positionNode, hc, List.find?]

theorem attributeValue_orientation_matches (info : PoseOutputInfo) (pose_info : PoseInfo)
    (reference : Option ReferencePoseNode) :
    attributeValue (orientationNode info pose_info reference).attributes "matches_canonical" =
      reference.map fun r =>
        boolAttributeValue (XrQuaternionf.eqTol r.orientation pose_info.pose.orientation) := by
  cases hc : info.check_symmetrical <;> cases reference <;>
    simp [attributeValue, orientationNode, hc, List.find?]

theorem XrVector3f_eqTol_iff (vec1 vec2 : XrVector3f) :
    XrVector3f.eqTol vec1 vec2 = true ↔
      F32.lt (F32.fabs (F32.sub vec1.x vec2.x)) F32.c0_01 = true ∧
      F32.lt (F32.fabs (F32.sub vec1.y vec2.y)) F32.c0_01 = true ∧
      F32.lt (F32.fabs (F32.sub vec1.z vec2.z)) F32.c0_01 = true := by
  simp only [XrVector3f.eqTol, XrpCompareFloat_eq, Bool.and_eq_true, and_assoc]

theorem XrQuaternionf_eqTol_iff (q1 q2 : XrQuaternionf) :
    XrQuaternionf.eqTol q1 q2 = true ↔
      F32.lt (F32.fabs (F32.sub q1.w q2.w)) F32.c0_01 = true ∧
      F32.lt (F32.fabs (F32.sub q1.x q2.x)) F32.c0_01 = true ∧
      F32.lt (F32.fabs (F32.sub q1.y q2.y)) F32.c0_01 = true ∧
      F32.lt (F32.fabs (F32.sub q1.z q2.z)) F32.c0_01 = true := by
  simp only [XrQuaternionf.eqTol, XrpCompareFloat_eq, Bool.and_eq_true, and_assoc]

theorem referenceFor_eq_some_iff (env : Env) (pose_info : PoseInfo)
    (hq : (hasSingleQuote pose_info.action_name || hasSingleQuote pose_info.base
      || hasSingleQuote pose_info.binding_path) = false) (r : ReferencePoseNode) :
    referenceFor env pose_info = some r ↔
      ∃ input pre post,
        (env.reference_inputs.find? fun n =>
          n.interaction_profile = pose_info.interaction_profile) = some input ∧
        env.load_file input.text = pre ++ r :: post ∧
        (∀ n ∈ pre, ¬ (n.name = some pose_info.action_name ∧ n.base = some pose_info.base ∧
          n.binding_path = some pose_info.binding_path)) ∧
        r.name = some pose_info.action_name ∧ r.base = some pose_info.base ∧
        r.binding_path = some pose_info.binding_path := by
  have hfind : ∀ doc : List ReferencePoseNode,
      (doc.find? fun n => n.name = some pose_info.action_name ∧ n.base = some pose_info.base ∧
          n.binding_path = some pose_info.binding_path) = some r ↔
        ∃ pre post, doc = pre ++ r :: post ∧
          (∀ n ∈ pre, ¬ (n.name = some pose_info.action_name ∧ n.base = some pose_info.base ∧
            n.binding_path = some pose_info.binding_path)) ∧
          r.name = some pose_info.action_name ∧ r.base = some pose_info.base ∧
          r.binding_path = some pose_info.binding_path := by
    intro doc
    rw [List.find?_eq_some]
    constructor
    · rintro ⟨hp, pre, post, hdoc, hpre⟩
      refine ⟨pre, post, hdoc, ?_, by simpa using hp⟩
      intro n hn
      have h1 := hpre n hn
      simp only [Bool.not_eq_true', decide_eq_false_iff_not] at h1
      exact h1
    · rintro ⟨pre, post, hdoc, hpre, hkey⟩
      refine ⟨by simpa using hkey, pre, post, hdoc, ?_⟩
      intro n hn
      simp only [Bool.not_eq_true', decide_eq_false_iff_not]
      exact hpre n hn
  have hsel : referenceFor env pose_info = some r ↔
      ((LoadReferenceXMLDocument env pose_info.interaction_profile).2.find? fun n =>
        n.name = some pose_info.action_name ∧ n.base = some pose_info.base ∧
          n.binding_path = some pose_info.binding_path) = some r := by
    unfold referenceFor selectReferencePose
    simp only [hq, Bool.false_eq_true, if_false]
    cases hf : List.find? (fun n => decide (n.name = some pose_info.action_name ∧
        n.base = some pose_info.base ∧ n.binding_path = some pose_info.binding_path))
        (LoadReferenceXMLDocument env pose_info.interaction_profile).2 with
    | none => simp
    | some n => simp
  rw [hsel, hfind]
  unfold LoadReferenceXMLDocument
  cases hin : List.find? (fun n => decide (n.interaction_profile = pose_info.interaction_profile))
      env.reference_inputs with
  | none =>
    simp only
    constructor
    · rintro ⟨pre, post, hdoc, _⟩
      cases pre <;> cases hdoc
    · rintro ⟨input, _, _, hc, _⟩
      cases hc
  | some input0 =>
    simp only
    constructor
    · rintro ⟨pre, post, hdoc, hrest⟩
      exact ⟨input0, pre, post, rfl, hdoc, hrest⟩
    · rintro ⟨input, pre, post, hi, hdoc, hrest⟩
      cases hi
      exact ⟨pre, post, hdoc, hrest⟩

/-- C16: for every successful `GetOutput` and every sampled pose, the reference
entry found for the sample (when the sample's name, base and binding path hold
no single quote) is the first `pose` element, in document order, of the
reference file configured for the sample's interaction profile whose `name`,
`base` and `binding_path` attributes equal the sample's; one is found exactly
when there is such an element. For every reference entry `r` found, the `pose`
element written for the sample is in a document of the output, and its
`position` element carries `matches_canonical`, which is `true` if and only if
`fabs(r.x - p.x)`, `fabs(r.y - p.y)` and `fabs(r.z - p.z)`, computed in
`float` on the measured position `p`, are all less than `0.01f`, and `false`
otherwise; its `orientation` element carries `matches_canonical`, which is
`true` if and only if the four differences of the components W, X, Y, Z of the
reference and the measured orientation are all less than `0.01f` in magnitude,
and `false` otherwise. The comparison is per axis. -/
theorem C16_matches_canonical (env : Env) (context : XrpContext) (self : InputItemSet)
    (out_itemset out : ItemSetOutput)
    (h : InputItemSet.GetOutput env context self out_itemset = .ret true out)
    (s : PoseOutputInfo × PoseInfo)
    (hs : s ∈ InputItemSet.sampledPoses env context self.poses_ self.poses_) :
    ((hasSingleQuote s.2.action_name || hasSingleQuote s.2.base
        || hasSingleQuote s.2.binding_path) = false →
      ∀ r, referenceFor env s.2 = some r ↔
        ∃ input pre post,
          (env.reference_inputs.find? fun n =>
            n.interaction_profile = s.2.interaction_profile) = some input ∧
          env.load_file input.text = pre ++ r :: post ∧
          (∀ n ∈ pre, ¬ (n.name = some s.2.action_name ∧ n.base = some s.2.base ∧
            n.binding_path = some s.2.binding_path)) ∧
          r.name = some s.2.action_name ∧ r.base = some s.2.base ∧
          r.binding_path = some s.2.binding_path) ∧
    ∀ r, referenceFor env s.2 = some r →
      (∃ file ∈ out.output_files, ∃ n ∈ file.document, ∃ e ∈ n.children,
        attributeValue e.attributes "name" = some s.2.action_name ∧
        attributeValue e.attributes "base" = some s.2.base ∧
        attributeValue e.attributes "binding_path" = some s.2.binding_path ∧
        e.children = [positionNode s.1 s.2 (some r), orientationNode s.1 s.2 (some r)]) ∧
      (attributeValue (positionNode s.1 s.2 (some r)).attributes "matches_canonical"
          = some (if
            F32.lt (F32.fabs (F32.sub r.position.x s.2.pose.position.x)) F32.c0_01 = true ∧
            F32.lt (F32.fabs (F32.sub r.position.y s.2.pose.position.y)) F32.c0_01 = true ∧
            F32.lt (F32.fabs (F32.sub r.position.z s.2.pose.position.z)) F32.c0_01 = true
          then "true" else "false")) ∧
      (attributeValue (orientationNode s.1 s.2 (some r)).attributes "matches_canonical"
          = some (if
            F32.lt (F32.fabs (F32.sub r.orientation.w s.2.pose.orientation.w)) F32.c0_01 = true ∧
            F32.lt (F32.fabs (F32.sub r.orientation.x s.2.pose.orientation.x)) F32.c0_01 = true ∧
            F32.lt (F32.fabs (F32.sub r.orientation.y s.2.pose.orientation.y)) F32.c0_01 = true ∧
            F32.lt (F32.fabs (F32.sub r.orientation.z s.2.pose.orientation.z)) F32.c0_01 = true
          then "true" else "false")) := by
  obtain ⟨files, hspec, hout, _⟩ := InputItemSet.GetOutput_spec h
  refine ⟨fun hq r => referenceFor_eq_some_iff env s.2 hq r, ?_⟩
  intro r hr
  refine ⟨?_, ?_, ?_⟩
  · obtain ⟨e, he, _, _, n, hn, hnode⟩ := hspec.sample_mem hs
    rw [hr] at hnode
    refine ⟨e.2, ?_, n, hn, _, hnode, attributeValue_pose_name _ _ _,
      attributeValue_pose_base _ _ _, attributeValue_pose_binding_path _ _ _, rfl⟩
    rw [hout]
    exact List.mem_append_right _ (List.mem_map.2 ⟨e, he, rfl⟩)
  · rw [attributeValue_position_matches, Option.map_some']
    by_cases hm : XrVector3f.eqTol r.position s.2.pose.position = true
    · rw [if_pos ((XrVector3f_eqTol_iff _ _).1 hm), hm]; rfl
    · rw [if_neg (mt (XrVector3f_eqTol_iff _ _).2 hm)]
      rw [Bool.not_eq_true] at hm
      rw [hm]; rfl
  · rw [attributeValue_orientation_matches, Option.map_some']
    by_cases hm : XrQuaternionf.eqTol r.orientation s.2.pose.orientation = true
    · rw [if_pos ((XrQuaternionf_eqTol_iff _ _).1 hm), hm]; rfl
    · rw [if_neg (mt (XrQuaternionf_eqTol_iff _ _).2 hm)]
      rw [Bool.not_eq_true] at hm
      rw [hm]; rfl

/-- C16 witness: the end-to-end scenario with a reference document of two
entries. The entry found for the left sample of `grip` is the first one, which
has the measured position and orientation, and both `matches_canonical`
attributes are `true`. The entry found for the right sample is the second one,
the first having another binding path; its position is not where the right
hand is, and `matches_canonical` is `false` on the position. The position
0.009 off the reference on every axis would match as well, although it is more
than 0.01 away (3 * 0.009^2 > 0.01^2). -/
theorem C16_matches_canonical_witness :
    InputItemSet.GetOutput exReferenceEnv exContext exGripSet { output_files := [] }
        = .ret true exReferenceOutput ∧
      (exGripInfoOut, exSample "/user/hand/left" exLeftPose)
        ∈ InputItemSet.sampledPoses exReferenceEnv exContext exGripSet.poses_ exGripSet.poses_ ∧
      (exGripInfoOut, exSample "/user/hand/right" exRightPose)
        ∈ InputItemSet.sampledPoses exReferenceEnv exContext exGripSet.poses_ exGripSet.poses_ ∧
      referenceFor exReferenceEnv (exSample "/user/hand/left" exLeftPose)
        = some exReferenceLeft ∧
      referenceFor exReferenceEnv (exSample "/user/hand/right" exRightPose)
        = some exReferenceRight ∧
      attributeValue (positionNode exGripInfoOut (exSample "/user/hand/left" exLeftPose)
        (some exReferenceLeft)).attributes "matches_canonical" = some "true" ∧
      attributeValue (orientationNode exGripInfoOut (exSample "/user/hand/left" exLeftPose)
        (some exReferenceLeft)).attributes "matches_canonical" = some "true" ∧
      attributeValue (positionNode exGripInfoOut (exSample "/user/hand/right" exRightPose)
        (some exReferenceRight)).attributes "matches_canonical" = some "false" ∧
      XrVector3f.eqTol exZeroPosition exNearPosition = true ∧
      F32.c0_01.mag ^ 2 < 3 * F32.c0_009.mag ^ 2 := by
  have h := (C16_matches_canonical exReferenceEnv exContext exGripSet { output_files := [] }
    exReferenceOutput (by decide) (exGripInfoOut, exSample "/user/hand/left" exLeftPose)
    (by decide)).2 exReferenceLeft (by decide)
  have hright := C16_matches_canonical exReferenceEnv exContext exGripSet { output_files := [] }
    exReferenceOutput (by decide) (exGripInfoOut, exSample "/user/hand/right" exRightPose)
    (by decide)
  have hfound : referenceFor exReferenceEnv (exSample "/user/hand/right" exRightPose)
      = some exReferenceRight :=
    (hright.1 (by decide) exReferenceRight).2
      ⟨{ interaction_profile := "/interaction_profiles/valve/index_controller",
         text := "index_controller.xml" }, [exReferenceLeft], [], rfl, by decide,
        by decide, by decide, by decide, by decide⟩
  have h2 := hright.2 exReferenceRight hfound
  refine ⟨by decide, by decide, by decide, by decide, hfound, ?_, ?_, ?_, by decide, by decide⟩
  · rw [h.2.1]; decide
  · rw [h.2.2]; decide
  · rw [h2.2.1]; decide

/-! ### `InputItemSet::GetOutput`: a sample without a reference -/

namespace F32

/-- Rounding the magnitude of a finite value gives that value back. -/
theorem ofMag_exact (s : Bool) (a : F32) (h : a.isFinite = true) :
    ofMag s a.mag = ⟨s, a.exp, a.man⟩ := by
  obtain ⟨sa, ⟨e, he⟩, ⟨m, hm⟩⟩ := a
  simp only [isFinite, decide_eq_true_eq] at h
  by_cases he0 : e = 0
  · subst he0
    have hmag : mag ⟨sa, ⟨0, he⟩, ⟨m, hm⟩⟩ = m := by simp [mag]
    rw [hmag]
    unfold ofMag
    rw [if_pos hm]
    simp [ofFields, Nat.mod_eq_of_lt hm]
  · have hmag : mag ⟨sa, ⟨e, he⟩, ⟨m, hm⟩⟩ = (8388608 + m) * 2 ^ (e - 1) := by simp [mag, he0]
    rw [hmag]
    have hP : 0 < 2 ^ (e - 1) := Nat.pow_pos (by decide)
    have hlo : 8388608 * 2 ^ (e - 1) ≤ (8388608 + m) * 2 ^ (e - 1) :=
      Nat.mul_le_mul_right _ (by omega)
    have hhi : (8388608 + m) * 2 ^ (e - 1) < 16777216 * 2 ^ (e - 1) :=
      Nat.mul_lt_mul_of_pos_right (by omega) hP
    have hge : 8388608 ≤ (8388608 + m) * 2 ^ (e - 1) :=
      le_trans (Nat.le_mul_of_pos_right _ hP) hlo
    obtain ⟨b, hb, hb1, hb2⟩ := bitLen_spec ((8388608 + m) * 2 ^ (e - 1)) (by omega)
    have h23 : (8388608 : Nat) = 2 ^ 23 := by norm_num
    have h24 : (16777216 : Nat) = 2 ^ 24 := by norm_num
    have hbe : b = 23 + (e - 1) := by
      rw [h23, ← Nat.pow_add] at hlo
      rw [h24, ← Nat.pow_add] at hhi
      have h1 : 2 ^ (23 + (e - 1)) < 2 ^ (b + 1) := lt_of_le_of_lt hlo hb2
      have h2 : 2 ^ b < 2 ^ (24 + (e - 1)) := lt_of_le_of_lt hb1 hhi
      have h3 := (Nat.pow_lt_pow_iff_right (by decide : 1 < 2)).1 h1
      have h4 := (Nat.pow_lt_pow_iff_right (by decide : 1 < 2)).1 h2
      omega
    have hsh : bitLen ((8388608 + m) * 2 ^ (e - 1)) - 24 = e - 1 := by omega
    unfold ofMag
    rw [if_neg (by omega)]
    simp only [hsh, Nat.mul_div_cancel _ hP, Nat.mul_mod_left, Nat.mul_zero]
    have hne : ¬ (2 ^ (e - 1) < 0) := by omega
    have hne2 : ¬ (2 ^ (e - 1) = 0) := by omega
    have hq : ¬ (8388608 + m = 16777216) := by omega
    simp only [hne, hne2, decide_False, Bool.false_and, Bool.or_self, Bool.false_eq_true,
      if_false, hq]
    have he1 : e - 1 + 1 = e := by omega
    rw [he1, if_pos h]
    simp [ofFields, Nat.mod_eq_of_lt he, Nat.mod_eq_of_lt hm]

theorem fabs_ofMag (s : Bool) (n : Nat) : fabs (ofMag s n) = ofMag false n := by
  unfold ofMag
  simp only
  split_ifs <;> rfl

theorem fabs_toInt (a : F32) : (fabs a).toInt = (a.mag : Int) := by
  cases a; simp [fabs, toInt, mag]

/-- The magnitude of `x - y` does not depend on the order of `x` and `y`. -/
theorem fabs_sub_comm (x y : F32) : fabs (sub x y) = fabs (sub y x) := by
  unfold sub
  by_cases hx : x.isNaN = true
  · simp [add, hx, isNaN_neg]
  by_cases hy : y.isNaN = true
  · simp [add, hy, isNaN_neg]
  rw [Bool.not_eq_true] at hx hy
  have hnx : (neg x).isNaN = false := hx
  have hny : (neg y).isNaN = false := hy
  have hinf : ∀ a : F32, a.isInf = true → fabs a = inf false := by
    intro a ha
    obtain ⟨s, ⟨e, he⟩, ⟨m, hm⟩⟩ := a
    simp only [isInf, Bool.and_eq_true, beq_iff_eq] at ha
    obtain ⟨h1, h2⟩ := ha
    subst h1; subst h2
    rfl
  have hfn : ∀ a : F32, fabs (neg a) = fabs a := fun a => rfl
  have hin : ∀ a : F32, (neg a).isInf = a.isInf := fun a => rfl
  have hsn : ∀ a : F32, (neg a).sign = !a.sign := fun a => rfl
  simp only [add, hx, hy, hnx, hny, Bool.or_self, Bool.false_eq_true, if_false, hin, hsn]
  cases hxi : x.isInf <;> cases hyi : y.isInf
  · simp only [Bool.false_eq_true, if_false, toInt_neg]
    have hd : y.toInt + -x.toInt = -(x.toInt + -y.toInt) := by ring
    rw [hd]
    by_cases h0 : x.toInt + -y.toInt = 0
    · simp [h0, fabs, zero]
    · have h1 : ¬ (-(x.toInt + -y.toInt) = 0) := by omega
      rw [if_neg h0, if_neg h1, fabs_ofMag, fabs_ofMag, Int.natAbs_neg]
  · simp only [Bool.false_eq_true, if_false, if_true, Bool.false_and, hfn]
  · simp only [Bool.false_eq_true, if_false, if_true, Bool.false_and, hfn]
  · simp only [if_true, Bool.true_and]
    cases hsx : x.sign <;> cases hsy : y.sign <;>
      simp [hinf x hxi, hinf y hyi]

end F32

theorem XrpCompareFloat_comm (x y t : F32) :
    XrpCompareFloat x y t = XrpCompareFloat y x t := by
  rw [XrpCompareFloat_eq_lt, XrpCompareFloat_eq_lt, F32.fabs_sub_comm]

theorem XrpCompareFloat_of_not_pos (x y : F32) {t : F32}
    (ht : F32.lt (F32.zero false) t = false) : XrpCompareFloat x y t = false := by
  rw [XrpCompareFloat_eq_lt]
  simp only [F32.lt, F32.isNaN_zero, F32.toInt_zero, Bool.not_false, Bool.true_and,
    Bool.and_eq_false_imp, Bool.not_eq_true', decide_eq_false_iff_not, not_lt] at ht
  simp only [F32.lt, F32.fabs_toInt, Bool.and_eq_false_imp, Bool.and_eq_true, Bool.not_eq_true',
    decide_eq_false_iff_not, not_lt]
  intro h
  have h1 := ht h.2
  have h2 : (0 : Int) ≤ ((F32.sub x y).mag : Int) := Int.ofNat_nonneg _
  omega

theorem XrpCompareFloat_refl {x t : F32} (hx : x.isFinite = true)
    (ht : F32.lt (F32.zero false) t = true) : XrpCompareFloat x x t = true := by
  rw [XrpCompareFloat_eq_lt, F32.sub_self hx]
  exact ht

/-- Two finite values whose exact difference is the tolerance fail the test. -/
theorem XrpCompareFloat_exact_tolerance {x y t : F32} (hx : x.isFinite = true)
    (hy : y.isFinite = true) (ht : t.isFinite = true)
    (hd : (x.toInt - y.toInt).natAbs = t.mag) : XrpCompareFloat x y t = false := by
  cases hpos : F32.lt (F32.zero false) t with
  | false => exact XrpCompareFloat_of_not_pos x y hpos
  | true =>
    simp only [F32.lt, F32.isNaN_zero, F32.toInt_zero, Bool.not_false, Bool.true_and,
      Bool.and_eq_true, Bool.not_eq_true', decide_eq_true_eq] at hpos
    obtain ⟨_, hpos⟩ := hpos
    have hsign : t.sign = false := by
      cases hs : t.sign with
      | false => rfl
      | true =>
        rw [F32.toInt_eq, hs] at hpos
        simp only [if_true] at hpos
        have : (0 : Int) ≤ (t.mag : Int) := Int.ofNat_nonneg _
        omega
    have hmag : 0 < t.mag := by
      rw [F32.toInt_eq, hsign] at hpos
      simpa using hpos
    have hy1 : (F32.neg y).isFinite = true := by rw [F32.isFinite_neg]; exact hy
    have hsum : x.toInt + (F32.neg y).toInt = x.toInt - y.toInt := by rw [F32.toInt_neg]; ring
    have hne : x.toInt - y.toInt ≠ 0 := by
      intro h0
      rw [h0] at hd
      simp at hd
      omega
    have hsub : F32.fabs (F32.sub x y) = t := by
      unfold F32.sub
      rw [F32.add_of_isFinite hx hy1, hsum, if_neg hne, hd, F32.ofMag_exact _ t ht]
      cases t
      simp only at hsign
      subst hsign
      rfl
    rw [XrpCompareFloat_eq_lt, hsub]
    simp [F32.lt]

/-- C24 (as stated, refuted): `0.01f` is greater than 0, yet an infinity and a
NaN are not equal to themselves under `XrpCompareFloat`; and `0.01f` and
`2^-40` differ by less than `0.01f`, yet the difference rounds to `0.01f` and
the two are not considered equal. -/
theorem C24_counterexample_not_reflexive :
    F32.lt (F32.zero false) F32.c0_01 = true ∧
      XrpCompareFloat (F32.inf false) (F32.inf false) = false ∧
      XrpCompareFloat F32.qnan F32.qnan = false ∧
      (F32.c0_01.toInt - F32.c2_pow_neg40.toInt).natAbs < F32.c0_01.mag ∧
      XrpCompareFloat F32.c0_01 F32.c2_pow_neg40 = false := by
  decide

/-- C24 (amended): `XrpCompareFloat(x, y, t)` is true if and only if
`fabs(x - y)`, computed in `float`, is strictly less than `t` (`0.01f` by
default). Two finite values whose exact difference is the tolerance are not
considered equal; the relation is reflexive on finite values for `t > 0`; it
is symmetric in `x` and `y`; and for a `t` that is not greater than 0 it is
never true. -/
theorem C24_XrpCompareFloat_relation (x y t : F32) :
    (XrpCompareFloat x y t = true ↔ F32.lt (F32.fabs (F32.sub x y)) t = true) ∧
    XrpCompareFloat x y = XrpCompareFloat x y F32.c0_01 ∧
    (x.isFinite = true → y.isFinite = true → t.isFinite = true →
      (x.toInt - y.toInt).natAbs = t.mag → XrpCompareFloat x y t = false) ∧
    (x.isFinite = true → F32.lt (F32.zero false) t = true → XrpCompareFloat x x t = true) ∧
    XrpCompareFloat x y t = XrpCompareFloat y x t ∧
    (F32.lt (F32.zero false) t = false → XrpCompareFloat x y t = false) := by
  refine ⟨by rw [XrpCompareFloat_eq_lt], rfl, ?_, ?_, XrpCompareFloat_comm x y t,
    fun ht => XrpCompareFloat_of_not_pos x y ht⟩
  · intro hx hy ht hd
    exact XrpCompareFloat_exact_tolerance hx hy ht hd
  · intro hx ht
    exact XrpCompareFloat_refl hx ht

/-- C24 witness: `0.02f` and `0.01f` differ by exactly `0.01f` and are not
considered equal; `0.02f` is equal to itself; with the tolerance 0 nothing is
equal. -/
theorem C24_XrpCompareFloat_relation_witness :
    (F32.c0_02.toInt - F32.c0_01.toInt).natAbs = F32.c0_01.mag ∧
      XrpCompareFloat F32.c0_02 F32.c0_01 F32.c0_01 = false ∧
      XrpCompareFloat F32.c0_02 F32.c0_02 F32.c0_01 = true ∧
      XrpCompareFloat F32.c0_02 F32.c0_02 (F32.zero false) = false :=
  ⟨by decide,
    (C24_XrpCompareFloat_relation F32.c0_02 F32.c0_01 F32.c0_01).2.2.1 (by decide) (by decide)
      (by decide) (by decide),
    (C24_XrpCompareFloat_relation F32.c0_02 F32.c0_01 F32.c0_01).2.2.2.1 (by decide) (by decide),
    (C24_XrpCompareFloat_relation F32.c0_02 F32.c0_02 (F32.zero false)).2.2.2.2.2 (by decide)⟩

/-! ### `operator==` as a relation -/

theorem XrVector3f_eqTol_self {v : XrVector3f} (h : v.isFinite = true) : v.eqTol v = true := by
  simp only [XrVector3f.isFinite, Bool.and_eq_true] at h
  simp [XrVector3f.eqTol, XrpCompareFloat_self, h]

theorem XrVector3f_eqTol_comm (a b : XrVector3f) : a.eqTol b = b.eqTol a := by
  simp only [XrVector3f.eqTol]
  rw [XrpCompareFloat_comm a.x b.x, XrpCompareFloat_comm a.y b.y, XrpCompareFloat_comm a.z b.z]

theorem XrQuaternionf_eqTol_comm (a b : XrQuaternionf) : a.eqTol b = b.eqTol a := by
  simp only [XrQuaternionf.eqTol]
  rw [XrpCompareFloat_comm a.w b.w, XrpCompareFloat_comm a.x b.x, XrpCompareFloat_comm a.y b.y,
    XrpCompareFloat_comm a.z b.z]

/-- C25 (as stated, refuted): a position and an orientation with an infinite
component are not equal to themselves under `operator==`, nor are those with a
NaN component. -/
theorem C25_counterexample_not_reflexive :
    (exPositionX (F32.inf false)).eqTol (exPositionX (F32.inf false)) = false ∧
      qInfW.eqTol qInfW = false ∧
      (exPositionX F32.qnan).eqTol (exPositionX F32.qnan) = false ∧
      qNaN.eqTol qNaN = false := by
  decide

/-- C25 (amended): the tolerance-based `operator==` on `XrVector3f` and on
`XrQuaternionf`, used for `matches_canonical`, is reflexive on values with
finite components and symmetric, but not transitive: with the x components 0,
`0.006f` and `0.012f` and all other components equal, the first equals the
second and the second equals the third, but the first does not equal the
third. So it is not an equivalence relation. -/
theorem C25_operator_eq_not_transitive :
    (∀ v : XrVector3f, v.isFinite = true → v.eqTol v = true) ∧
    (∀ q : XrQuaternionf, q.isFinite = true → q.eqTol q = true) ∧
    (∀ a b : XrVector3f, a.eqTol b = b.eqTol a) ∧
    (∀ a b : XrQuaternionf, a.eqTol b = b.eqTol a) ∧
    ((exPositionX (F32.zero false)).eqTol (exPositionX F32.c0_006) = true ∧
      (exPositionX F32.c0_006).eqTol (exPositionX F32.c0_012) = true ∧
      (exPositionX (F32.zero false)).eqTol (exPositionX F32.c0_012) = false) ∧
    ((exOrientationX (F32.zero false)).eqTol (exOrientationX F32.c0_006) = true ∧
      (exOrientationX F32.c0_006).eqTol (exOrientationX F32.c0_012) = true ∧
      (exOrientationX (F32.zero false)).eqTol (exOrientationX F32.c0_012) = false) ∧
    (¬ ∀ a b c : XrVector3f, a.eqTol b = true → b.eqTol c = true → a.eqTol c = true) ∧
    (¬ ∀ a b c : XrQuaternionf, a.eqTol b = true → b.eqTol c = true → a.eqTol c = true) ∧
    (∀ (info : PoseOutputInfo) (pose_info : PoseInfo) (r : ReferencePoseNode),
      attributeValue (positionNode info pose_info (some r)).attributes "matches_canonical"
        = some (boolAttributeValue (r.position.eqTol pose_info.pose.position)) ∧
      attributeValue (orientationNode info pose_info (some r)).attributes "matches_canonical"
        = some (boolAttributeValue (r.orientation.eqTol pose_info.pose.orientation))) := by
  have hv : (exPositionX (F32.zero false)).eqTol (exPositionX F32.c0_006) = true ∧
      (exPositionX F32.c0_006).eqTol (exPositionX F32.c0_012) = true ∧
      (exPositionX (F32.zero false)).eqTol (exPositionX F32.c0_012) = false := by decide
  have hq : (exOrientationX (F32.zero false)).eqTol (exOrientationX F32.c0_006) = true ∧
      (exOrientationX F32.c0_006).eqTol (exOrientationX F32.c0_012) = true ∧
      (exOrientationX (F32.zero false)).eqTol (exOrientationX F32.c0_012) = false := by decide
  refine ⟨fun v h => XrVector3f_eqTol_self h, fun q h => XrQuaternionf.eqTol_self h,
    XrVector3f_eqTol_comm, XrQuaternionf_eqTol_comm, hv, hq, ?_, ?_, ?_⟩
  · intro h
    have := h _ _ _ hv.1 hv.2.1
    rw [hv.2.2] at this
    cases this
  · intro h
    have := h _ _ _ hq.1 hq.2.1
    rw [hq.2.2] at this
    cases this
  · intro info pose_info r
    rw [attributeValue_position_matches, attributeValue_orientation_matches]
    exact ⟨rfl, rfl⟩

/-! ### `SaveItemSetXML` -/

theorem SaveItemSetXML.runtimeName_eq (host : Host) (context : XrpContext)
    (nodes : List RuntimeNode) (R : String)
    (h : SaveItemSetXML.runtimeName host context nodes = some R) :
    R = ((nodes.find? fun runtime_node =>
        decide (runtime_node.matches_ ≠ "" ∧ runtime_node.name ≠ "" ∧
          host.regex_match context.runtimeName runtime_node.matches_ = some true)).map
      fun runtime_node => runtime_node.name).getD context.runtimeName := by
  induction nodes with
  | nil =>
    simp only [SaveItemSetXML.runtimeName, Option.some.injEq] at h
    simp [h]
  | cons n rest ih =>
    unfold SaveItemSetXML.runtimeName at h
    split_ifs at h with hempty
    · have hp : decide (n.matches_ ≠ "" ∧ n.name ≠ "" ∧
          host.regex_match context.runtimeName n.matches_ = some true) = false := by
        rw [decide_eq_false_iff_not]
        rintro ⟨h1, h2, _⟩
        rcases hempty with h3 | h3
        · exact h1 h3
        · exact h2 h3
      rw [List.find?_cons]
      simp only [hp]
      exact ih h
    · have hne : n.matches_ ≠ "" ∧ n.name ≠ "" := by
        constructor
        · intro h1; exact hempty (Or.inl h1)
        · intro h2; exact hempty (Or.inr h2)
      split at h
      · cases h
      · next hm =>
        simp only [Option.some.injEq] at h
        have hp : decide (n.matches_ ≠ "" ∧ n.name ≠ "" ∧
            host.regex_match context.runtimeName n.matches_ = some true) = true :=
          decide_eq_true ⟨hne.1, hne.2, hm⟩
        rw [List.find?_cons]
        simp only [hp]
        simp [h]
      · next hm =>
        have hp : decide (n.matches_ ≠ "" ∧ n.name ≠ "" ∧
            host.regex_match context.runtimeName n.matches_ = some true) = false := by
          rw [decide_eq_false_iff_not]
          rintro ⟨_, _, h3⟩
          rw [hm] at h3
          cases h3
        rw [List.find?_cons]
        simp only [hp]
        exact ih h

theorem SaveItemSetXML.runtimeName_isSome (host : Host) (context : XrpContext)
    (nodes : List RuntimeNode)
    (h : ∀ n ∈ nodes, n.matches_ ≠ "" → n.name ≠ "" →
      (host.regex_match context.runtimeName n.matches_).isSome = true) :
    (SaveItemSetXML.runtimeName host context nodes).isSome = true := by
  induction nodes with
  | nil => rfl
  | cons n rest ih =>
    have ih1 := ih fun m hm => h m (List.mem_cons_of_mem _ hm)
    unfold SaveItemSetXML.runtimeName
    split_ifs with hempty
    · exact ih1
    · have hn := h n (List.mem_cons_self _ _) (fun h1 => hempty (Or.inl h1))
        (fun h2 => hempty (Or.inr h2))
      split
      · next hm => rw [hm] at hn; cases hn
      · rfl
      · exact ih1

theorem SaveItemSetXML.saveFiles_spec (host : Host) (base_file_name : String)
    (files : List ItemFile) (saved : List SavedFile) :
    ∃ attempts, SaveItemSetXML.saveFiles host base_file_name files saved = saved ++ attempts ∧
      attempts.map (fun a => (a.file_name, a.document)) =
        files.map fun f => (base_file_name ++ "-" ++ f.name ++ ".xml", f.document) := by
  induction files generalizing saved with
  | nil => exact ⟨[], by simp [SaveItemSetXML.saveFiles], rfl⟩
  | cons f rest ih =>
    obtain ⟨attempts, h1, h2⟩ := ih (saved ++ [⟨base_file_name ++ "-" ++ f.name ++ ".xml",
      f.document, host.save_file saved (base_file_name ++ "-" ++ f.name ++ ".xml") f.document⟩])
    refine ⟨⟨base_file_name ++ "-" ++ f.name ++ ".xml", f.document,
      host.save_file saved (base_file_name ++ "-" ++ f.name ++ ".xml") f.document⟩ :: attempts,
      ?_, ?_⟩
    · simp only [SaveItemSetXML.saveFiles]
      rw [h1, List.append_assoc]
      rfl
    · simp only [List.map_cons, h2]

/-- C23: `SaveItemSetXML` returns whenever no pattern it tries throws. When it
returns, it has called `save_file` once for every output document, in order
and whatever the earlier calls returned, with the document and the file name
`base_path + "cpt_" + R + "-" + n + ".xml"`, where `n` is the name of the
document, `R` is the `name` of the first `runtime` element with non-empty
`matches` and `name` whose pattern matches the live runtime name, the live
runtime name when there is none, and `base_path` is empty except on Android,
where it is the data path followed by `/`. -/
theorem C23_SaveItemSetXML_file_names (host : Host) (context : XrpContext)
    (item_set_output : ItemSetOutput) (saved : List SavedFile) :
    ((∀ n ∈ host.runtime_nodes, n.matches_ ≠ "" → n.name ≠ "" →
        (host.regex_match context.runtimeName n.matches_).isSome = true) →
      (SaveItemSetXML host context item_set_output saved).isSome = true) ∧
    (host.android_data_path = none → SaveItemSetXML.basePath host = "") ∧
    (∀ data_path, host.android_data_path = some data_path →
      SaveItemSetXML.basePath host = data_path ++ "/") ∧
    ∀ saved1, SaveItemSetXML host context item_set_output saved = some saved1 →
      ∃ attempts, saved1 = saved ++ attempts ∧
        attempts.map (fun a => (a.file_name, a.document)) =
          item_set_output.output_files.map fun f =>
            (SaveItemSetXML.basePath host ++ "cpt_" ++ configuredRuntimeName host context
              ++ "-" ++ f.name ++ ".xml", f.document) := by
  refine ⟨?_, ?_, ?_, ?_⟩
  · intro h
    have h1 := SaveItemSetXML.runtimeName_isSome host context host.runtime_nodes h
    unfold SaveItemSetXML
    split
    · next hm => rw [hm] at h1; cases h1
    · rfl
  · intro h
    simp [SaveItemSetXML.basePath, h]
  · intro data_path h
    simp [SaveItemSetXML.basePath, h]
  · intro saved1 h
    unfold SaveItemSetXML at h
    split at h
    · cases h
    · next R hR =>
      simp only [Option.some.injEq] at h
      have hR1 := SaveItemSetXML.runtimeName_eq host context host.runtime_nodes R hR
      obtain ⟨attempts, h1, h2⟩ := SaveItemSetXML.saveFiles_spec host
        (SaveItemSetXML.basePath host ++ "cpt_" ++ R) item_set_output.output_files saved
      refine ⟨attempts, ?_, ?_⟩
      · rw [← h, h1]
      · rw [h2]
        unfold configuredRuntimeName
        rw [← hR1]

/-- C23 witness: the runtime `SteamVR/OpenXR` is named `steamvr` by the third
entry of the example configuration (the first has no pattern, the second does
not match, the fourth is never tried); the first save fails and the second
document is saved all the same. -/
theorem C23_SaveItemSetXML_file_names_witness :
    SaveItemSetXML exHost exContext exTwoFiles [] =
        some [{ file_name := "cpt_steamvr-valve_index_controller.xml",
                document := [], saved := false },
              { file_name := "cpt_steamvr-oculus_touch_controller.xml",
                document := [], saved := true }] ∧
      configuredRuntimeName exHost exContext = "steamvr" ∧
      ∃ attempts,
        [{ file_name := "cpt_steamvr-valve_index_controller.xml",
           document := [], saved := false },
         { file_name := "cpt_steamvr-oculus_touch_controller.xml",
           document := [], saved := true }] = ([] : List SavedFile) ++ attempts ∧
        attempts.map (fun a => (a.file_name, a.document)) =
          exTwoFiles.output_files.map fun f =>
            (SaveItemSetXML.basePath exHost ++ "cpt_" ++ configuredRuntimeName exHost exContext
              ++ "-" ++ f.name ++ ".xml", f.document) :=
  ⟨by decide, by decide,
    (C23_SaveItemSetXML_file_names exHost exContext exTwoFiles []).2.2.2 _ (by decide)⟩

/-! ### `MakeFile` -/

theorem MakeFileLoop_exit {env : Env} {host : Host} {context : XrpContext}
    (item_sets : List InputItemSet) (st : MainState) {b : Bool} {st1 : MainState}
    (h : MakeFileLoop env host context item_sets st = some (b, st1)) :
    st1.exit_requested = st.exit_requested ∧ st1.exit_requests = st.exit_requests := by
  induction item_sets generalizing st with
  | nil =>
    simp only [MakeFileLoop, Option.some.injEq, Prod.mk.injEq] at h
    rw [← h.2]
    exact ⟨rfl, rfl⟩
  | cons s rest ih =>
    unfold MakeFileLoop at h
    split at h
    · cases h
    · simp only [Option.some.injEq, Prod.mk.injEq] at h
      rw [← h.2]
      exact ⟨rfl, rfl⟩
    · split at h
      · cases h
      · have h2 := ih _ h
        exact h2

theorem MakeFileLoop_true_iff {env : Env} {host : Host} {context : XrpContext}
    (item_sets : List InputItemSet) (st : MainState) {b : Bool} {st1 : MainState}
    (h : MakeFileLoop env host context item_sets st = some (b, st1)) :
    b = true ↔ ∀ s ∈ item_sets, ∃ out,
      InputItemSet.GetOutput env context s { output_files := [] } = .ret true out := by
  induction item_sets generalizing st with
  | nil =>
    simp only [MakeFileLoop, Option.some.injEq, Prod.mk.injEq] at h
    simp [h.1.symm]
  | cons s rest ih =>
    unfold MakeFileLoop at h
    split at h
    · cases h
    · next out hget =>
      simp only [Option.some.injEq, Prod.mk.injEq] at h
      rw [← h.1]
      constructor
      · intro hc; cases hc
      · intro hall
        obtain ⟨out1, h1⟩ := hall s (List.mem_cons_self _ _)
        rw [hget] at h1
        cases h1
    · next out hget =>
      split at h
      · cases h
      · rw [ih _ h]
        constructor
        · intro hall s1 hs1
          rcases List.mem_cons.1 hs1 with rfl | hmem
          · exact ⟨out, hget⟩
          · exact hall s1 hmem
        · intro hall s1 hs1
          exact hall s1 (List.mem_cons_of_mem _ hs1)

theorem MakeFileLoop_append {env : Env} {host : Host} {context : XrpContext}
    (pre post : List InputItemSet) (st : MainState) :
    MakeFileLoop env host context (pre ++ post) st =
      match MakeFileLoop env host context pre st with
      | some (true, st0) => MakeFileLoop env host context post st0
      | r => r := by
  induction pre generalizing st with
  | nil => simp [MakeFileLoop]
  | cons s rest ih =>
    cases hget : InputItemSet.GetOutput env context s { output_files := [] } with
    | abnormal => simp only [List.cons_append, MakeFileLoop, hget]
    | ret ok out =>
      cases ok with
      | false => simp only [List.cons_append, MakeFileLoop, hget]
      | true =>
        cases hsave : SaveItemSetXML host context out st.saved with
        | none => simp only [List.cons_append, MakeFileLoop, hget, hsave]
        | some saved =>
          simp only [List.cons_append, MakeFileLoop, hget, hsave]
          exact ih _

theorem MakeFileLoop_prefix {env : Env} {host : Host} {context : XrpContext}
    (pre post : List InputItemSet) (st : MainState) {r : Bool × MainState}
    (h : MakeFileLoop env host context (pre ++ post) st = some r)
    (hall : ∀ s ∈ pre, ∃ out,
      InputItemSet.GetOutput env context s { output_files := [] } = .ret true out) :
    ∃ st0, MakeFileLoop env host context pre st = some (true, st0) := by
  rw [MakeFileLoop_append] at h
  cases hpre : MakeFileLoop env host context pre st with
  | none => rw [hpre] at h; cases h
  | some p =>
    obtain ⟨b, st0⟩ := p
    have hb := (MakeFileLoop_true_iff pre st hpre).2 hall
    subst hb
    exact ⟨st0, rfl⟩

theorem MakeFileLoop_isSome {env : Env} {host : Host} {context : XrpContext}
    (item_sets : List InputItemSet) (st : MainState)
    (hname : (SaveItemSetXML.runtimeName host context host.runtime_nodes).isSome = true)
    (hget : ∀ s ∈ item_sets,
      InputItemSet.GetOutput env context s { output_files := [] } ≠ .abnormal) :
    (MakeFileLoop env host context item_sets st).isSome = true := by
  induction item_sets generalizing st with
  | nil => rfl
  | cons s rest ih =>
    unfold MakeFileLoop
    split
    · next h => exact absurd h (hget s (List.mem_cons_self _ _))
    · rfl
    · split
      · next out _ saved hs =>
        unfold SaveItemSetXML at hs
        split at hs
        · next hn => rw [hn] at hname; cases hname
        · cases hs
      · exact ih _ fun s1 hs1 => hget s1 (List.mem_cons_of_mem _ hs1)

theorem MakeFile_eq_of_loop_false {env : Env} {host : Host} {context : XrpContext}
    {item_sets : List InputItemSet} {st st0 : MainState}
    (h : MakeFileLoop env host context item_sets st = some (false, st0)) :
    MakeFile env host context item_sets st = some st0 := by
  unfold MakeFile
  rw [h]

/-- C21: `MakeFile` returns whenever no call of `GetOutput` ends abnormally and
no pattern of the configuration throws. When it returns, it has requested the
session exit (called `XrpRequestExitSession`, once) if and only if `GetOutput`
returned `true` for every item set, and then `exit_requested` is set. When
`GetOutput` returns `false` for an item set after succeeding on the sets
before it, `MakeFile` has not requested the exit, the state it leaves is the
one the loop leaves after the sets before (nothing is saved for the failing
set), and the result is the same whatever the later item sets are: they are
not looked at. -/
theorem C21_MakeFile_requests_exit (env : Env) (host : Host) (context : XrpContext)
    (item_sets : List InputItemSet) (st : MainState) :
    ((SaveItemSetXML.runtimeName host context host.runtime_nodes).isSome = true →
      (∀ s ∈ item_sets,
        InputItemSet.GetOutput env context s { output_files := [] } ≠ .abnormal) →
      (MakeFile env host context item_sets st).isSome = true) ∧
    ∀ st1, MakeFile env host context item_sets st = some st1 →
      (st1.exit_requests = st.exit_requests + 1 ↔
        ∀ s ∈ item_sets, ∃ out,
          InputItemSet.GetOutput env context s { output_files := [] } = .ret true out) ∧
      (st1.exit_requests = st.exit_requests + 1 → st1.exit_requested = true) ∧
      (st1.exit_requests ≠ st.exit_requests + 1 →
        st1.exit_requests = st.exit_requests ∧ st1.exit_requested = st.exit_requested) ∧
      ∀ pre item_set rest out, item_sets = pre ++ item_set :: rest →
        (∀ s ∈ pre, ∃ out1,
          InputItemSet.GetOutput env context s { output_files := [] } = .ret true out1) →
        InputItemSet.GetOutput env context item_set { output_files := [] } = .ret false out →
        st1.exit_requests = st.exit_requests ∧ st1.exit_requested = st.exit_requested ∧
        MakeFileLoop env host context pre st = some (true, st1) ∧
        ∀ rest2, MakeFile env host context (pre ++ item_set :: rest2) st = some st1 := by
  constructor
  · intro hname hget
    have h := MakeFileLoop_isSome item_sets st hname hget
    unfold MakeFile
    cases hloop : MakeFileLoop env host context item_sets st with
    | none => rw [hloop] at h; cases h
    | some p =>
      obtain ⟨b, st0⟩ := p
      cases b <;> rfl
  · intro st1 hret
    unfold MakeFile at hret
    cases hloop : MakeFileLoop env host context item_sets st with
    | none => rw [hloop] at hret; cases hret
    | some p =>
      obtain ⟨b, st0⟩ := p
      rw [hloop] at hret
      have hexit := MakeFileLoop_exit item_sets st hloop
      have hiff := MakeFileLoop_true_iff item_sets st hloop
      cases b with
      | false =>
        simp only [Option.some.injEq] at hret
        subst hret
        have hne : st0.exit_requests ≠ st.exit_requests + 1 := by rw [hexit.2]; omega
        have hnot : ¬ ∀ s ∈ item_sets, ∃ out,
            InputItemSet.GetOutput env context s { output_files := [] } = .ret true out :=
          fun hall => Bool.false_ne_true (hiff.2 hall)
        refine ⟨⟨fun h => absurd h hne, fun h => absurd h hnot⟩, fun h => absurd h hne,
          fun _ => ⟨hexit.2, hexit.1⟩, ?_⟩
        intro pre item_set rest out hsplit hpre hfail
        subst hsplit
        obtain ⟨st2, hst2⟩ := MakeFileLoop_prefix pre (item_set :: rest) st hloop hpre
        have hstep : ∀ rest2, MakeFileLoop env host context (pre ++ item_set :: rest2) st
            = some (false, st2) := by
          intro rest2
          rw [MakeFileLoop_append, hst2]
          simp only [MakeFileLoop, hfail]
        have h0 := hstep rest
        rw [hloop] at h0
        simp only [Option.some.injEq, Prod.mk.injEq, true_and] at h0
        subst h0
        exact ⟨hexit.2, hexit.1, hst2, fun rest2 => MakeFile_eq_of_loop_false (hstep rest2)⟩
      | true =>
        simp only [Option.some.injEq] at hret
        subst hret
        have hall := hiff.1 rfl
        have hcount : (XrpRequestExitSession host st0).2.exit_requests
            = st.exit_requests + 1 := by
          simp only [XrpRequestExitSession, hexit.2]
        refine ⟨⟨fun _ => hall, fun _ => hcount⟩, fun _ => rfl, fun h => absurd hcount h, ?_⟩
        intro pre item_set rest out hsplit _ hfail
        subst hsplit
        obtain ⟨out1, h1⟩ := hall item_set (List.mem_append_right _ (List.mem_cons_self _ _))
        rw [hfail] at h1
        cases h1

theorem Outcome.ret_of_value?_isSome {α : Type} (o : Outcome α)
    (h : o.value?.isSome = true) : ∃ out, o = .ret true out := by
  cases o with
  | abnormal => cases h
  | ret ok out =>
    cases ok with
    | false => cases h
    | true => exact ⟨out, rfl⟩

/-- C21 witness: with every action active `MakeFile` on `exGripSet` requests
the exit; with `grip` inactive, `MakeFile` on `exAimSet`, `exTwoSet`,
`exGripSet` saves the document of `exAimSet`, fails on `exTwoSet`, and leaves
without requesting the exit. -/
theorem C21_MakeFile_requests_exit_witness :
    (∃ st1, MakeFile (exEnv exLeftPose exRightPose 3) exHost exContext [exGripSet] exMainState
        = some st1 ∧ st1.exit_requests = 1 ∧ st1.exit_requested = true) ∧
    ∃ st1, MakeFile exEnvGripInactive exHost exContext [exAimSet, exTwoSet, exGripSet]
        exMainState = some st1 ∧
      st1.exit_requests = 0 ∧ st1.exit_requested = false ∧
      MakeFileLoop exEnvGripInactive exHost exContext [exAimSet] exMainState
        = some (true, st1) ∧
      st1.saved.map (fun a => a.file_name)
        = ["cpt_steamvr-valve_index_controller.xml"] := by
  constructor
  · obtain ⟨st1, h⟩ := Option.isSome_iff_exists.1
      ((C21_MakeFile_requests_exit (exEnv exLeftPose exRightPose 3) exHost exContext [exGripSet]
        exMainState).1 (by decide) (by decide))
    have h1 := (C21_MakeFile_requests_exit (exEnv exLeftPose exRightPose 3) exHost exContext
      [exGripSet] exMainState).2 st1 h
    have hcount : st1.exit_requests = exMainState.exit_requests + 1 :=
      h1.1.2 fun s hs => by
        rw [List.mem_singleton.1 hs]
        exact Outcome.ret_of_value?_isSome _ (by decide)
    exact ⟨st1, h, hcount, h1.2.1 hcount⟩
  · obtain ⟨st1, h⟩ := Option.isSome_iff_exists.1
      ((C21_MakeFile_requests_exit exEnvGripInactive exHost exContext
        [exAimSet, exTwoSet, exGripSet] exMainState).1 (by decide) (by decide))
    have h1 := ((C21_MakeFile_requests_exit exEnvGripInactive exHost exContext
      [exAimSet, exTwoSet, exGripSet] exMainState).2 st1 h).2.2.2 [exAimSet] exTwoSet [exGripSet]
      { output_files := [] } rfl
      (fun s hs => by
        rw [List.mem_singleton.1 hs]
        exact Outcome.ret_of_value?_isSome _ (by decide))
      (by decide)
    have h2 : (MakeFileLoop exEnvGripInactive exHost exContext [exAimSet] exMainState).map
        (fun r => r.2.saved.map (fun a => a.file_name))
        = some ["cpt_steamvr-valve_index_controller.xml"] := by decide
    rw [h1.2.2.1] at h2
    simp only [Option.map_some', Option.some.injEq] at h2
    exact ⟨st1, h, h1.1, h1.2.1, h1.2.2.1, h2⟩

/-! ### `XrpRunFrameLoop`: a failed `Init` on the session-ready event -/

/-- C22: a failed `Init` does not stop the frame loop. Whenever the session
becomes ready, `xrBeginSession` succeeds and the callback returns `false`
because `Init` failed on an item set, `XrpRunFrameLoop` goes on with the frame
cycle switched on: the value the callback returned is recorded nowhere in the
state of the loop. On the example run (the runtime cannot create the action
set, the session becomes ready in round 0, focused in round 1, and exits in
round 4) the callback returns `false` on `XRP_EVENT_SESSION_READY`, and the
loop then delivers `XRP_EVENT_DO_FRAME` three times, twice of them in the
focused state where the callback runs `MakeFile` on the item set that was not
initialised, and returns `true` in the end. -/
theorem C22_Init_failure_keeps_frame_loop_running :
    (∀ (frt : XrFrameRuntime) (host : Host) (round : Nat) (s : FrameLoop)
        (item_sets : List InputItemSet),
      s.session_running = false → XR_UNQUALIFIED_SUCCESS frt.xrBeginSession = true →
      InitItemSets (frt.env round).rt s.app.enabled_item_sets = some (false, item_sets) →
      XrpRunFrameLoop.handleEvent frt host round s
          (.XR_TYPE_EVENT_DATA_SESSION_STATE_CHANGED .XR_SESSION_STATE_READY)
        = .running { s with
            current_session_state := .XR_SESSION_STATE_READY
            session_running := true
            run_framecycle := true
            app := { s.app with enabled_item_sets := item_sets }
            delivered := s.delivered ++
              [{ event := .XRP_EVENT_SESSION_READY, session_state := .XR_SESSION_STATE_READY,
                 returned := false }] }) ∧
    InitItemSets exBrokenEnv.rt exApp.enabled_item_sets
      = some (false, exApp.enabled_item_sets) ∧
    (XrpRunFrameLoop exFrameRuntime exHost 6 exContext exApp).map LoopStep.summary
      = some (some (true,
          [{ event := .XRP_EVENT_SESSION_READY, session_state := .XR_SESSION_STATE_READY,
             returned := false },
           { event := .XRP_EVENT_DO_FRAME, session_state := .XR_SESSION_STATE_READY,
             returned := true },
           { event := .XRP_EVENT_SESSION_FOCUSED, session_state := .XR_SESSION_STATE_FOCUSED,
             returned := true },
           { event := .XRP_EVENT_DO_FRAME, session_state := .XR_SESSION_STATE_FOCUSED,
             returned := true },
           { event := .XRP_EVENT_DO_FRAME, session_state := .XR_SESSION_STATE_FOCUSED,
             returned := true }],
          exApp.enabled_item_sets, exMainState)) := by
  refine ⟨?_, by decide, by decide⟩
  intro frt host round s item_sets hrun hbegin hinit
  simp only [XrpRunFrameLoop.handleEvent, hrun, hbegin, XrpRunFrameLoop.callback, eventCallback,
    hinit, Bool.false_eq_true, if_false, if_true]

end CPT
